import Mathlib

/-! # Meridian reactor core: event sources, the event source registry and the select reactor

A shallow embedding of

* `core/include/meridian/core/event_source.{hpp,ipp}`,
* `core/src/event_source_registry.cpp`, `core/include/meridian/core/event_source_registry.ipp`,
* `reactor/src/select_reactor.cpp`, `reactor/include/meridian/reactor/select_reactor.hpp`.

Modelling conventions.

* An `event_source` object lives outside the registry (the hashtable is intrusive and
  non-owning).  Objects are kept in a list and a reference `event_source &` is the
  position of the object in that list.
* A `std::function<void ()>` is `Option Nat`: `none` is the empty function, `some c` is a
  callable target named `c`.  What target `c` does when it is called is given by a table
  `prog : Nat → List registration_op` of calls it makes on the reactor.
* `assert` is taken as enabled: a failed assertion ends the run with a fault, and so do
  the other ways in which the C++ leaves defined behaviour.
* `int` is `Int`; all descriptors that pass `FD_SET` lie in `[0, FD_SETSIZE)`, so no
  machine arithmetic can overflow.
-/

namespace meridian

/-- Ways in which a call does not return normally. -/
inductive Fault where
  /-- A failed `assert(...)`. -/
  | assertion_failed
  /-- An empty `std::function` was invoked (`std::bad_function_call`). -/
  | bad_function_call
  /-- The value of a disengaged `boost::optional` was read through `operator*`. -/
  | optional_uninitialized
  /-- A descriptor outside `[0, FD_SETSIZE)` was handed to `FD_SET` or `FD_CLR`. -/
  | fd_out_of_range
  /-- A reference that denotes no `event_source` object. -/
  | invalid_reference
  /-- The `reactor::exception` thrown by `wait_for_events`, with `errinfo_errno` and
  `errinfo_api_function`. -/
  | exception (errinfo_errno : Int) (errinfo_api_function : String)
  /-- The scan was cut off by the recursion bound of the embedding. -/
  | out_of_fuel
  deriving DecidableEq, Repr

/-- The `enum event_type` of `scoped_registration.hpp`. -/
inductive event_type where
  | read
  | write
  | except
  deriving DecidableEq, Repr

/-- The type `event_source::event_callback`: `none` is the empty function. -/
abbrev event_callback := Option Nat

/-- The class `event_source`: descriptor, three callbacks, and the state of the
intrusive hashtable hook it inherits (`linked`). -/
structure event_source where
  fd_ : Int
  read_callback_ : event_callback
  write_callback_ : event_callback
  except_callback_ : event_callback
  linked : Bool
  deriving DecidableEq, Repr

namespace event_source

/-- The constructor `event_source(int fd)`: no callback, hook not linked. -/
def mk_fd (fd : Int) : event_source :=
  { fd_ := fd, read_callback_ := none, write_callback_ := none,
    except_callback_ := none, linked := false }

def read_callback (s : event_source) : event_callback := s.read_callback_

def write_callback (s : event_source) : event_callback := s.write_callback_

def except_callback (s : event_source) : event_callback := s.except_callback_

/-- The callback of one kind. -/
def callback (s : event_source) : event_type → event_callback
  | .read => s.read_callback
  | .write => s.write_callback
  | .except => s.except_callback

def has_callback (s : event_source) : Bool :=
  s.read_callback_.isSome || s.write_callback_.isSome || s.except_callback_.isSome

def set_read_callback (s : event_source) (callback : event_callback) : event_source :=
  { s with read_callback_ := callback }

def set_write_callback (s : event_source) (callback : event_callback) : event_source :=
  { s with write_callback_ := callback }

def set_except_callback (s : event_source) (callback : event_callback) : event_source :=
  { s with except_callback_ := callback }

def remove_read_callback (s : event_source) : event_source :=
  { s with read_callback_ := none }

def remove_write_callback (s : event_source) : event_source :=
  { s with write_callback_ := none }

def remove_except_callback (s : event_source) : event_source :=
  { s with except_callback_ := none }

/-- The setter of one kind: `set_read_callback`, `set_write_callback` or
`set_except_callback`. -/
def set_callback (s : event_source) : event_type → event_callback → event_source
  | .read, callback => s.set_read_callback callback
  | .write, callback => s.set_write_callback callback
  | .except, callback => s.set_except_callback callback

/-- The remover of one kind: `remove_read_callback`, `remove_write_callback` or
`remove_except_callback`. -/
def clear_callback (s : event_source) : event_type → event_source
  | .read => s.remove_read_callback
  | .write => s.remove_write_callback
  | .except => s.remove_except_callback

def fd (s : event_source) : Int := s.fd_

/-- The hook member `is_linked()`. -/
def is_linked (s : event_source) : Bool := s.linked

/-- The functor `event_source::equal`. -/
def equal (lhs rhs : event_source) : Bool := decide (lhs.fd_ = rhs.fd_)

/-- The functor `event_source::hash`: the `int` converted to a 64-bit `size_t`. -/
def hash (source : event_source) : Nat := (source.fd_ % 2 ^ 64).toNat

end event_source

/-- One of the six registration calls that the registry and the reactor both offer, with
its arguments. -/
inductive registration_op where
  | register_read_callback (source : Nat) (callback : event_callback)
  | register_write_callback (source : Nat) (callback : event_callback)
  | register_except_callback (source : Nat) (callback : event_callback)
  | remove_read_callback (source : Nat)
  | remove_write_callback (source : Nat)
  | remove_except_callback (source : Nat)
  deriving DecidableEq, Repr

/-- The callback argument of a register call is a non-empty function. -/
def registration_op.callback_nonempty : registration_op → Bool
  | .register_read_callback _ callback => callback.isSome
  | .register_write_callback _ callback => callback.isSome
  | .register_except_callback _ callback => callback.isSome
  | _ => true

/-- The memory the registry works on: the `event_source` objects (owned elsewhere,
addressed by position) and the intrusive `event_source_unordered_set`, given by the
addresses of its elements in iteration order. -/
structure event_source_registry where
  objects : List event_source
  event_sources_ : List Nat
  deriving DecidableEq, Repr

namespace event_source_registry

/-- A registry with an empty hashtable over freshly constructed sources with the given
descriptors. -/
def init (fds : List Int) : event_source_registry :=
  { objects := fds.map event_source.mk_fd, event_sources_ := [] }

/-- Descriptor of the object at an address, if there is one. -/
def fd_at (r : event_source_registry) (j : Nat) : Option Int :=
  (r.objects[j]?).map event_source.fd

/-- Boost.Intrusive `unordered_set::find(key)`: the element equal to the key
(`event_source::equal` compares descriptors). -/
def unordered_set_find (r : event_source_registry) (fd : Int) : Option Nat :=
  r.event_sources_.find? (fun j => r.fd_at j == some fd)

/-- Boost.Intrusive `unordered_set::insert(value)`: unique insertion, nothing happens
when an equal element is present; the hook of an inserted value becomes linked. -/
def unordered_set_insert (r : event_source_registry) (source : Nat) (s : event_source) :
    event_source_registry :=
  match r.unordered_set_find s.fd with
  | some _ => r
  | none =>
    { objects := r.objects.set source { s with linked := true },
      event_sources_ := r.event_sources_ ++ [source] }

/-- Boost.Intrusive `unordered_set::erase(key)`: every element equal to the key leaves
the table and its hook becomes unlinked. -/
def unordered_set_erase (r : event_source_registry) (key : Int) : event_source_registry :=
  { objects := r.objects.mapIdx (fun j s =>
      if j ∈ r.event_sources_ ∧ s.fd = key then { s with linked := false } else s),
    event_sources_ := r.event_sources_.filter (fun j => !(r.fd_at j == some key)) }

def register_read_callback (r : event_source_registry) (source : Nat)
    (callback : event_callback) : Except Fault event_source_registry :=
  match r.objects[source]? with
  | none => .error .invalid_reference
  | some s =>
    let r1 := if !s.is_linked then r.unordered_set_insert source s else r
    match r1.objects[source]? with
    | none => .error .invalid_reference
    | some s1 => .ok { r1 with objects := r1.objects.set source (s1.set_read_callback callback) }

def register_write_callback (r : event_source_registry) (source : Nat)
    (callback : event_callback) : Except Fault event_source_registry :=
  match r.objects[source]? with
  | none => .error .invalid_reference
  | some s =>
    let r1 := if !s.is_linked then r.unordered_set_insert source s else r
    match r1.objects[source]? with
    | none => .error .invalid_reference
    | some s1 => .ok { r1 with objects := r1.objects.set source (s1.set_write_callback callback) }

def register_except_callback (r : event_source_registry) (source : Nat)
    (callback : event_callback) : Except Fault event_source_registry :=
  match r.objects[source]? with
  | none => .error .invalid_reference
  | some s =>
    let r1 := if !s.is_linked then r.unordered_set_insert source s else r
    match r1.objects[source]? with
    | none => .error .invalid_reference
    | some s1 => .ok { r1 with objects := r1.objects.set source (s1.set_except_callback callback) }

def erase_source_without_callback (r : event_source_registry) (source : Nat) :
    event_source_registry :=
  match r.objects[source]? with
  | none => r
  | some s => if !s.has_callback then r.unordered_set_erase s.fd else r

def remove_read_callback (r : event_source_registry) (source : Nat) :
    Except Fault event_source_registry :=
  match r.objects[source]? with
  | none => .error .invalid_reference
  | some s =>
    if !s.is_linked then .error .assertion_failed
    else
      .ok (erase_source_without_callback
        { r with objects := r.objects.set source s.remove_read_callback } source)

def remove_write_callback (r : event_source_registry) (source : Nat) :
    Except Fault event_source_registry :=
  match r.objects[source]? with
  | none => .error .invalid_reference
  | some s =>
    if !s.is_linked then .error .assertion_failed
    else
      .ok (erase_source_without_callback
        { r with objects := r.objects.set source s.remove_write_callback } source)

def remove_except_callback (r : event_source_registry) (source : Nat) :
    Except Fault event_source_registry :=
  match r.objects[source]? with
  | none => .error .invalid_reference
  | some s =>
    if !s.is_linked then .error .assertion_failed
    else
      .ok (erase_source_without_callback
        { r with objects := r.objects.set source s.remove_except_callback } source)

/-- The three register functions are one text up to the setter they call; this is that
text with the kind as an argument. -/
def register_callback (type : event_type) (r : event_source_registry) (source : Nat)
    (callback : event_callback) : Except Fault event_source_registry :=
  match r.objects[source]? with
  | none => .error .invalid_reference
  | some s =>
    let r1 := if !s.is_linked then r.unordered_set_insert source s else r
    match r1.objects[source]? with
    | none => .error .invalid_reference
    | some s1 => .ok { r1 with objects := r1.objects.set source (s1.set_callback type callback) }

/-- The three remove functions are one text up to the remover they call; this is that
text with the kind as an argument. -/
def remove_callback (type : event_type) (r : event_source_registry) (source : Nat) :
    Except Fault event_source_registry :=
  match r.objects[source]? with
  | none => .error .invalid_reference
  | some s =>
    if !s.is_linked then .error .assertion_failed
    else
      .ok (erase_source_without_callback
        { r with objects := r.objects.set source (s.clear_callback type) } source)

/-- The member `find(int fd)`: address of the registered source, `none` for `nullptr`. -/
def find (r : event_source_registry) (fd : Int) : Option Nat :=
  r.unordered_set_find fd

/-- The descriptors met by iterating `begin()` to `end()`. -/
def iterate_fds (r : event_source_registry) : List Int :=
  r.event_sources_.filterMap r.fd_at

/-- One call on the registry. -/
def apply (r : event_source_registry) : registration_op → Except Fault event_source_registry
  | .register_read_callback source callback => r.register_read_callback source callback
  | .register_write_callback source callback => r.register_write_callback source callback
  | .register_except_callback source callback => r.register_except_callback source callback
  | .remove_read_callback source => r.remove_read_callback source
  | .remove_write_callback source => r.remove_write_callback source
  | .remove_except_callback source => r.remove_except_callback source

/-- A sequence of calls on the registry, stopping at the first that does not return. -/
def run (r : event_source_registry) : List registration_op → Except Fault event_source_registry
  | [] => .ok r
  | op :: ops =>
    match r.apply op with
    | .ok r1 => run r1 ops
    | .error f => .error f

end event_source_registry

/-- The constant `FD_SETSIZE` of `<sys/select.h>`, a system header: the number of bits of
an `fd_set`. -/
def FD_SETSIZE : Int := 1024

/-- The type `fd_set`: the set of the descriptors whose bit is set. -/
abbrev fd_set := Finset Int

/-- The macro `FD_SET(fd, &set)`; outside `[0, FD_SETSIZE)` its behaviour is undefined. -/
def FD_SET (fd : Int) (set : fd_set) : Except Fault fd_set :=
  if 0 ≤ fd ∧ fd < FD_SETSIZE then .ok (insert fd set) else .error .fd_out_of_range

/-- The macro `FD_CLR(fd, &set)`; outside `[0, FD_SETSIZE)` its behaviour is undefined. -/
def FD_CLR (fd : Int) (set : fd_set) : Except Fault fd_set :=
  if 0 ≤ fd ∧ fd < FD_SETSIZE then .ok (set.erase fd) else .error .fd_out_of_range

/-- The macro `FD_ISSET(fd, &set)`. -/
def FD_ISSET (fd : Int) (set : fd_set) : Bool := decide (fd ∈ set)

/-- The class `select_reactor`; `registry_` carries the memory of the sources along. -/
structure select_reactor where
  registry_ : event_source_registry
  maxfd_ : Option Int
  read_set_ : fd_set
  write_set_ : fd_set
  except_set_ : fd_set
  deriving DecidableEq

namespace select_reactor

/-- The constructors of `select_reactor` (empty registry, `maxfd_()` disengaged, three
`FD_ZERO`), over freshly constructed sources with the given descriptors. -/
def init (fds : List Int) : select_reactor :=
  { registry_ := event_source_registry.init fds, maxfd_ := none,
    read_set_ := ∅, write_set_ := ∅, except_set_ := ∅ }

def cache_fd_read_register (r : select_reactor) (source : Nat) : Except Fault select_reactor :=
  match r.registry_.objects[source]? with
  | none => .error .invalid_reference
  | some s =>
    match r.maxfd_ with
    | none => .ok { r with maxfd_ := some s.fd }
    | some maxfd => if s.fd > maxfd then .ok { r with maxfd_ := some s.fd } else .ok r

def recache_max_fd (r : select_reactor) : select_reactor :=
  { r with maxfd_ := some (r.registry_.iterate_fds.foldl (fun maxfd fd => max fd maxfd) (-1)) }

def register_read_callback (r : select_reactor) (source : Nat) (callback : event_callback) :
    Except Fault select_reactor := do
  if callback.isNone then throw .assertion_failed
  let registry ← r.registry_.register_read_callback source callback
  let r1 ← cache_fd_read_register { r with registry_ := registry } source
  match r1.registry_.objects[source]? with
  | none => throw .invalid_reference
  | some s =>
    let set ← FD_SET s.fd r1.read_set_
    pure { r1 with read_set_ := set }

def register_write_callback (r : select_reactor) (source : Nat) (callback : event_callback) :
    Except Fault select_reactor := do
  if callback.isNone then throw .assertion_failed
  let registry ← r.registry_.register_write_callback source callback
  let r1 ← cache_fd_read_register { r with registry_ := registry } source
  match r1.registry_.objects[source]? with
  | none => throw .invalid_reference
  | some s =>
    let set ← FD_SET s.fd r1.write_set_
    pure { r1 with write_set_ := set }

def register_except_callback (r : select_reactor) (source : Nat) (callback : event_callback) :
    Except Fault select_reactor := do
  if callback.isNone then throw .assertion_failed
  let registry ← r.registry_.register_except_callback source callback
  let r1 ← cache_fd_read_register { r with registry_ := registry } source
  match r1.registry_.objects[source]? with
  | none => throw .invalid_reference
  | some s =>
    let set ← FD_SET s.fd r1.except_set_
    pure { r1 with except_set_ := set }

def remove_read_callback (r : select_reactor) (source : Nat) : Except Fault select_reactor := do
  let registry ← r.registry_.remove_read_callback source
  match registry.objects[source]? with
  | none => throw .invalid_reference
  | some s =>
    let set ← FD_CLR s.fd r.read_set_
    pure { r with registry_ := registry, maxfd_ := none, read_set_ := set }

/-- Modelled from the spec: `select_reactor::remove_write_callback` is declared in
`select_reactor.hpp` and called by `scoped_registration`, its body is not among the
sources.  Spec 4.3: delegates to the registry, clears the descriptor from the
corresponding bitmap, and invalidates the cached maximum unconditionally. -/
def remove_write_callback (r : select_reactor) (source : Nat) : Except Fault select_reactor := do
  let registry ← r.registry_.remove_write_callback source
  match registry.objects[source]? with
  | none => throw .invalid_reference
  | some s =>
    let set ← FD_CLR s.fd r.write_set_
    pure { r with registry_ := registry, maxfd_ := none, write_set_ := set }

/-- Modelled from the spec: `select_reactor::remove_except_callback` is declared in
`select_reactor.hpp` and called by `scoped_registration`, its body is not among the
sources.  Spec 4.3: delegates to the registry, clears the descriptor from the
corresponding bitmap, and invalidates the cached maximum unconditionally. -/
def remove_except_callback (r : select_reactor) (source : Nat) : Except Fault select_reactor := do
  let registry ← r.registry_.remove_except_callback source
  match registry.objects[source]? with
  | none => throw .invalid_reference
  | some s =>
    let set ← FD_CLR s.fd r.except_set_
    pure { r with registry_ := registry, maxfd_ := none, except_set_ := set }

/-- The interest bitmap of one kind. -/
def interest_set (r : select_reactor) : event_type → fd_set
  | .read => r.read_set_
  | .write => r.write_set_
  | .except => r.except_set_

/-- The same reactor with the interest bitmap of one kind replaced. -/
def set_interest_set (r : select_reactor) : event_type → fd_set → select_reactor
  | .read, set => { r with read_set_ := set }
  | .write, set => { r with write_set_ := set }
  | .except, set => { r with except_set_ := set }

/-- The three register functions of the reactor with the kind as an argument. -/
def register_callback (type : event_type) (r : select_reactor) (source : Nat)
    (callback : event_callback) : Except Fault select_reactor := do
  if callback.isNone then throw .assertion_failed
  let registry ← r.registry_.register_callback type source callback
  let r1 ← cache_fd_read_register { r with registry_ := registry } source
  match r1.registry_.objects[source]? with
  | none => throw .invalid_reference
  | some s =>
    let set ← FD_SET s.fd (r1.interest_set type)
    pure (r1.set_interest_set type set)

/-- The three remove functions of the reactor with the kind as an argument. -/
def remove_callback (type : event_type) (r : select_reactor) (source : Nat) :
    Except Fault select_reactor := do
  let registry ← r.registry_.remove_callback type source
  match registry.objects[source]? with
  | none => throw .invalid_reference
  | some s =>
    let set ← FD_CLR s.fd (r.interest_set type)
    pure ({ r with registry_ := registry, maxfd_ := none }.set_interest_set type set)

/-- The callback of kind `type` that a dispatch of descriptor `fd` looks up: that of the
source `find(fd)` returns. -/
def callback_for (r : select_reactor) (fd : Int) (type : event_type) : event_callback :=
  match r.registry_.find fd with
  | none => none
  | some j =>
    match r.registry_.objects[j]? with
    | none => none
    | some s => s.callback type

/-- One call on the reactor. -/
def apply (r : select_reactor) : registration_op → Except Fault select_reactor
  | .register_read_callback source callback => r.register_read_callback source callback
  | .register_write_callback source callback => r.register_write_callback source callback
  | .register_except_callback source callback => r.register_except_callback source callback
  | .remove_read_callback source => r.remove_read_callback source
  | .remove_write_callback source => r.remove_write_callback source
  | .remove_except_callback source => r.remove_except_callback source

/-- A sequence of calls on the reactor, stopping at the first that does not return. -/
def run (r : select_reactor) : List registration_op → Except Fault select_reactor
  | [] => .ok r
  | op :: ops =>
    match r.apply op with
    | .ok r1 => run r1 ops
    | .error f => .error f

end select_reactor

/-- The arguments of one `::select` call. -/
structure select_call where
  nfds : Int
  read_set : fd_set
  write_set : fd_set
  except_set : fd_set
  tv_sec : Int
  tv_usec : Int
  deriving DecidableEq

/-- What one `::select` call leaves behind: its return value, the three sets as it
rewrote them, and `errno`. -/
structure select_return where
  result : Int
  read_set : fd_set
  write_set : fd_set
  except_set : fd_set
  errno : Int
  deriving DecidableEq

/-- One invocation of a callback by the dispatch scan. -/
structure invocation where
  fd : Int
  type : event_type
  callback : Nat
  deriving DecidableEq, Repr

/-- What an observer of `wait_for_events` sees: the reactor, the callbacks invoked so
far, and the `::select` calls made so far. -/
structure machine where
  reactor : select_reactor
  invoked : List invocation
  select_calls : List select_call
  deriving DecidableEq

/-- How a piece of `wait_for_events` ends: it returns a value, or it is left with a fault
in the state reached then. -/
inductive outcome (α : Type) where
  | returned (a : α)
  | failed (f : Fault) (m : machine)
  deriving DecidableEq

namespace outcome

/-- The call returned normally. -/
def is_returned {α : Type} : outcome α → Bool
  | .returned _ => true
  | .failed _ _ => false

/-- The fault that ended the call, if one did. -/
def fault {α : Type} : outcome α → Option Fault
  | .returned _ => none
  | .failed f _ => some f

/-- The state in which the call returned or was left. -/
def final : outcome machine → machine
  | .returned m => m
  | .failed _ m => m

end outcome

namespace select_reactor

/-- The expression `callback()` on the callback of kind `type` of the source at address
`source`: the target is logged and the reactor calls it makes are run. -/
def invoke (prog : Nat → List registration_op) (m : machine) (source : Nat) (fd : Int)
    (type : event_type) : outcome machine :=
  match m.reactor.registry_.objects[source]? with
  | none => .failed .invalid_reference m
  | some s =>
    match s.callback type with
    | none => .failed .bad_function_call m
    | some c =>
      let m1 : machine :=
        { m with invoked := m.invoked ++ [({ fd := fd, type := type, callback := c } : invocation)] }
      match m1.reactor.run (prog c) with
      | .ok r => .returned { m1 with reactor := r }
      | .error f => .failed f m1

/-- The body of the dispatch loop of `wait_for_events` for one value of `fd`; returns the
local `source` next to the state. -/
def dispatch_fd (prog : Nat → List registration_op) (read_set write_set except_set : fd_set)
    (fd : Int) (m : machine) : outcome (machine × Option Nat) :=
  let after_read : outcome (machine × Option Nat) :=
    if FD_ISSET fd read_set then
      match m.reactor.registry_.find fd with
      | none => .failed .assertion_failed m
      | some source =>
        match invoke prog m source fd .read with
        | .returned m1 => .returned (m1, some source)
        | .failed f m1 => .failed f m1
    else .returned (m, none)
  let after_write : outcome (machine × Option Nat) :=
    match after_read with
    | .failed f m1 => .failed f m1
    | .returned (m1, source) =>
      if FD_ISSET fd write_set then
        let found : outcome (machine × Option Nat) :=
          match source with
          | some j => .returned (m1, some j)
          | none =>
            match m1.reactor.registry_.find fd with
            | none => .failed .assertion_failed m1
            | some j => .returned (m1, some j)
        match found with
        | .returned (m2, some j) =>
          (match invoke prog m2 j fd .write with
          | .returned m3 => .returned (m3, some j)
          | .failed f m3 => .failed f m3)
        | other => other
      else .returned (m1, source)
  match after_write with
  | .failed f m1 => .failed f m1
  | .returned (m1, source) =>
    if FD_ISSET fd except_set then
      let found : outcome (machine × Option Nat) :=
        match source with
        | some j => .returned (m1, some j)
        | none =>
          match m1.reactor.registry_.find fd with
          | none => .failed .assertion_failed m1
          | some j => .returned (m1, some j)
      match found with
      | .returned (m2, some j) =>
        (match invoke prog m2 j fd .except with
        | .returned m3 => .returned (m3, some j)
        | .failed f m3 => .failed f m3)
      | other => other
    else .returned (m1, source)

/-- The dispatch loop `for (int fd = 0; fd <= *maxfd_ && result; ++fd)`, entered at its
condition.  The loop variable only takes values from `0` upwards. -/
def scan (prog : Nat → List registration_op) (read_set write_set except_set : fd_set) :
    Nat → Nat → Int → machine → outcome machine
  | 0, _, _, m => .failed .out_of_fuel m
  | fuel + 1, fd, result, m =>
    match m.reactor.maxfd_ with
    | none => .failed .optional_uninitialized m
    | some maxfd =>
      if (fd : Int) ≤ maxfd ∧ result ≠ 0 then
        match dispatch_fd prog read_set write_set except_set fd m with
        | .failed f m1 => .failed f m1
        | .returned (m1, source) =>
          scan prog read_set write_set except_set fuel (fd + 1)
            (if source.isSome then result - 1 else result) m1
      else .returned m

/-- A bound on the number of times the loop condition can be evaluated: descriptors that
pass `FD_SET` are below `FD_SETSIZE`, so `maxfd_` never rises above the larger of its
value at entry and `FD_SETSIZE - 1`. -/
def scan_fuel (maxfd : Int) : Nat := max (maxfd + 2).toNat (FD_SETSIZE + 1).toNat

/-- The member `wait_for_events`; `select` stands for the system call. -/
def wait_for_events (select : select_call → select_return) (prog : Nat → List registration_op)
    (r : select_reactor) : outcome machine :=
  let r1 := if r.maxfd_.isNone then r.recache_max_fd else r
  let m0 : machine := { reactor := r1, invoked := [], select_calls := [] }
  match r1.maxfd_ with
  | none => .failed .optional_uninitialized m0
  | some maxfd =>
    let call : select_call :=
      { nfds := maxfd + 1, read_set := r1.read_set_, write_set := r1.write_set_,
        except_set := r1.except_set_, tv_sec := 5, tv_usec := 0 }
    let ret := select call
    let m : machine := { reactor := r1, invoked := [], select_calls := [call] }
    if ret.result < 0 then .failed (.exception ret.errno "select") m
    else scan prog ret.read_set ret.write_set ret.except_set (scan_fuel maxfd) 0 ret.result m

end select_reactor

/-! ## Definitions used by the statements and proofs below -/

namespace event_source_registry

/-- The hashtable holds at most one element per descriptor. -/
def unique_keys (r : event_source_registry) : Prop :=
  ∀ i ∈ r.event_sources_, ∀ j ∈ r.event_sources_, ∀ fd : Int,
    r.fd_at i = some fd → r.fd_at j = some fd → i = j

/-- Distinct objects have distinct descriptors. -/
def distinct_fds (r : event_source_registry) : Prop :=
  ∀ i j : Nat, ∀ fd : Int, r.fd_at i = some fd → r.fd_at j = some fd → i = j

/-- The state the registry keeps between calls, when callers keep the reactor's
preconditions: an object is linked exactly when it is in the table, and exactly when it
holds a callback. -/
structure inv (r : event_source_registry) : Prop where
  distinct : r.distinct_fds
  linked_iff : ∀ (j : Nat) (s : event_source), r.objects[j]? = some s →
    (s.linked = true ↔ j ∈ r.event_sources_)
  callback_iff : ∀ (j : Nat) (s : event_source), r.objects[j]? = some s →
    (s.linked = true ↔ s.has_callback = true)

end event_source_registry

namespace select_reactor

/-- The value `cache_fd_read_register` leaves in `maxfd_`. -/
def cached_after_register (maxfd : Option Int) (fd : Int) : Int :=
  match maxfd with
  | none => fd
  | some m => if fd > m then fd else m

/-- The state the reactor keeps between calls: the registry invariant, and the interest
bitmaps mirror the callbacks of the objects. -/
structure inv (r : select_reactor) : Prop where
  registry : r.registry_.inv
  bitmap : ∀ (type : event_type) (j : Nat) (s : event_source),
    r.registry_.objects[j]? = some s →
      (s.fd ∈ r.interest_set type ↔ (s.callback type).isSome = true)
  covered : ∀ (type : event_type) (d : Int), d ∈ r.interest_set type →
    ∃ (j : Nat) (s : event_source), r.registry_.objects[j]? = some s ∧ s.fd = d
  in_range : ∀ (type : event_type) (d : Int), d ∈ r.interest_set type →
    0 ≤ d ∧ d < FD_SETSIZE

/-- The set select left for one kind. -/
def kind_set (read_set write_set except_set : fd_set) : event_type → fd_set
  | .read => read_set
  | .write => write_set
  | .except => except_set

/-- The invocations a dispatch of `fd` makes when every callback it looks up is there:
one per kind whose set holds `fd`, in the order read, write, except. -/
def ready_invocations (r : select_reactor) (read_set write_set except_set : fd_set)
    (fd : Int) : List invocation :=
  [event_type.read, event_type.write, event_type.except].filterMap fun type =>
    if fd ∈ kind_set read_set write_set except_set type then
      (r.callback_for fd type).map fun c => { fd := fd, type := type, callback := c }
    else none

/-- The invocations of a scan over the descriptors `lo, lo + 1, ..., lo + n - 1`. -/
def expected (r : select_reactor) (read_set write_set except_set : fd_set) (lo n : Nat) :
    List invocation :=
  (List.range' lo n).flatMap fun d => ready_invocations r read_set write_set except_set (d : Int)

/-- The number of descriptors among `lo, ..., lo + n - 1` that are in one of the sets. -/
def ready_count (read_set write_set except_set : fd_set) (lo n : Nat) : Nat :=
  ((List.range' lo n).filter fun d : Nat =>
    decide ((d : Int) ∈ read_set ∨ (d : Int) ∈ write_set ∨ (d : Int) ∈ except_set)).length

end select_reactor

/-- Position of a kind in the dispatch order read, write, except. -/
def event_type.rank : event_type → Nat
  | .read => 0
  | .write => 1
  | .except => 2

/-- The order by (descriptor, kind), strict. -/
def invocation.before (x y : invocation) : Prop :=
  x.fd < y.fd ∨ (x.fd = y.fd ∧ x.type.rank < y.type.rank)

/-- A `::select` that succeeds the way select(2) documents: the sets it leaves are subsets
of the sets it was given, restricted to descriptors below `nfds`, and the return value is
the number of bits left in the three sets. -/
def select_succeeds (select : select_call → select_return) : Prop :=
  ∀ call : select_call,
    (select call).read_set ⊆ call.read_set ∧
    (select call).write_set ⊆ call.write_set ∧
    (select call).except_set ⊆ call.except_set ∧
    (∀ d ∈ (select call).read_set ∪ (select call).write_set ∪ (select call).except_set,
      d < call.nfds) ∧
    (select call).result =
      ((select call).read_set.card + (select call).write_set.card +
        (select call).except_set.card : Nat)

/-- The `::select` that finds every watched descriptor below `nfds` ready. -/
def select_all_ready (call : select_call) : select_return :=
  { result := ((call.read_set.filter (· < call.nfds)).card +
      (call.write_set.filter (· < call.nfds)).card +
      (call.except_set.filter (· < call.nfds)).card : Nat),
    read_set := call.read_set.filter (· < call.nfds),
    write_set := call.write_set.filter (· < call.nfds),
    except_set := call.except_set.filter (· < call.nfds),
    errno := 0 }

namespace select_reactor

/-- The reactor as `wait_for_events` has it once the cached maximum is there: the first
two lines of its body. -/
def prepared (r : select_reactor) : select_reactor :=
  if r.maxfd_.isNone then r.recache_max_fd else r

/-- The arguments `wait_for_events` hands to `::select` when the cached maximum is
`maxfd`. -/
def select_arguments (r : select_reactor) (maxfd : Int) : select_call :=
  { nfds := maxfd + 1, read_set := r.read_set_, write_set := r.write_set_,
    except_set := r.except_set_, tv_sec := 5, tv_usec := 0 }

end select_reactor

/-- Sources with descriptors 3 and 7, both registered for read, then 3 removed and
registered again: the calls of the C1 example. -/
def cache_example_ops : List registration_op :=
  [.register_read_callback 1 (some 11), .register_read_callback 0 (some 10),
   .remove_read_callback 0, .register_read_callback 0 (some 10)]

/-- The reactor after `cache_example_ops`. -/
def cache_example : select_reactor :=
  { registry_ :=
      { objects := [⟨3, some 10, none, none, true⟩, ⟨7, some 11, none, none, true⟩],
        event_sources_ := [1, 0] },
    maxfd_ := some 3,
    read_set_ := {3, 7},
    write_set_ := ∅, except_set_ := ∅ }

/-- A source with descriptor 5 whose read callback `1` removes its own read registration. -/
def self_removal_prog : Nat → List registration_op :=
  fun c => if c = 1 then [.remove_read_callback 0] else []

/-- The reactor with the one source of `self_removal_prog` registered for read. -/
def self_removal_example : select_reactor :=
  { registry_ := { objects := [⟨5, some 1, none, none, true⟩], event_sources_ := [0] },
    maxfd_ := some 5, read_set_ := {5}, write_set_ := ∅, except_set_ := ∅ }

/-- Sources with descriptors 4 and 6; the read callback `1` of 4 removes the read
registration of 6. -/
def cross_removal_prog : Nat → List registration_op :=
  fun c => if c = 1 then [.remove_read_callback 1] else []

/-- The reactor with both sources of `cross_removal_prog` registered for read. -/
def cross_example : select_reactor :=
  { registry_ :=
      { objects := [⟨4, some 1, none, none, true⟩, ⟨6, some 2, none, none, true⟩],
        event_sources_ := [0, 1] },
    maxfd_ := some 6, read_set_ := {6, 4}, write_set_ := ∅, except_set_ := ∅ }

/-- Two sources with the same descriptor 5: the first registered for read, then a write
registration attempted on the second. -/
def duplicate_ops : List registration_op :=
  [.register_read_callback 0 (some 1), .register_write_callback 1 (some 2)]

/-- The registry after `duplicate_ops`: the second source holds a callback and is not in
the table. -/
def duplicate_registry : event_source_registry :=
  { objects := [⟨5, some 1, none, none, true⟩, ⟨5, none, some 2, none, false⟩],
    event_sources_ := [0] }

/-- Sources with descriptors 3 and 7: read and write registered on the first, read on the
second, then the read registrations removed. -/
def find_example_ops : List registration_op :=
  [.register_read_callback 0 (some 1), .register_write_callback 0 (some 2),
   .register_read_callback 1 (some 3), .remove_read_callback 0, .remove_read_callback 1]

/-- The registry after `find_example_ops`. -/
def find_example : event_source_registry :=
  { objects := [⟨3, none, some 2, none, true⟩, ⟨7, none, none, none, false⟩],
    event_sources_ := [0] }

/-- The reactor after `find_example_ops`. -/
def bitmap_example : select_reactor :=
  { registry_ := find_example, maxfd_ := none,
    read_set_ := ∅, write_set_ := {3}, except_set_ := ∅ }

/-- Sources with descriptors 3 and 7, each registered for read with its own callback
(the counters A and B of the scenario are the targets `10` and `11`). -/
def counters_ops : List registration_op :=
  [.register_read_callback 0 (some 10), .register_read_callback 1 (some 11)]

/-- The reactor after `counters_ops`. -/
def counters_example : select_reactor :=
  { registry_ :=
      { objects := [⟨3, some 10, none, none, true⟩, ⟨7, some 11, none, none, true⟩],
        event_sources_ := [0, 1] },
    maxfd_ := some 7, read_set_ := {7, 3}, write_set_ := ∅, except_set_ := ∅ }

/-- Sources with descriptors 3, 5 and 7: read on 3 and 7, read and write on 5, registered
in an order that is not the dispatch order. -/
def ordering_ops : List registration_op :=
  [.register_write_callback 1 (some 52), .register_read_callback 2 (some 70),
   .register_read_callback 1 (some 51), .register_read_callback 0 (some 30)]

/-- The reactor after `ordering_ops`. -/
def ordering_example : select_reactor :=
  { registry_ :=
      { objects := [⟨3, some 30, none, none, true⟩, ⟨5, some 51, some 52, none, true⟩,
          ⟨7, some 70, none, none, true⟩],
        event_sources_ := [1, 2, 0] },
    maxfd_ := some 7, read_set_ := {3, 5, 7}, write_set_ := {5}, except_set_ := ∅ }

/-- The reactor in which the first of two sources with descriptor 5 is registered for
read. -/
def duplicate_example : select_reactor :=
  { registry_ :=
      { objects := [⟨5, some 1, none, none, true⟩, ⟨5, none, none, none, false⟩],
        event_sources_ := [0] },
    maxfd_ := some 5, read_set_ := {5}, write_set_ := ∅, except_set_ := ∅ }

namespace select_reactor

/-- The `::select` call the next `wait_for_events` makes: the first lines of its body, up
to the call. -/
def next_select_call (r : select_reactor) : select_call :=
  r.select_arguments (r.prepared.maxfd_.getD (-1))

end select_reactor

/-- Sources with descriptors 4 and 6; the read callback `1` of 4 registers the read
callback `3` on the source of 6, in place of `2`. -/
def replace_prog : Nat → List registration_op :=
  fun c => if c = 1 then [.register_read_callback 1 (some 3)] else []

namespace event_source_registry

/-- The register function of one kind: `register_read_callback`,
`register_write_callback` or `register_except_callback`. -/
def register (type : event_type) (r : event_source_registry) (source : Nat)
    (callback : event_callback) : Except Fault event_source_registry :=
  match type with
  | .read => r.register_read_callback source callback
  | .write => r.register_write_callback source callback
  | .except => r.register_except_callback source callback

/-- The remove function of one kind: `remove_read_callback`, `remove_write_callback` or
`remove_except_callback`. -/
def remove (type : event_type) (r : event_source_registry) (source : Nat) :
    Except Fault event_source_registry :=
  match type with
  | .read => r.remove_read_callback source
  | .write => r.remove_write_callback source
  | .except => r.remove_except_callback source

/-- What holds of the registry after any calls, whatever the descriptors and the
callbacks: no source is in the table twice, an object is linked exactly when it is in the
table, and the table holds at most one element per descriptor. -/
structure wf (r : event_source_registry) : Prop where
  nodup : r.event_sources_.Nodup
  linked_iff : ∀ (j : Nat) (s : event_source), r.objects[j]? = some s →
    (s.linked = true ↔ j ∈ r.event_sources_)
  unique : r.unique_keys

end event_source_registry

namespace select_reactor

/-- The register function of the reactor of one kind. -/
def register (type : event_type) (r : select_reactor) (source : Nat)
    (callback : event_callback) : Except Fault select_reactor :=
  match type with
  | .read => r.register_read_callback source callback
  | .write => r.register_write_callback source callback
  | .except => r.register_except_callback source callback

/-- The remove function of the reactor of one kind (`remove_read_callback` from the source,
the other two as modelled from the spec). -/
def remove (type : event_type) (r : select_reactor) (source : Nat) :
    Except Fault select_reactor :=
  match type with
  | .read => r.remove_read_callback source
  | .write => r.remove_write_callback source
  | .except => r.remove_except_callback source

/-- A cached maximum is only there while a source is registered. -/
def cache_inv (r : select_reactor) : Prop :=
  r.maxfd_.isSome = true → r.registry_.event_sources_ ≠ []

end select_reactor

/-- The class template `scoped_registration<REACTOR_TYPE, EVENT_TYPE>` for
`REACTOR_TYPE = select_reactor`: the template argument `EVENT_TYPE` and the member
`source_` (`none` is `nullptr`).  The member `reactor_` is a reference: the reactor is
passed to and returned by each member function. -/
structure scoped_registration where
  EVENT_TYPE : event_type
  source_ : Option Nat
  deriving DecidableEq, Repr

namespace scoped_registration

/-- The constructor of `scoped_registration`: one register call chosen by `EVENT_TYPE`. -/
def construct (EVENT_TYPE : event_type) (reactor : select_reactor) (source : Nat)
    (callback : event_callback) : Except Fault (scoped_registration × select_reactor) :=
  match EVENT_TYPE with
  | .read =>
    match reactor.register_read_callback source callback with
    | .ok r => .ok ({ EVENT_TYPE := .read, source_ := some source }, r)
    | .error f => .error f
  | .write =>
    match reactor.register_write_callback source callback with
    | .ok r => .ok ({ EVENT_TYPE := .write, source_ := some source }, r)
    | .error f => .error f
  | .except =>
    match reactor.register_except_callback source callback with
    | .ok r => .ok ({ EVENT_TYPE := .except, source_ := some source }, r)
    | .error f => .error f

/-- The member `remove()`: `reactor_.remove_read_callback(source_); source_ = nullptr;`,
whatever `EVENT_TYPE` is.  The source passes the pointer `source_` where the reactor takes
a reference, which does not compile once the member is instantiated; the argument is read
as `*source_` here, as the destructor writes it. -/
def remove (w : scoped_registration) (reactor : select_reactor) :
    Except Fault (scoped_registration × select_reactor) :=
  match w.source_ with
  | none => .error .invalid_reference
  | some source =>
    match reactor.remove_read_callback source with
    | .ok r => .ok ({ w with source_ := none }, r)
    | .error f => .error f

/-- The calls the destructor makes on the reactor: none when `source_` is null, else one
remove call chosen by `EVENT_TYPE`. -/
def destructor_calls (w : scoped_registration) : List registration_op :=
  match w.source_ with
  | none => []
  | some source =>
    match w.EVENT_TYPE with
    | .read => [.remove_read_callback source]
    | .write => [.remove_write_callback source]
    | .except => [.remove_except_callback source]

/-- The destructor `~scoped_registration()`. -/
def destroy (w : scoped_registration) (reactor : select_reactor) : Except Fault select_reactor :=
  reactor.run w.destructor_calls

end scoped_registration

/-- A `::select` that fails with `EINTR`: it returns -1 and leaves `errno = 4`. -/
def select_interrupted (_call : select_call) : select_return :=
  { result := -1, read_set := ∅, write_set := ∅, except_set := ∅, errno := 4 }

/-- The registry with one source of descriptor 9 that holds a write callback only. -/
def write_only_registry : event_source_registry :=
  { objects := [⟨9, none, some 1, none, true⟩], event_sources_ := [0] }

/-- A source with descriptor 9 registered for read and removed again. -/
def emptied_ops : List registration_op :=
  [.register_read_callback 0 (some 1), .remove_read_callback 0]

/-- The reactor after `emptied_ops`: nothing is registered. -/
def emptied_example : select_reactor :=
  { registry_ := { objects := [⟨9, none, none, none, false⟩], event_sources_ := [] },
    maxfd_ := none, read_set_ := ∅, write_set_ := ∅, except_set_ := ∅ }

/-- The reactor after a `scoped_registration<write>` has been constructed on a fresh source
with descriptor 9. -/
def scoped_write_example : select_reactor :=
  { registry_ := write_only_registry, maxfd_ := some 9, read_set_ := ∅, write_set_ := {9},
    except_set_ := ∅ }

/-- The reactor after a `scoped_registration<read>` has been constructed on a fresh source
with descriptor 9. -/
def scoped_read_example : select_reactor :=
  { registry_ := { objects := [⟨9, some 1, none, none, true⟩], event_sources_ := [0] },
    maxfd_ := some 9, read_set_ := {9}, write_set_ := ∅, except_set_ := ∅ }

/-- One of the three blocks `if (FD_ISSET(fd, &set)) { ... }` in the body of the dispatch
loop, with the kind as an argument: the local `source` is looked up if it is still null,
asserted, and the callback of the kind is called. -/
def dispatch_stage (prog : Nat → List registration_op) (set : fd_set) (type : event_type)
    (fd : Int) (m1 : machine) (source : Option Nat) : outcome (machine × Option Nat) :=
  if FD_ISSET fd set then
    let found : outcome (machine × Option Nat) :=
      match source with
      | some j => .returned (m1, some j)
      | none =>
        match m1.reactor.registry_.find fd with
        | none => .failed .assertion_failed m1
        | some j => .returned (m1, some j)
    match found with
    | .returned (m2, some j) =>
      (match select_reactor.invoke prog m2 j fd type with
      | .returned m3 => .returned (m3, some j)
      | .failed f m3 => .failed f m3)
    | other => other
  else .returned (m1, source)

/-- The machine an outcome of a dispatch stage carries. -/
def outcome.machine_of : outcome (machine × Option Nat) → machine
  | .returned (m, _) => m
  | .failed _ m => m

/-- The trace of `m1` continues the trace of `m`, and if no callback in the trace of `m1`
makes a call on the reactor, the reactor of `m1` is the reactor of `m`. -/
def machine.untouched (prog : Nat → List registration_op) (m m1 : machine) : Prop :=
  (∃ l, m1.invoked = m.invoked ++ l) ∧
    ((∀ i ∈ m1.invoked, prog i.callback = []) → m1.reactor = m.reactor)

/-! ## The network library: `ip_address_family` and its stream operators -/

/-- The enumeration `ip_address_family`. -/
inductive ip_address_family where
  | IPv4
  | IPv6
  deriving DecidableEq, Repr

/-- The function `family_length`: `sizeof(in_addr)` for IPv4, `sizeof(in6_addr)` for
IPv6. -/
def family_length : ip_address_family → Nat
  | .IPv4 => 4
  | .IPv6 => 16

/-- The ways a function of the network library is left other than by returning. -/
inductive network_fault where
  /-- A failed `assert`. -/
  | assertion_failed
  /-- The class `network::exception` carrying `errinfo_address`. -/
  | exception_address (address : List Char)
  /-- The class `network::exception` carrying `core::exception_message`. -/
  | exception_message (message : String)
  /-- The class `network::exception` carrying `errinfo_api_function` and `errinfo_errno`. -/
  | exception_api (function : String)
  /-- The class `unsupported_operation_exception`. -/
  | unsupported_operation_exception
  /-- Control reaches `__builtin_unreachable()`. -/
  | unreachable
  deriving DecidableEq, Repr

/-- The function `isspace` of the "C" locale: space, and `\t`, `\n`, `\v`, `\f`, `\r`
(codes 9 to 13). -/
def isspace (c : Char) : Bool := decide (c.toNat = 32 ∨ (9 ≤ c.toNat ∧ c.toNat ≤ 13))

/-- The function `isdigit`: the codes 48 (`'0'`) to 57 (`'9'`). -/
def isdigit (c : Char) : Bool := decide (48 ≤ c.toNat ∧ c.toNat ≤ 57)

/-- A `std::istream` that reads from a string: the characters not yet read and the state
bits.  The format flags are those of a fresh stream (`skipws` set, width 0). -/
structure istream where
  buffer : List Char
  failbit : Bool
  eofbit : Bool
  badbit : Bool
  deriving DecidableEq, Repr

namespace istream

/-- The constructor `std::istringstream is(str)`. -/
def of_string (str : List Char) : istream :=
  { buffer := str, failbit := false, eofbit := false, badbit := false }

/-- The member `good()`. -/
def good (is : istream) : Bool := !is.failbit && !is.eofbit && !is.badbit

/-- The member `fail()`. -/
def fail (is : istream) : Bool := is.failbit || is.badbit

/-- The expression `is >> temp` for a fresh `std::string temp`; returns the string next to
the stream.  If the stream is not good the sentry sets `failbit` and nothing is read.
Otherwise leading white space is skipped; at the end of the input the sentry sets
`failbit` and `eofbit`; else characters are taken up to the next white space, and `eofbit`
is set if the end of the input stopped the extraction. -/
def extract_string (is : istream) : List Char × istream :=
  if is.good then
    match is.buffer.dropWhile isspace with
    | [] => ([], { is with buffer := [], failbit := true, eofbit := true })
    | c :: cs =>
      let rest := (c :: cs).dropWhile (fun x => !isspace x)
      ((c :: cs).takeWhile (fun x => !isspace x),
        { is with buffer := rest, eofbit := rest.isEmpty })
  else ([], { is with failbit := true })

end istream

namespace ip_address_family

/-- The `operator<<` for `ip_address_family`; an output stream is the characters written
to it. -/
def operator_lshift (os : List Char) (family : ip_address_family) : List Char :=
  os ++ (if family = ip_address_family.IPv4 then "IPv4".toList else "IPv6".toList)

/-- The `operator>>` for `ip_address_family`; returns the stream and what `family` holds
afterwards. -/
def operator_rshift (is : istream) (family : ip_address_family) :
    istream × ip_address_family :=
  let temp := is.extract_string.1
  let is1 := is.extract_string.2
  if temp = "IPv4".toList then (is1, ip_address_family.IPv4)
  else if temp = "IPv6".toList then (is1, ip_address_family.IPv6)
  else ({ is1 with failbit := true }, family)

end ip_address_family

/-! ## The network library: `ip_address` -/

/-- The constants `AF_INET` and `AF_INET6` of `<sys/socket.h>`, with their values on
Linux. -/
def AF_INET : Int := 2

def AF_INET6 : Int := 10

/-- The constants `INADDR_ANY` and `INADDR_NONE` of `<netinet/in.h>`. -/
def INADDR_ANY : Nat := 0x00000000

def INADDR_NONE : Nat := 0xffffffff

/-- The function `memcpy` on byte arrays given as lists: the first `n` bytes of `dst`
are replaced by the first `n` bytes of `src`. -/
def memcpy (dst src : List Nat) (n : Nat) : List Nat := src.take n ++ dst.drop n

/-- The function `memset` with the value 0. -/
def memset_zero (dst : List Nat) (n : Nat) : List Nat := List.replicate n 0 ++ dst.drop n

/-- The function `memcmp` on the first `n` bytes: negative, zero or positive. -/
def memcmp : List Nat → List Nat → Nat → Int
  | a :: as, b :: bs, n + 1 => if a < b then -1 else if b < a then 1 else memcmp as bs n
  | _, _, _ => 0

/-- The class `ip_address`.  The union `addr_` of an `in_addr` and an `in6_addr` is its 16
bytes in memory order (an `in_addr` occupies the first four); addresses are kept in
network byte order, so the first byte in memory is the first byte of the address. -/
structure ip_address where
  family_ : ip_address_family
  addr_ : List Nat
  scope_ : Nat
  deriving DecidableEq, Repr

namespace ip_address

/-- The value of the member initialiser `addr_{ }`: the union zero-initialised. -/
def zero_addr : List Nat := List.replicate 16 0

/-- What an `ip_address` object can hold: 16 bytes, and a 32-bit scope. -/
def wf (a : ip_address) : Prop :=
  a.addr_.length = 16 ∧ (∀ b ∈ a.addr_, b < 256) ∧ a.scope_ < 2 ^ 32

instance (a : ip_address) : Decidable a.wf := by
  unfold wf
  infer_instance

/-- The default constructor `ip_address()`. -/
def default_constructor : ip_address :=
  { family_ := .IPv4, addr_ := memset_zero zero_addr 4, scope_ := 0 }

/-- The constructor `ip_address(void const * address, socklen_t length, std::uint32_t
scope)`; `address` is the bytes the pointer points to. -/
def from_bytes (address : List Nat) (length : Nat) (scope : Nat) :
    Except network_fault ip_address :=
  if length = 4 then
    if scope = 0 then
      .ok { family_ := .IPv4, addr_ := memcpy zero_addr address length, scope_ := scope }
    else .error .assertion_failed
  else if length = 16 then
    .ok { family_ := .IPv6, addr_ := memcpy zero_addr address length, scope_ := scope }
  else .error (.exception_message "invalid socklen_t value")

/-- The constructor `ip_address(ip_address_family family)`. -/
def from_family (family : ip_address_family) : ip_address :=
  { family_ := family, addr_ := memset_zero zero_addr (family_length family), scope_ := 0 }

/-- The member `addr()`: the address of the union, never null. -/
def addr (a : ip_address) : List Nat := a.addr_

/-- The copy constructor `ip_address(ip_address const & address)`: `length()` bytes are
copied into the zero-initialised union. -/
def copy_constructor (address : ip_address) : ip_address :=
  { family_ := address.family_,
    addr_ := memcpy zero_addr address.addr_ (family_length address.family_),
    scope_ := address.scope_ }

/-- The member `addr4()`: the `in_addr`, or `none` for `nullptr`. -/
def addr4 (a : ip_address) : Option (List Nat) :=
  if a.family_ = .IPv4 then some (a.addr_.take 4) else none

/-- The member `addr6()`: the `in6_addr`, or `none` for `nullptr`. -/
def addr6 (a : ip_address) : Option (List Nat) :=
  if a.family_ = .IPv6 then some (a.addr_.take 16) else none

def length (a : ip_address) : Nat := family_length a.family_

def family (a : ip_address) : ip_address_family := a.family_

def scope (a : ip_address) : Nat := a.scope_

def af (a : ip_address) : Int :=
  match a.family_ with
  | .IPv4 => AF_INET
  | .IPv6 => AF_INET6

/-- The move constructor `ip_address(ip_address && address)`: the new object, and
`address` as the constructor leaves it.  The new object takes the family and the scope;
its union is the member initialiser `addr_{ }` and the body does not write to it. -/
def move_constructor (address : ip_address) : ip_address × ip_address :=
  ({ family_ := address.family, addr_ := zero_addr, scope_ := address.scope },
   { family_ := .IPv4, addr_ := memset_zero address.addr_ 4, scope_ := 0 })

/-- The byte at offset `i` of the address. -/
def byte (a : ip_address) (i : Nat) : Nat := a.addr_.getD i 0

/-- The value `ntohl(addr4()->s_addr)`: the four bytes of the `in_addr` as one number, the
first byte the most significant. -/
def ntohl_s_addr (a : ip_address) : Nat :=
  a.byte 0 * 2 ^ 24 + a.byte 1 * 2 ^ 16 + a.byte 2 * 2 ^ 8 + a.byte 3

/-- The value `ntohl(addr6()->s6_addr32[i])`. -/
def ntohl_s6_addr32 (a : ip_address) (i : Nat) : Nat :=
  a.byte (4 * i) * 2 ^ 24 + a.byte (4 * i + 1) * 2 ^ 16 + a.byte (4 * i + 2) * 2 ^ 8 +
    a.byte (4 * i + 3)

/-- The value `ntohs(words[i])` for `words = reinterpret_cast<std::uint16_t const *>(addr6())`. -/
def ntohs_words (a : ip_address) (i : Nat) : Nat := a.byte (2 * i) * 2 ^ 8 + a.byte (2 * i + 1)

/-! The macros of `<netinet/in.h>` that the classification functions use, as glibc defines
them.  They compare 32-bit words in network byte order with `htonl` of a constant; here
both sides are taken through `ntohl`, which changes neither `==` nor `&`. -/

def IN6_IS_ADDR_LOOPBACK (a : ip_address) : Bool :=
  decide (a.ntohl_s6_addr32 0 = 0 ∧ a.ntohl_s6_addr32 1 = 0 ∧ a.ntohl_s6_addr32 2 = 0 ∧
    a.ntohl_s6_addr32 3 = 1)

def IN6_IS_ADDR_MULTICAST (a : ip_address) : Bool := decide (a.byte 0 = 0xff)

def IN6_IS_ADDR_LINKLOCAL (a : ip_address) : Bool :=
  decide (a.ntohl_s6_addr32 0 &&& 0xffc00000 = 0xfe800000)

def IN6_IS_ADDR_SITELOCAL (a : ip_address) : Bool :=
  decide (a.ntohl_s6_addr32 0 &&& 0xffc00000 = 0xfec00000)

def IN6_IS_ADDR_V4MAPPED (a : ip_address) : Bool :=
  decide (a.ntohl_s6_addr32 0 = 0 ∧ a.ntohl_s6_addr32 1 = 0 ∧ a.ntohl_s6_addr32 2 = 0xffff)

def IN6_IS_ADDR_V4COMPAT (a : ip_address) : Bool :=
  decide (a.ntohl_s6_addr32 0 = 0 ∧ a.ntohl_s6_addr32 1 = 0 ∧ a.ntohl_s6_addr32 2 = 0 ∧
    a.ntohl_s6_addr32 3 > 1)

def IN6_IS_ADDR_MC_NODELOCAL (a : ip_address) : Bool :=
  a.IN6_IS_ADDR_MULTICAST && decide (a.byte 1 &&& 0xf = 0x1)

def IN6_IS_ADDR_MC_LINKLOCAL (a : ip_address) : Bool :=
  a.IN6_IS_ADDR_MULTICAST && decide (a.byte 1 &&& 0xf = 0x2)

def IN6_IS_ADDR_MC_SITELOCAL (a : ip_address) : Bool :=
  a.IN6_IS_ADDR_MULTICAST && decide (a.byte 1 &&& 0xf = 0x5)

def IN6_IS_ADDR_MC_ORGLOCAL (a : ip_address) : Bool :=
  a.IN6_IS_ADDR_MULTICAST && decide (a.byte 1 &&& 0xf = 0x8)

def IN6_IS_ADDR_MC_GLOBAL (a : ip_address) : Bool :=
  a.IN6_IS_ADDR_MULTICAST && decide (a.byte 1 &&& 0xf = 0xe)

/-! The classification functions.  Each is a `switch (family())`; in the IPv4 case
`addr4()` is the `in_addr`, in the IPv6 case `addr6()` is the `in6_addr`. -/

def is_wildcard (a : ip_address) : Bool :=
  match a.family with
  | .IPv4 => decide (a.ntohl_s_addr = INADDR_ANY)
  | .IPv6 =>
    decide (a.ntohs_words 0 = 0 ∧ a.ntohs_words 1 = 0 ∧ a.ntohs_words 2 = 0 ∧
      a.ntohs_words 3 = 0 ∧ a.ntohs_words 4 = 0 ∧ a.ntohs_words 5 = 0 ∧
      a.ntohs_words 6 = 0 ∧ a.ntohs_words 7 = 0)

def is_broadcast (a : ip_address) : Bool :=
  match a.family with
  | .IPv4 => decide (a.ntohl_s_addr = INADDR_NONE)
  | .IPv6 => false

def is_loopback (a : ip_address) : Bool :=
  match a.family with
  | .IPv4 => decide (a.ntohl_s_addr &&& 0xFF000000 = 0x7F000000)
  | .IPv6 => a.IN6_IS_ADDR_LOOPBACK

def is_multicast (a : ip_address) : Bool :=
  match a.family with
  | .IPv4 => decide (a.ntohl_s_addr &&& 0xF0000000 = 0xE0000000)
  | .IPv6 => a.IN6_IS_ADDR_MULTICAST

def is_unicast (a : ip_address) : Bool :=
  !a.is_wildcard && !a.is_broadcast && !a.is_multicast

def is_link_local (a : ip_address) : Bool :=
  match a.family with
  | .IPv4 =>
    let addr := a.ntohl_s_addr
    decide (addr &&& 0xFF000000 = 0x0A000000) || decide (addr &&& 0xFFFF0000 = 0xC0A80000) ||
      (decide (addr ≥ 0xAC100000) && decide (addr ≤ 0xAC1FFFFF))
  | .IPv6 => a.IN6_IS_ADDR_SITELOCAL

def is_site_local (a : ip_address) : Bool :=
  match a.family with
  | .IPv4 =>
    let addr := a.ntohl_s_addr
    decide (addr &&& 0xFF000000 = 0x0A000000) || decide (addr &&& 0xFFFF0000 = 0xC0A80000) ||
      (decide (addr ≥ 0xAC100000) && decide (addr ≤ 0xAC1FFFFF))
  | .IPv6 => a.IN6_IS_ADDR_SITELOCAL

def is_IPv4_compatible (a : ip_address) : Bool :=
  match a.family with
  | .IPv4 => true
  | .IPv6 => a.IN6_IS_ADDR_V4COMPAT

def is_IPv4_mapped (a : ip_address) : Bool :=
  match a.family with
  | .IPv4 => true
  | .IPv6 => a.IN6_IS_ADDR_V4MAPPED

def is_well_known_mc (a : ip_address) : Bool :=
  match a.family with
  | .IPv4 => decide (a.ntohl_s_addr &&& 0xFFFFFF00 = 0xE0000000)
  | .IPv6 => decide (a.ntohs_words 0 &&& 0xFFF0 = 0xFF00)

def is_node_local_mc (a : ip_address) : Bool :=
  match a.family with
  | .IPv4 => false
  | .IPv6 => a.IN6_IS_ADDR_MC_NODELOCAL

def is_link_local_mc (a : ip_address) : Bool :=
  match a.family with
  | .IPv4 => decide (a.ntohl_s_addr &&& 0xFF000000 = 0xE0000000)
  | .IPv6 => a.IN6_IS_ADDR_MC_LINKLOCAL

def is_site_local_mc (a : ip_address) : Bool :=
  match a.family with
  | .IPv4 => decide (a.ntohl_s_addr &&& 0xFFFF0000 = 0xEFFF0000)
  | .IPv6 => a.IN6_IS_ADDR_MC_SITELOCAL

def is_org_local_mc (a : ip_address) : Bool :=
  match a.family with
  | .IPv4 => decide (a.ntohl_s_addr &&& 0xFFFF0000 = 0xEFC00000)
  | .IPv6 => a.IN6_IS_ADDR_MC_ORGLOCAL

def is_global_mc (a : ip_address) : Bool :=
  match a.family with
  | .IPv4 =>
    let addr := a.ntohl_s_addr
    decide (addr ≥ 0xE0000100) && decide (addr ≤ 0xEE000000)
  | .IPv6 => a.IN6_IS_ADDR_MC_GLOBAL

/-- The `operator==` of `ip_address`. -/
def operator_eq (lhs rhs : ip_address) : Bool :=
  if lhs.length = rhs.length then decide (memcmp lhs.addr rhs.addr lhs.length = 0) else false

/-- The `operator!=` of `ip_address`. -/
def operator_ne (lhs rhs : ip_address) : Bool :=
  if lhs.length = rhs.length then decide (memcmp lhs.addr rhs.addr lhs.length ≠ 0) else true

end ip_address

/-! ## The network library: printing and parsing addresses

The library functions `boost::lexical_cast`, `inet_ntop`, `inet_aton` and `strtoul` are
not part of the repository; they are written out here after their manuals (and, for
`inet_ntop` and `inet_aton`, the implementation in glibc).  `getaddrinfo` is a parameter of
the functions that call it. -/

/-- The expression `boost::lexical_cast<std::string>(static_cast<int>(byte))`: the decimal
digits of a number that is not negative. -/
def lexical_cast_string (n : Nat) : List Char := Nat.toDigits 10 n

/-- The function `inet_ntop` for `AF_INET`: `"%u.%u.%u.%u"` of four bytes. -/
def inet_ntop4 (src : List Nat) : List Char :=
  Nat.toDigits 10 (src.getD 0 0) ++ ['.'] ++ Nat.toDigits 10 (src.getD 1 0) ++ ['.'] ++
    Nat.toDigits 10 (src.getD 2 0) ++ ['.'] ++ Nat.toDigits 10 (src.getD 3 0)

/-- A run of zero words in `inet_ntop`: `base` is `none` for `-1`. -/
structure zero_run where
  base : Option Nat
  len : Nat
  deriving DecidableEq, Repr

/-- The assignment `best = cur` under `if (best.base == -1 || cur.len > best.len)`. -/
def zero_run.better (best cur : zero_run) : zero_run :=
  if best.base = none ∨ cur.len > best.len then cur else best

/-- The first loop of `inet_ntop` for `AF_INET6` and the two statements after it: the
longest run of zero words, if it has at least two words. -/
def inet_ntop6_best (words : List Nat) : zero_run :=
  let step : zero_run × zero_run → Nat → zero_run × zero_run := fun st i =>
    if words.getD i 0 = 0 then
      match st.2.base with
      | none => (st.1, { base := some i, len := 1 })
      | some _ => (st.1, { st.2 with len := st.2.len + 1 })
    else
      match st.2.base with
      | none => st
      | some _ => (st.1.better st.2, { st.2 with base := none })
  let st := (List.range 8).foldl step ({ base := none, len := 0 }, { base := none, len := 0 })
  let best := match st.2.base with
    | none => st.1
    | some _ => st.1.better st.2
  if best.base ≠ none ∧ best.len < 2 then { best with base := none } else best

/-- The function `inet_ntop` for `AF_INET6` with a buffer of `size` characters; `none` is
the null pointer it returns when the buffer is too small. -/
def inet_ntop6 (src : List Nat) (size : Nat) : Option (List Char) :=
  let words : List Nat :=
    (List.range 8).map (fun i => src.getD (2 * i) 0 * 2 ^ 8 + src.getD (2 * i + 1) 0)
  let best := inet_ntop6_best words
  let in_best : Nat → Bool := fun i =>
    match best.base with
    | none => false
    | some base => decide (base ≤ i ∧ i < base + best.len)
  let step : List Char × Bool → Nat → List Char × Bool := fun st i =>
    if st.2 then st
    else if in_best i then (if best.base = some i then st.1 ++ [':'] else st.1, false)
    else
      let tp := if i ≠ 0 then st.1 ++ [':'] else st.1
      if i = 6 ∧ best.base = some 0 ∧
          (best.len = 6 ∨ (best.len = 5 ∧ words.getD 5 0 = 0xffff)) then
        (tp ++ inet_ntop4 (src.drop 12), true)
      else (tp ++ Nat.toDigits 16 (words.getD i 0), false)
  let tp := ((List.range 8).foldl step ([], false)).1
  let tp := match best.base with
    | none => tp
    | some base => if base + best.len = 8 then tp ++ [':'] else tp
  if tp.length + 1 > size then none else some tp

/-- The constant `INET6_ADDRSTRLEN` of `<netinet/in.h>`. -/
def INET6_ADDRSTRLEN : Nat := 46

/-- The value of a digit or letter as `strtoul` reads it. -/
def digit_value (c : Char) : Option Nat :=
  if 48 ≤ c.toNat ∧ c.toNat ≤ 57 then some (c.toNat - 48)
  else if 97 ≤ c.toNat ∧ c.toNat ≤ 122 then some (c.toNat - 97 + 10)
  else if 65 ≤ c.toNat ∧ c.toNat ≤ 90 then some (c.toNat - 65 + 10)
  else none

/-- The digit loop of `strtoul`: returns the value and the rest of the input. -/
def strtoul_digits (base : Nat) : List Char → Nat → Nat × List Char
  | [], acc => (acc, [])
  | c :: cs, acc =>
    match digit_value c with
    | none => (acc, c :: cs)
    | some d => if d < base then strtoul_digits base cs (acc * base + d) else (acc, c :: cs)

/-- The call `strtoul(cp, &endp, 0)` on an input that starts with a digit: base 16 after
`0x` or `0X` followed by a hexadecimal digit, base 8 after `0`, base 10 otherwise.  The
value is not cut to `unsigned long`: `inet_aton` rejects an overflow as it rejects every
value above `0xffffffff`. -/
def strtoul (cp : List Char) : Nat × List Char :=
  if cp.head? = some '0' then
    if (cp.get? 1 = some 'x' ∨ cp.get? 1 = some 'X') ∧
        ((cp.get? 2).bind digit_value).any (fun d => decide (d < 16)) then
      strtoul_digits 16 (cp.drop 2) 0
    else strtoul_digits 8 cp 0
  else strtoul_digits 10 cp 0

/-- The loop of `inet_aton`: numbers separated by dots.  Returns the parts stored, the
last value and the input left.  The loop is left at the latest in its fourth round, where
a further dot is rejected; `inet_aton` starts it with four rounds. -/
def inet_aton_loop : Nat → List Char → List Nat → Option (List Nat × Nat × List Char)
  | 0, _, _ => none
  | rounds + 1, cp, parts =>
    match cp with
    | [] => none
    | c :: cs =>
      if isdigit c then
        if (strtoul (c :: cs)).1 > 0xffffffff then none
        else if (strtoul (c :: cs)).2.head? = some '.' then
          if parts.length > 2 ∨ (strtoul (c :: cs)).1 > 0xff then none
          else inet_aton_loop rounds (strtoul (c :: cs)).2.tail (parts ++ [(strtoul (c :: cs)).1])
        else some (parts, (strtoul (c :: cs)).1, (strtoul (c :: cs)).2)
      else none

/-- The four bytes of `htonl(val)` in memory. -/
def htonl_bytes (val : Nat) : List Nat :=
  [val / 2 ^ 24 % 256, val / 2 ^ 16 % 256, val / 2 ^ 8 % 256, val % 256]

/-- The function `inet_aton` on a C string (the input ends at the end of the list or at a
NUL character): the four bytes written to `in_addr`, or `none` when it returns 0. -/
def inet_aton (cp : List Char) : Option (List Nat) :=
  match inet_aton_loop 4 cp [] with
  | none => none
  | some (parts, val, endp) =>
    let garbage : Bool :=
      match endp with
      | [] => false
      | c :: _ => !(decide (c.toNat = 0) || isspace c)
    if garbage then none
    else if val > [0xffffffff, 0xffffff, 0xffff, 0xff].getD parts.length 0 then none
    else
      some (List.zipWith (fun x y => x ||| y) (parts ++ List.replicate (4 - parts.length) 0)
        (htonl_bytes val))

namespace ip_address

/-- The `operator<<` for `ip_address`; an output stream is the characters written to
it. -/
def operator_lshift (os : List Char) (address : ip_address) :
    Except network_fault (List Char) :=
  match address.family with
  | .IPv4 =>
    .ok (os ++ lexical_cast_string (address.byte 0) ++ ['.']
      ++ lexical_cast_string (address.byte 1) ++ ['.']
      ++ lexical_cast_string (address.byte 2) ++ ['.']
      ++ lexical_cast_string (address.byte 3))
  | .IPv6 =>
    match inet_ntop6 address.addr INET6_ADDRSTRLEN with
    | none => .error (.exception_api "getnameinfo")
    | some buffer => .ok (os ++ buffer)

/-- The expression `boost::lexical_cast<std::string>(address)` of the tests: what
`operator<<` writes to an empty stream. -/
def to_string (address : ip_address) : Except network_fault (List Char) :=
  operator_lshift [] address

/-- The function `parse_IPv4_address`.  The `boost::optional` that is returned is built
from the temporary `ip_address(&ia, sizeof(ia))`: its value is move-constructed from the
temporary (the constructor `optional(T &&)` of Boost.Optional), by the move constructor of
`ip_address`. -/
def parse_IPv4_address (address : List Char) : Except network_fault (Option ip_address) :=
  if address.isEmpty then .ok none
  else
    match inet_aton address with
    | some ia => (from_bytes ia 4 0).map (fun a => some a.move_constructor.1)
    | none => .ok none

/-- The function `parse_IPv6_address`.  `getaddrinfo` stands for the library call with the
hint `AI_NUMERICHOST`: `none` when it fails, else the bytes of `sin6_addr` and the value of
`sin6_scope_id` of the first result.  The value of the `boost::optional` is
move-constructed from the temporary, as in `parse_IPv4_address`. -/
def parse_IPv6_address (getaddrinfo : List Char → Option (List Nat × Nat))
    (address : List Char) : Except network_fault (Option ip_address) :=
  if address.isEmpty then .ok none
  else
    match getaddrinfo address with
    | some (sin6_addr, sin6_scope_id) =>
      (from_bytes sin6_addr 16 sin6_scope_id).map (fun a => some a.move_constructor.1)
    | none => .ok none

/-- The function `parse_address`. -/
def parse_address (getaddrinfo : List Char → Option (List Nat × Nat)) (address : List Char) :
    Except network_fault (Option ip_address) := do
  let parsed ← parse_IPv4_address address
  if parsed.isSome then pure parsed
  else parse_IPv6_address getaddrinfo address

/-- The constructor `ip_address(std::string const & address)`. -/
def from_string (getaddrinfo : List Char → Option (List Nat × Nat)) (address : List Char) :
    Except network_fault ip_address := do
  let parsed ← parse_address getaddrinfo address
  match parsed with
  | some p => pure p
  | none => throw (.exception_address address)

end ip_address

/-- The address `::ffff:192.0.2.128` of the tests, as `getaddrinfo` delivers it. -/
def mapped_example : ip_address :=
  { family_ := .IPv6, addr_ := [0, 0, 0, 0, 0, 0, 0, 0, 0, 0, 0xff, 0xff, 192, 0, 2, 128],
    scope_ := 0 }

/-- The address `::192.0.2.128` of the tests, as `getaddrinfo` delivers it. -/
def compatible_example : ip_address :=
  { family_ := .IPv6, addr_ := [0, 0, 0, 0, 0, 0, 0, 0, 0, 0, 0, 0, 192, 0, 2, 128],
    scope_ := 0 }

/-- The address `127.0.0.1` of the tests. -/
def loopback4_example : ip_address :=
  { family_ := .IPv4, addr_ := [127, 0, 0, 1, 0, 0, 0, 0, 0, 0, 0, 0, 0, 0, 0, 0],
    scope_ := 0 }

/-- A `getaddrinfo` that knows no address. -/
def getaddrinfo_none : List Char → Option (List Nat × Nat) := fun _ => none

/-- The decimal digits of a byte: not empty, digits only, no leading zero unless the byte
is zero, and their value is the byte. -/
def byte_digits_ok (b : Nat) : Prop :=
  Nat.toDigits 10 b ≠ [] ∧ (b ≠ 0 → (Nat.toDigits 10 b).head? ≠ some '0') ∧
    (∀ c ∈ Nat.toDigits 10 b, isdigit c = true) ∧
    (Nat.toDigits 10 b).foldl (fun acc c => acc * 10 + (c.toNat - 48)) 0 = b

instance (b : Nat) : Decidable (byte_digits_ok b) := by
  unfold byte_digits_ok
  infer_instance

/-- The address `169.254.1.1`, inside `169.254.0.0/16`. -/
def link_local4_example : ip_address :=
  { family_ := .IPv4, addr_ := [169, 254, 1, 1, 0, 0, 0, 0, 0, 0, 0, 0, 0, 0, 0, 0],
    scope_ := 0 }

/-- The address `10.0.0.1`, outside `169.254.0.0/16`. -/
def private4_example : ip_address :=
  { family_ := .IPv4, addr_ := [10, 0, 0, 1, 0, 0, 0, 0, 0, 0, 0, 0, 0, 0, 0, 0],
    scope_ := 0 }

/-- The address `224.1.2.3`, outside `224.0.0.0/24`. -/
def multicast4_example : ip_address :=
  { family_ := .IPv4, addr_ := [224, 1, 2, 3, 0, 0, 0, 0, 0, 0, 0, 0, 0, 0, 0, 0],
    scope_ := 0 }

/-- The address `238.1.2.3`, between `224.0.1.0` and `238.255.255.255`. -/
def global_multicast4_example : ip_address :=
  { family_ := .IPv4, addr_ := [238, 1, 2, 3, 0, 0, 0, 0, 0, 0, 0, 0, 0, 0, 0, 0],
    scope_ := 0 }

/-- The address `127.0.0.0`, just below `127.0.0.1`. -/
def loopback_network4_example : ip_address :=
  { family_ := .IPv4, addr_ := [127, 0, 0, 0, 0, 0, 0, 0, 0, 0, 0, 0, 0, 0, 0, 0],
    scope_ := 0 }

/-- The address `::1` of the tests, as `getaddrinfo` delivers it. -/
def loopback6_example : ip_address :=
  { family_ := .IPv6, addr_ := [0, 0, 0, 0, 0, 0, 0, 0, 0, 0, 0, 0, 0, 0, 0, 1],
    scope_ := 0 }

/-- A `::select` that reports three ready pairs: descriptor 3 for read, descriptor 5 for
read and for write. -/
def select_three_pairs (_call : select_call) : select_return :=
  { result := 3, read_set := {3, 5}, write_set := {5}, except_set := ∅, errno := 0 }

/-- The machine of the scan over `ordering_example` once descriptor 3 has been
processed. -/
def scan_after_3 : machine :=
  { reactor := ordering_example, invoked := [⟨3, .read, 30⟩],
    select_calls := [ordering_example.next_select_call] }

/-- The machine of the scan over `ordering_example` once descriptor 5 has been
processed. -/
def scan_after_5 : machine :=
  { reactor := ordering_example, invoked := [⟨3, .read, 30⟩, ⟨5, .read, 51⟩, ⟨5, .write, 52⟩],
    select_calls := [ordering_example.next_select_call] }

/-! ## The network library: `socket_domain` and `socket_address`

The layout of the `sockaddr` structures is that of Linux on a little-endian machine:
`sa_family_t` is 16 bits in host byte order at offset 0, the port is 16 bits in network
byte order at offset 2, `sin_addr` is at offset 4 and `sin6_addr` at offset 8. -/

def sizeof_sockaddr_in : Nat := 16

def sizeof_sockaddr_in6 : Nat := 28

def sizeof_sockaddr_un : Nat := 110

def sizeof_sockaddr_storage : Nat := 128

/-- The constant `AF_UNIX` of `<sys/socket.h>`. -/
def AF_UNIX : Int := 1

/-- The enumeration `socket_domain`. -/
inductive socket_domain where
  | inet
  | inet6
  | unix
  deriving DecidableEq, Repr

/-- The function `socket_domain_from_length`; `none` when no case of the switch matches
and control reaches `__builtin_unreachable()`. -/
def socket_domain_from_length (length : Nat) : Option socket_domain :=
  if length = sizeof_sockaddr_in then some .inet
  else if length = sizeof_sockaddr_in6 then some .inet6
  else if length = sizeof_sockaddr_un then some .unix
  else none

/-- The bytes `src` written into `dst` from offset `offset` on. -/
def write_bytes (dst : List Nat) (offset : Nat) (src : List Nat) : List Nat :=
  dst.take offset ++ src ++ dst.drop (offset + src.length)

/-- The two bytes of a `sa_family_t` in memory. -/
def sa_family_bytes (af : Int) : List Nat := [af.toNat % 256, af.toNat / 256 % 256]

/-- The two bytes of `htons(port)` in memory. -/
def htons_bytes (port : Nat) : List Nat := [port / 256 % 256, port % 256]

/-- The class `socket_address`: the bytes of the `sockaddr_storage` and the length. -/
structure socket_address where
  addr_ : List Nat
  length_ : Nat
  deriving DecidableEq, Repr

namespace socket_address

/-- The value of the member initialiser `addr_{ }`. -/
def zero_storage : List Nat := List.replicate sizeof_sockaddr_storage 0

def length (a : socket_address) : Nat := a.length_

/-- The member `addr()`, and with it `in_addr_ptr()`, `in6_addr_ptr()` and
`un_addr_ptr()`: all of them are the address of the storage. -/
def addr (a : socket_address) : List Nat := a.addr_

/-- The member `sin_family`, `sin6_family` or `sun_family` of the storage. -/
def sa_family (a : socket_address) : Int := (a.addr_.getD 0 0 + 256 * a.addr_.getD 1 0 : Nat)

/-- The constructor `socket_address(sockaddr * address, socklen_t length)`; `address` is
the bytes the pointer points to. -/
def from_sockaddr (address : List Nat) (length : Nat) : Except network_fault socket_address :=
  let a : socket_address := { addr_ := memcpy zero_storage address length, length_ := length }
  match socket_domain_from_length length with
  | none => .error .unreachable
  | some .inet =>
    if a.sa_family ≠ AF_INET then
      .error (.exception_message
        "socket_address constructor called with inconsistent data for AF_INET")
    else .ok a
  | some .inet6 =>
    if a.sa_family ≠ AF_INET6 then
      .error (.exception_message
        "socket_address constructor called with inconsistent data for AF_INET6")
    else .ok a
  | some .unix =>
    if a.sa_family ≠ AF_UNIX then
      .error (.exception_message
        "socket_address constructor called with inconsistent data for AF_UNIX")
    else .ok a

/-- The copy constructor `socket_address(socket_address const & address)`: the storage is
the member initialiser `addr_{ }` and the body is empty. -/
def copy_constructor (address : socket_address) : socket_address :=
  { addr_ := zero_storage, length_ := address.length_ }

/-- The move constructor `socket_address(socket_address && address)`: the new object, and
`address` as the constructor leaves it. -/
def move_constructor (address : socket_address) : socket_address × socket_address :=
  ({ addr_ := address.addr_, length_ := address.length_ }, { address with length_ := 0 })

/-- The assignment `operator=`. -/
def assign (_this address : socket_address) : socket_address :=
  { addr_ := address.addr_, length_ := address.length_ }

/-- The function `create_inet_address`.  `stack` is what the local `sockaddr_storage addr`
holds before the function writes to it. -/
def create_inet_address (stack : List Nat) (host : ip_address) (port : Nat) :
    Except network_fault socket_address :=
  match host.family with
  | .IPv4 =>
    match host.addr4 with
    | none => .error .unreachable
    | some sin_addr =>
      from_sockaddr
        (write_bytes (write_bytes (write_bytes stack 0 (sa_family_bytes AF_INET)) 2
          (htons_bytes port)) 4 sin_addr)
        sizeof_sockaddr_in
  | .IPv6 =>
    match host.addr6 with
    | none => .error .unreachable
    | some sin6_addr =>
      from_sockaddr
        (write_bytes (write_bytes (write_bytes stack 0 (sa_family_bytes AF_INET6)) 2
          (htons_bytes port)) 8 sin6_addr)
        sizeof_sockaddr_in6

/-- The member `domain()`. -/
def domain (a : socket_address) : Option socket_domain := socket_domain_from_length a.length

/-- The member `host()`.  In the `inet` case `addr_ptr` is `in_addr_ptr()`, the address of
the storage, and `addr_length` is `sizeof(*in_addr_ptr())`, the size of a `sockaddr_in`;
likewise for `inet6`. -/
def host (a : socket_address) : Except network_fault ip_address :=
  match socket_domain_from_length a.length with
  | none => .error .unreachable
  | some .inet => ip_address.from_bytes a.addr sizeof_sockaddr_in 0
  | some .inet6 => ip_address.from_bytes a.addr sizeof_sockaddr_in6 0
  | some .unix => .error .unsupported_operation_exception

/-- The member `port()`: `ntohs` of the two bytes at offset 2. -/
def port (a : socket_address) : Except network_fault Nat :=
  match socket_domain_from_length a.length with
  | none => .error .unreachable
  | some .inet => .ok (a.addr_.getD 2 0 * 256 + a.addr_.getD 3 0)
  | some .inet6 => .ok (a.addr_.getD 2 0 * 256 + a.addr_.getD 3 0)
  | some .unix => .error .unsupported_operation_exception

end socket_address

/-- A stack area that holds the byte `0xcc` throughout. -/
def stack_example : List Nat := List.replicate 128 0xcc

/-- The socket address `create_inet_address` returns for `127.0.0.1` and port 22 on
`stack_example`. -/
def inet_example : socket_address :=
  { addr_ := [2, 0, 0, 22, 127, 0, 0, 1, 0xcc, 0xcc, 0xcc, 0xcc, 0xcc, 0xcc, 0xcc, 0xcc] ++
      List.replicate 112 0,
    length_ := 16 }

/-- The socket address `create_inet_address` returns for `::1` and port 22 on
`stack_example`. -/
def inet6_example : socket_address :=
  { addr_ := [10, 0, 0, 22, 0xcc, 0xcc, 0xcc, 0xcc, 0, 0, 0, 0, 0, 0, 0, 0, 0, 0, 0, 0, 0, 0,
      0, 1, 0xcc, 0xcc, 0xcc, 0xcc] ++ List.replicate 100 0,
    length_ := 28 }

namespace ip_address

/-- The `operator<` of `ip_address`. -/
def operator_lt (lhs rhs : ip_address) : Bool :=
  if lhs.length = rhs.length then decide (memcmp lhs.addr rhs.addr lhs.length < 0)
  else decide (lhs.length < rhs.length)

/-- The `operator<=` of `ip_address`. -/
def operator_le (lhs rhs : ip_address) : Bool :=
  if lhs.length = rhs.length then decide (memcmp lhs.addr rhs.addr lhs.length ≤ 0)
  else decide (lhs.length ≤ rhs.length)

/-- The `operator>` of `ip_address`. -/
def operator_gt (lhs rhs : ip_address) : Bool :=
  if lhs.length = rhs.length then decide (memcmp lhs.addr rhs.addr lhs.length > 0)
  else decide (lhs.length > rhs.length)

/-- The `operator>=` of `ip_address`. -/
def operator_ge (lhs rhs : ip_address) : Bool :=
  if lhs.length = rhs.length then decide (memcmp lhs.addr rhs.addr lhs.length ≥ 0)
  else decide (lhs.length ≥ rhs.length)

/-- The function `mask` with three arguments.  The code works on `s_addr`, the address as
a 32-bit number in network byte order; `&`, `|` and `~` act on each bit by itself, so the
bytes of the result are those of the same expression over the `ntohl` values.  `~` is the
complement in 32 bits.  The temporary `ip_address(&addr, sizeof(addr))` is the value
returned. -/
def mask3 (address the_mask to_set : ip_address) : Except network_fault ip_address :=
  if address.family ≠ .IPv4 ∨ the_mask.family ≠ .IPv4 ∨ to_set.family ≠ .IPv4 then
    .error .unsupported_operation_exception
  else
    let addr := address.ntohl_s_addr
    let mask_addr := the_mask.ntohl_s_addr
    let set_addr := to_set.ntohl_s_addr
    let addr := addr &&& mask_addr
    let addr := addr ||| (set_addr &&& (0xffffffff - mask_addr))
    from_bytes (htonl_bytes addr) 4 0

/-- The function `mask` with two arguments. -/
def mask (address the_mask : ip_address) : Except network_fault ip_address :=
  mask3 address the_mask default_constructor

end ip_address

/-- The address `192.0.2.128`. -/
def documentation4_example : ip_address :=
  { family_ := .IPv4, addr_ := [192, 0, 2, 128, 0, 0, 0, 0, 0, 0, 0, 0, 0, 0, 0, 0],
    scope_ := 0 }

/-- The netmask `255.255.255.0`. -/
def netmask24_example : ip_address :=
  { family_ := .IPv4, addr_ := [255, 255, 255, 0, 0, 0, 0, 0, 0, 0, 0, 0, 0, 0, 0, 0],
    scope_ := 0 }

/-- The address `0.0.0.7`. -/
def host_part_example : ip_address :=
  { family_ := .IPv4, addr_ := [0, 0, 0, 7, 0, 0, 0, 0, 0, 0, 0, 0, 0, 0, 0, 0],
    scope_ := 0 }

end meridian

namespace meridian

/-! ## The registry: what each call does -/

namespace event_source_registry

theorem registry_register_read_callback_eq (r : event_source_registry) (source : Nat)
    (callback : event_callback) :
    r.register_read_callback source callback = r.register_callback .read source callback := rfl

theorem registry_register_write_callback_eq (r : event_source_registry) (source : Nat)
    (callback : event_callback) :
    r.register_write_callback source callback = r.register_callback .write source callback := rfl

theorem registry_register_except_callback_eq (r : event_source_registry) (source : Nat)
    (callback : event_callback) :
    r.register_except_callback source callback = r.register_callback .except source callback := rfl

theorem registry_remove_read_callback_eq (r : event_source_registry) (source : Nat) :
    r.remove_read_callback source = r.remove_callback .read source := rfl

theorem registry_remove_write_callback_eq (r : event_source_registry) (source : Nat) :
    r.remove_write_callback source = r.remove_callback .write source := rfl

theorem registry_remove_except_callback_eq (r : event_source_registry) (source : Nat) :
    r.remove_except_callback source = r.remove_callback .except source := rfl

/-- Every call on the registry is a register or a remove of some kind. -/
theorem registry_apply_generic (r : event_source_registry) (op : registration_op) :
    (∃ type source callback, op.callback_nonempty = callback.isSome ∧
      r.apply op = r.register_callback type source callback) ∨
    (∃ type source, r.apply op = r.remove_callback type source) := by
  cases op with
  | register_read_callback source callback => exact .inl ⟨.read, source, callback, rfl, rfl⟩
  | register_write_callback source callback => exact .inl ⟨.write, source, callback, rfl, rfl⟩
  | register_except_callback source callback => exact .inl ⟨.except, source, callback, rfl, rfl⟩
  | remove_read_callback source => exact .inr ⟨.read, source, rfl⟩
  | remove_write_callback source => exact .inr ⟨.write, source, rfl⟩
  | remove_except_callback source => exact .inr ⟨.except, source, rfl⟩

theorem fd_at_eq_some {r : event_source_registry} {j : Nat} {fd : Int} :
    r.fd_at j = some fd ↔ ∃ s, r.objects[j]? = some s ∧ s.fd = fd := by
  simp [fd_at]

theorem find_eq_none {r : event_source_registry} {fd : Int} :
    r.find fd = none ↔ ∀ j ∈ r.event_sources_, r.fd_at j ≠ some fd := by
  simp [find, unordered_set_find]

theorem find_some {r : event_source_registry} {fd : Int} {j : Nat} (h : r.find fd = some j) :
    j ∈ r.event_sources_ ∧ r.fd_at j = some fd := by
  unfold find unordered_set_find at h
  refine ⟨List.mem_of_find?_eq_some h, ?_⟩
  have := List.find?_some h
  simpa using this

/-- What a register call of the registry returns. -/
theorem registry_register_callback_ok {type : event_type} {r r1 : event_source_registry} {source : Nat}
    {callback : event_callback} (h : r.register_callback type source callback = .ok r1) :
    ∃ s, r.objects[source]? = some s ∧
      ((s.linked = false ∧ r.find s.fd = none ∧
          r1 = { objects := r.objects.set source
                   ({ s with linked := true }.set_callback type callback),
                 event_sources_ := r.event_sources_ ++ [source] }) ∨
       ((s.linked = true ∨ r.find s.fd ≠ none) ∧
          r1 = { objects := r.objects.set source (s.set_callback type callback),
                 event_sources_ := r.event_sources_ })) := by
  unfold register_callback at h
  cases hs : r.objects[source]? with
  | none => simp [hs] at h
  | some s =>
    have hlt : source < r.objects.length := by
      rcases List.getElem?_eq_some.mp hs with ⟨hlt, _⟩; exact hlt
    refine ⟨s, rfl, ?_⟩
    simp only [hs] at h
    cases hl : s.linked with
    | true =>
      right
      simp [event_source.is_linked, hl, hs] at h
      exact ⟨.inl rfl, h.symm⟩
    | false =>
      cases hf : r.find s.fd with
      | some j =>
        right
        simp [event_source.is_linked, hl, unordered_set_insert, find] at h hf
        simp [hf, hs] at h
        exact ⟨.inr (by simp), h.symm⟩
      | none =>
        left
        simp [event_source.is_linked, hl, unordered_set_insert, find] at h hf
        rw [show r.unordered_set_find s.fd = none from by simpa [unordered_set_find] using hf] at h
        simp [hlt, List.set_set] at h
        exact ⟨rfl, rfl, h.symm⟩

theorem erase_objects (r : event_source_registry) (key : Int) (j : Nat) :
    (r.unordered_set_erase key).objects[j]? =
      (r.objects[j]?).map (fun s =>
        if j ∈ r.event_sources_ ∧ s.fd = key then { s with linked := false } else s) := by
  simp [unordered_set_erase]

theorem erase_fd_at (r : event_source_registry) (key : Int) (j : Nat) :
    (r.unordered_set_erase key).fd_at j = r.fd_at j := by
  unfold fd_at
  rw [erase_objects]
  cases r.objects[j]? with
  | none => rfl
  | some s =>
    simp only [Option.map_some']
    split <;> rfl

theorem erase_mem (r : event_source_registry) (key : Int) (j : Nat) :
    j ∈ (r.unordered_set_erase key).event_sources_ ↔
      j ∈ r.event_sources_ ∧ r.fd_at j ≠ some key := by
  simp [unordered_set_erase]

/-- What a remove call of the registry returns. -/
theorem registry_remove_callback_ok {type : event_type} {r r1 : event_source_registry} {source : Nat}
    (h : r.remove_callback type source = .ok r1) :
    ∃ s, r.objects[source]? = some s ∧ s.linked = true ∧
      (((s.clear_callback type).has_callback = true ∧
          r1 = { objects := r.objects.set source (s.clear_callback type),
                 event_sources_ := r.event_sources_ }) ∨
       ((s.clear_callback type).has_callback = false ∧
          r1 = unordered_set_erase
                 { objects := r.objects.set source (s.clear_callback type),
                   event_sources_ := r.event_sources_ } s.fd)) := by
  unfold remove_callback at h
  cases hs : r.objects[source]? with
  | none => simp [hs] at h
  | some s =>
    have hlt : source < r.objects.length := by
      rcases List.getElem?_eq_some.mp hs with ⟨hlt, _⟩; exact hlt
    refine ⟨s, rfl, ?_⟩
    simp only [hs] at h
    cases hl : s.linked with
    | false => simp [event_source.is_linked, hl] at h
    | true =>
      refine ⟨rfl, ?_⟩
      simp only [event_source.is_linked, hl, Bool.not_true, Bool.false_eq_true, if_false,
        Except.ok.injEq] at h
      unfold erase_source_without_callback at h
      simp only [List.getElem?_set_self hlt] at h
      have hfd : (s.clear_callback type).fd = s.fd := by cases type <;> rfl
      cases hc : (s.clear_callback type).has_callback with
      | true => left; simp [hc] at h; exact ⟨rfl, h.symm⟩
      | false => right; simp [hc, hfd] at h; exact ⟨rfl, h.symm⟩

theorem set_callback_fd (s : event_source) (type : event_type) (callback : event_callback) :
    (s.set_callback type callback).fd = s.fd := by cases type <;> rfl

theorem clear_callback_fd (s : event_source) (type : event_type) :
    (s.clear_callback type).fd = s.fd := by cases type <;> rfl

/-- Replacing an object by one with the same descriptor changes no descriptor. -/
theorem fd_at_set {objs : List event_source} (tbl tbl1 : List Nat) {source : Nat}
    {s s1 : event_source} (hs : objs[source]? = some s) (hfd : s1.fd = s.fd) (j : Nat) :
    fd_at { objects := objs.set source s1, event_sources_ := tbl1 } j =
      fd_at { objects := objs, event_sources_ := tbl } j := by
  unfold fd_at
  simp only [List.getElem?_set]
  by_cases hj : source = j
  · subst hj
    have hlt : source < objs.length := by
      rcases List.getElem?_eq_some.mp hs with ⟨hlt, _⟩; exact hlt
    simp [hlt, hs, hfd]
  · simp [hj]

/-- No call on the registry changes the descriptor of any object. -/
theorem apply_fd_at {r r1 : event_source_registry} {op : registration_op}
    (h : r.apply op = .ok r1) (j : Nat) : r1.fd_at j = r.fd_at j := by
  rcases registry_apply_generic r op with ⟨type, source, callback, _, he⟩ | ⟨type, source, he⟩
  · rw [he] at h
    obtain ⟨s, hs, hcase⟩ := registry_register_callback_ok h
    rcases hcase with ⟨_, _, rfl⟩ | ⟨_, rfl⟩
    · exact fd_at_set _ _ hs (by cases type <;> rfl) j
    · exact fd_at_set _ _ hs (by cases type <;> rfl) j
  · rw [he] at h
    obtain ⟨s, hs, _, hcase⟩ := registry_remove_callback_ok h
    rcases hcase with ⟨_, rfl⟩ | ⟨_, rfl⟩
    · exact fd_at_set _ _ hs (by cases type <;> rfl) j
    · rw [erase_fd_at]
      exact fd_at_set _ _ hs (by cases type <;> rfl) j

theorem unique_keys_init (fds : List Int) : (init fds).unique_keys := by
  intro i hi
  simp [init] at hi

theorem unique_keys_apply {r r1 : event_source_registry} {op : registration_op}
    (hu : r.unique_keys) (h : r.apply op = .ok r1) : r1.unique_keys := by
  have hfd := apply_fd_at h
  intro i hi j hj fd hfi hfj
  rw [hfd] at hfi hfj
  rcases registry_apply_generic r op with ⟨type, source, callback, _, he⟩ | ⟨type, source, he⟩
  · rw [he] at h
    obtain ⟨s, hs, hcase⟩ := registry_register_callback_ok h
    rcases hcase with ⟨_, hnone, rfl⟩ | ⟨_, rfl⟩
    · have hsrc : r.fd_at source = some s.fd := fd_at_eq_some.mpr ⟨s, hs, rfl⟩
      rw [find_eq_none] at hnone
      simp only [List.mem_append, List.mem_singleton] at hi hj
      rcases hi with hi | rfl <;> rcases hj with hj | rfl
      · exact hu i hi j hj fd hfi hfj
      · rw [hsrc] at hfj
        cases hfj
        exact absurd hfi (hnone i hi)
      · rw [hsrc] at hfi
        cases hfi
        exact absurd hfj (hnone j hj)
      · rfl
    · exact hu i hi j hj fd hfi hfj
  · rw [he] at h
    obtain ⟨s, hs, _, hcase⟩ := registry_remove_callback_ok h
    rcases hcase with ⟨_, rfl⟩ | ⟨_, rfl⟩
    · exact hu i hi j hj fd hfi hfj
    · rw [erase_mem] at hi hj
      exact hu i hi.1 j hj.1 fd hfi hfj

theorem unique_keys_run {ops : List registration_op} {r r1 : event_source_registry}
    (hu : r.unique_keys) (h : r.run ops = .ok r1) : r1.unique_keys := by
  induction ops generalizing r with
  | nil => simp [run] at h; subst h; exact hu
  | cons op ops ih =>
    unfold run at h
    cases ha : r.apply op with
    | error f => simp [ha] at h
    | ok r2 =>
      simp only [ha] at h
      exact ih (unique_keys_apply hu ha) h

theorem distinct_fds_init {fds : List Int} (h : fds.Nodup) : (init fds).distinct_fds := by
  intro i j fd hi hj
  simp only [fd_at, init, List.getElem?_map, Option.map_map] at hi hj
  have hi1 : fds[i]? = some fd := by
    cases hfi : fds[i]? with
    | none => simp [hfi] at hi
    | some a => simpa [hfi, event_source.fd, event_source.mk_fd] using hi
  have hj1 : fds[j]? = some fd := by
    cases hfj : fds[j]? with
    | none => simp [hfj] at hj
    | some a => simpa [hfj, event_source.fd, event_source.mk_fd] using hj
  obtain ⟨hli, hgi⟩ := List.getElem?_eq_some.mp hi1
  obtain ⟨hlj, hgj⟩ := List.getElem?_eq_some.mp hj1
  exact (List.Nodup.getElem_inj_iff h).mp (hgi.trans hgj.symm)

theorem distinct_fds_apply {r r1 : event_source_registry} {op : registration_op}
    (hd : r.distinct_fds) (h : r.apply op = .ok r1) : r1.distinct_fds := by
  intro i j fd hi hj
  rw [apply_fd_at h] at hi hj
  exact hd i j fd hi hj

/-- With distinct descriptors, `find` returns the one table element with the descriptor. -/
theorem find_eq_some_iff {r : event_source_registry} (hd : r.distinct_fds) {fd : Int} {j : Nat} :
    r.find fd = some j ↔ j ∈ r.event_sources_ ∧ r.fd_at j = some fd := by
  constructor
  · exact find_some
  · rintro ⟨hj, hfd⟩
    cases hf : r.find fd with
    | none => exact absurd hfd (find_eq_none.mp hf j hj)
    | some i =>
      have := find_some hf
      rw [hd i j fd this.2 hfd]

theorem registry_inv_init {fds : List Int} (h : fds.Nodup) : (init fds).inv := by
  refine ⟨distinct_fds_init h, ?_, ?_⟩
  · intro j s hs
    simp only [init, List.getElem?_map] at hs
    cases hf : fds[j]? with
    | none => simp [hf] at hs
    | some a =>
      simp [hf] at hs
      subst hs
      simp [init, event_source.mk_fd]
  · intro j s hs
    simp only [init, List.getElem?_map] at hs
    cases hf : fds[j]? with
    | none => simp [hf] at hs
    | some a =>
      simp [hf] at hs
      subst hs
      simp [event_source.mk_fd, event_source.has_callback]

theorem set_callback_linked (s : event_source) (type : event_type) (callback : event_callback) :
    (s.set_callback type callback).linked = s.linked := by cases type <;> rfl

theorem clear_callback_linked (s : event_source) (type : event_type) :
    (s.clear_callback type).linked = s.linked := by cases type <;> rfl

theorem set_callback_has_callback (s : event_source) (type : event_type) (c : Nat) :
    (s.set_callback type (some c)).has_callback = true := by
  cases type <;>
    simp [event_source.set_callback, event_source.set_read_callback,
      event_source.set_write_callback, event_source.set_except_callback,
      event_source.has_callback]

theorem has_callback_link (s : event_source) (b : Bool) :
    ({ s with linked := b } : event_source).has_callback = s.has_callback := rfl

/-- Under the invariant a register call either links a fresh object or leaves the table
as it is; the third case of `registry_register_callback_ok` (unlinked, descriptor taken) is out. -/
theorem register_callback_inv_ok {type : event_type} {r r1 : event_source_registry}
    {source : Nat} {callback : event_callback} (hi : r.inv)
    (h : r.register_callback type source callback = .ok r1) :
    ∃ s, r.objects[source]? = some s ∧
      r1 = { objects := r.objects.set source
               ({ s with linked := true }.set_callback type callback),
             event_sources_ :=
               if s.linked then r.event_sources_ else r.event_sources_ ++ [source] } := by
  obtain ⟨s, hs, hcase⟩ := registry_register_callback_ok h
  refine ⟨s, hs, ?_⟩
  rcases hcase with ⟨hl, _, rfl⟩ | ⟨hl, rfl⟩
  · simp [hl]
  · have hlinked : s.linked = true := by
      rcases hl with hl | hl
      · exact hl
      · cases hf : r.find s.fd with
        | none => exact absurd hf hl
        | some i =>
          have hfi := find_some hf
          have : i = source := hi.distinct i source s.fd hfi.2 (fd_at_eq_some.mpr ⟨s, hs, rfl⟩)
          subst this
          exact (hi.linked_iff i s hs).mpr hfi.1
    have : ({ s with linked := true } : event_source) = s := by
      cases s; simp at hlinked; simp [hlinked]
    simp [hlinked, this]

theorem registry_inv_register {type : event_type} {r r1 : event_source_registry} {source : Nat}
    {c : Nat} (hi : r.inv) (h : r.register_callback type source (some c) = .ok r1) :
    r1.inv := by
  obtain ⟨s, hs, rfl⟩ := register_callback_inv_ok hi h
  have hlt : source < r.objects.length := by
    rcases List.getElem?_eq_some.mp hs with ⟨hlt, _⟩; exact hlt
  refine ⟨?_, ?_, ?_⟩
  · intro i j fd hfi hfj
    rw [fd_at_set r.event_sources_ _ hs (by rw [set_callback_fd]; rfl)] at hfi hfj
    exact hi.distinct i j fd hfi hfj
  · intro j sj hsj
    simp only [List.getElem?_set] at hsj
    by_cases hj : source = j
    · subst hj
      simp only [hlt, if_true, Option.some.injEq] at hsj
      subst hsj
      rw [set_callback_linked]
      have := hi.linked_iff source s hs
      cases hl : s.linked <;> simp [hl] at this ⊢
      exact this
    · simp only [hj, if_false] at hsj
      have := hi.linked_iff j sj hsj
      rw [this]
      cases hl : s.linked <;> simp [Ne.symm hj]
  · intro j sj hsj
    simp only [List.getElem?_set] at hsj
    by_cases hj : source = j
    · subst hj
      simp only [hlt, if_true, Option.some.injEq] at hsj
      subst hsj
      rw [set_callback_linked, set_callback_has_callback]
    · simp only [hj, if_false] at hsj
      exact hi.callback_iff j sj hsj

/-- Under the invariant a remove call clears the callback of the object, unlinks the
object exactly when no callback is left, and takes exactly that object out of the table. -/
theorem remove_callback_inv_ok {type : event_type} {r r1 : event_source_registry}
    {source : Nat} (hi : r.inv) (h : r.remove_callback type source = .ok r1) :
    ∃ s, r.objects[source]? = some s ∧ s.linked = true ∧
      r1.objects = r.objects.set source
        { s.clear_callback type with linked := (s.clear_callback type).has_callback } ∧
      (∀ j, j ∈ r1.event_sources_ ↔
        j ∈ r.event_sources_ ∧ (j = source → (s.clear_callback type).has_callback = true)) := by
  obtain ⟨s, hs, hl, hcase⟩ := registry_remove_callback_ok h
  have hlt : source < r.objects.length := by
    rcases List.getElem?_eq_some.mp hs with ⟨hlt, _⟩; exact hlt
  have hmem : source ∈ r.event_sources_ := (hi.linked_iff source s hs).mp hl
  refine ⟨s, hs, hl, ?_⟩
  rcases hcase with ⟨hc, rfl⟩ | ⟨hc, rfl⟩
  · constructor
    · have : ({ s.clear_callback type with linked := (s.clear_callback type).has_callback }
          : event_source) = s.clear_callback type := by
        have h1 := clear_callback_linked s type
        rw [hl] at h1
        rw [hc]
        cases hcc : s.clear_callback type
        simp [hcc] at h1
        simp [h1]
      rw [this]
    · intro j
      simp [hc]
  · constructor
    · apply List.ext_getElem?
      intro j
      rw [erase_objects]
      simp only [List.getElem?_set]
      by_cases hj : source = j
      · subst hj
        simp [hlt, hmem, clear_callback_fd, hc]
      · simp only [hj, if_false]
        cases hsj : r.objects[j]? with
        | none => rfl
        | some sj =>
          simp only [Option.map_some', Option.some.injEq]
          rw [if_neg]
          rintro ⟨_, hfd⟩
          exact hj (hi.distinct source j s.fd (fd_at_eq_some.mpr ⟨s, hs, rfl⟩)
            (fd_at_eq_some.mpr ⟨sj, hsj, hfd⟩))
    · intro j
      rw [erase_mem, fd_at_set r.event_sources_ _ hs (clear_callback_fd s type)]
      constructor
      · rintro ⟨hj, hne⟩
        refine ⟨hj, ?_⟩
        rintro rfl
        exact absurd (fd_at_eq_some.mpr ⟨s, hs, rfl⟩) hne
      · rintro ⟨hj, himp⟩
        refine ⟨hj, ?_⟩
        intro hfd
        have : j = source := hi.distinct j source s.fd hfd (fd_at_eq_some.mpr ⟨s, hs, rfl⟩)
        rw [himp this] at hc
        exact absurd hc (by decide)

theorem registry_inv_remove {type : event_type} {r r1 : event_source_registry} {source : Nat}
    (hi : r.inv) (h : r.remove_callback type source = .ok r1) : r1.inv := by
  obtain ⟨s, hs, hl, hobj, htbl⟩ := remove_callback_inv_ok hi h
  have hlt : source < r.objects.length := by
    rcases List.getElem?_eq_some.mp hs with ⟨hlt, _⟩; exact hlt
  have hfd : ∀ j, r1.fd_at j = r.fd_at j := by
    intro j
    have := fd_at_set r.event_sources_ r1.event_sources_ hs
      (show ({ s.clear_callback type with linked := (s.clear_callback type).has_callback }
        : event_source).fd = s.fd from clear_callback_fd s type) j
    rw [← hobj] at this
    exact this
  refine ⟨?_, ?_, ?_⟩
  · intro i j fd hfi hfj
    rw [hfd] at hfi hfj
    exact hi.distinct i j fd hfi hfj
  · intro j sj hsj
    rw [hobj] at hsj
    simp only [List.getElem?_set] at hsj
    rw [htbl]
    by_cases hj : source = j
    · subst hj
      simp only [hlt, if_true, Option.some.injEq] at hsj
      subst hsj
      have hmem : source ∈ r.event_sources_ := (hi.linked_iff source s hs).mp hl
      simp [hmem]
    · simp only [hj, if_false] at hsj
      rw [hi.linked_iff j sj hsj]
      simp [Ne.symm hj]
  · intro j sj hsj
    rw [hobj] at hsj
    simp only [List.getElem?_set] at hsj
    by_cases hj : source = j
    · subst hj
      simp only [hlt, if_true, Option.some.injEq] at hsj
      subst hsj
      exact Iff.rfl
    · simp only [hj, if_false] at hsj
      exact hi.callback_iff j sj hsj

theorem registry_inv_apply {r r1 : event_source_registry} {op : registration_op} (hi : r.inv)
    (hne : op.callback_nonempty = true) (h : r.apply op = .ok r1) : r1.inv := by
  rcases registry_apply_generic r op with ⟨type, source, callback, hcb, he⟩ | ⟨type, source, he⟩
  · rw [he] at h
    rw [hcb] at hne
    cases callback with
    | none => simp at hne
    | some c => exact registry_inv_register hi h
  · rw [he] at h
    exact registry_inv_remove hi h

theorem registry_inv_run {ops : List registration_op} {r r1 : event_source_registry} (hi : r.inv)
    (hne : ∀ op ∈ ops, op.callback_nonempty = true) (h : r.run ops = .ok r1) : r1.inv := by
  induction ops generalizing r with
  | nil => simp [run] at h; subst h; exact hi
  | cons op ops ih =>
    unfold run at h
    cases ha : r.apply op with
    | error f => simp [ha] at h
    | ok r2 =>
      simp only [ha] at h
      exact ih (registry_inv_apply hi (hne op (List.mem_cons_self _ _)) ha)
        (fun o ho => hne o (List.mem_cons_of_mem _ ho)) h

/-- Under the invariant, `find` on the descriptor of an object returns the object exactly
when it holds a callback. -/
theorem inv_find_iff {r : event_source_registry} (hi : r.inv) {j : Nat} {s : event_source}
    (hs : r.objects[j]? = some s) : r.find s.fd = some j ↔ s.has_callback = true := by
  rw [find_eq_some_iff hi.distinct, ← hi.callback_iff j s hs, hi.linked_iff j s hs]
  constructor
  · exact fun h => h.1
  · exact fun h => ⟨h, fd_at_eq_some.mpr ⟨s, hs, rfl⟩⟩

end event_source_registry

/-! ## The reactor: what each call does -/

namespace select_reactor

theorem reactor_register_read_callback_eq (r : select_reactor) (source : Nat)
    (callback : event_callback) :
    r.register_read_callback source callback = r.register_callback .read source callback := rfl

theorem reactor_register_write_callback_eq (r : select_reactor) (source : Nat)
    (callback : event_callback) :
    r.register_write_callback source callback = r.register_callback .write source callback := rfl

theorem reactor_register_except_callback_eq (r : select_reactor) (source : Nat)
    (callback : event_callback) :
    r.register_except_callback source callback = r.register_callback .except source callback :=
  rfl

theorem reactor_remove_read_callback_eq (r : select_reactor) (source : Nat) :
    r.remove_read_callback source = r.remove_callback .read source := rfl

theorem reactor_remove_write_callback_eq (r : select_reactor) (source : Nat) :
    r.remove_write_callback source = r.remove_callback .write source := rfl

theorem reactor_remove_except_callback_eq (r : select_reactor) (source : Nat) :
    r.remove_except_callback source = r.remove_callback .except source := rfl

/-- Every call on the reactor is a register or a remove of some kind. -/
theorem reactor_apply_generic (r : select_reactor) (op : registration_op) :
    (∃ type source callback, op = (match type with
        | .read => .register_read_callback source callback
        | .write => .register_write_callback source callback
        | .except => .register_except_callback source callback) ∧
      r.apply op = r.register_callback type source callback) ∨
    (∃ type source, op = (match type with
        | .read => .remove_read_callback source
        | .write => .remove_write_callback source
        | .except => .remove_except_callback source) ∧
      r.apply op = r.remove_callback type source) := by
  cases op with
  | register_read_callback source callback => exact .inl ⟨.read, source, callback, rfl, rfl⟩
  | register_write_callback source callback => exact .inl ⟨.write, source, callback, rfl, rfl⟩
  | register_except_callback source callback => exact .inl ⟨.except, source, callback, rfl, rfl⟩
  | remove_read_callback source => exact .inr ⟨.read, source, rfl, rfl⟩
  | remove_write_callback source => exact .inr ⟨.write, source, rfl, rfl⟩
  | remove_except_callback source => exact .inr ⟨.except, source, rfl, rfl⟩

@[simp] theorem set_interest_set_registry (r : select_reactor) (type : event_type)
    (set : fd_set) : (r.set_interest_set type set).registry_ = r.registry_ := by
  cases type <;> rfl

@[simp] theorem set_interest_set_maxfd (r : select_reactor) (type : event_type)
    (set : fd_set) : (r.set_interest_set type set).maxfd_ = r.maxfd_ := by
  cases type <;> rfl

theorem interest_set_set_interest_set (r : select_reactor) (type type1 : event_type)
    (set : fd_set) :
    (r.set_interest_set type set).interest_set type1 =
      if type1 = type then set else r.interest_set type1 := by
  cases type <;> cases type1 <;> simp [set_interest_set, interest_set]

/-- What a register call of the reactor returns. -/
theorem reactor_register_callback_ok {type : event_type} {r r1 : select_reactor} {source : Nat}
    {callback : event_callback} (h : r.register_callback type source callback = .ok r1) :
    ∃ c registry s, callback = some c ∧
      r.registry_.register_callback type source (some c) = .ok registry ∧
      registry.objects[source]? = some s ∧ 0 ≤ s.fd ∧ s.fd < FD_SETSIZE ∧
      r1 = ({ r with registry_ := registry,
                     maxfd_ := some (cached_after_register r.maxfd_ s.fd) }).set_interest_set
              type (insert s.fd (r.interest_set type)) := by
  unfold register_callback at h
  cases callback with
  | none => simp [throw, throwThe, MonadExceptOf.throw, bind, Except.bind] at h
  | some c =>
    cases hreg : r.registry_.register_callback type source (some c) with
    | error f => simp [hreg, bind, Except.bind, pure, Except.pure] at h
    | ok registry =>
      cases hs : registry.objects[source]? with
      | none =>
        simp [hreg, hs, bind, Except.bind, pure, Except.pure, cache_fd_read_register] at h
      | some s =>
        refine ⟨c, registry, s, rfl, hreg, hs, ?_⟩
        by_cases hr : 0 ≤ s.fd ∧ s.fd < FD_SETSIZE
        · refine ⟨hr.1, hr.2, ?_⟩
          cases hm : r.maxfd_ with
          | none =>
            simp [hreg, hs, hm, bind, Except.bind, pure, Except.pure, cache_fd_read_register,
              FD_SET, hr, cached_after_register] at h
            rw [← h]
            cases type <;> rfl
          | some m =>
            by_cases hgt : s.fd > m
            · simp [hreg, hs, hm, bind, Except.bind, pure, Except.pure, cache_fd_read_register,
                FD_SET, hr, cached_after_register, hgt] at h
              rw [← h]
              cases type <;> simp [set_interest_set, interest_set, cached_after_register, hgt]
            · simp [hreg, hs, hm, bind, Except.bind, pure, Except.pure, cache_fd_read_register,
                FD_SET, hr, cached_after_register, hgt] at h
              rw [← h]
              cases type <;> simp [set_interest_set, interest_set, cached_after_register, hgt, hm]
        · exfalso
          cases hm : r.maxfd_ with
          | none =>
            simp [hreg, hs, hm, bind, Except.bind, pure, Except.pure, cache_fd_read_register,
              FD_SET, hr, throw, throwThe, MonadExceptOf.throw] at h
          | some m =>
            by_cases hgt : s.fd > m
            · simp [hreg, hs, hm, bind, Except.bind, pure, Except.pure, cache_fd_read_register,
                FD_SET, hr, throw, throwThe, MonadExceptOf.throw, hgt] at h
            · simp [hreg, hs, hm, bind, Except.bind, pure, Except.pure, cache_fd_read_register,
                FD_SET, hr, throw, throwThe, MonadExceptOf.throw, hgt] at h

/-- What a remove call of the reactor returns. -/
theorem reactor_remove_callback_ok {type : event_type} {r r1 : select_reactor} {source : Nat}
    (h : r.remove_callback type source = .ok r1) :
    ∃ registry s, r.registry_.remove_callback type source = .ok registry ∧
      registry.objects[source]? = some s ∧ 0 ≤ s.fd ∧ s.fd < FD_SETSIZE ∧
      r1 = ({ r with registry_ := registry, maxfd_ := none }).set_interest_set
              type ((r.interest_set type).erase s.fd) := by
  unfold remove_callback at h
  cases hreg : r.registry_.remove_callback type source with
  | error f => simp [hreg, bind, Except.bind] at h
  | ok registry =>
    cases hs : registry.objects[source]? with
    | none => simp [hreg, hs, bind, Except.bind, throw, throwThe, MonadExceptOf.throw] at h
    | some s =>
      refine ⟨registry, s, rfl, hs, ?_⟩
      by_cases hr : 0 ≤ s.fd ∧ s.fd < FD_SETSIZE
      · refine ⟨hr.1, hr.2, ?_⟩
        simp [hreg, hs, bind, Except.bind, pure, Except.pure, FD_CLR, hr] at h
        exact h.symm
      · exfalso
        simp [hreg, hs, bind, Except.bind, pure, Except.pure, FD_CLR, hr] at h

end select_reactor

theorem event_source.callback_set_callback (s : event_source) (type type1 : event_type)
    (callback : event_callback) :
    (s.set_callback type callback).callback type1 =
      if type1 = type then callback else s.callback type1 := by
  cases type <;> cases type1 <;> rfl

theorem event_source.callback_clear_callback (s : event_source) (type type1 : event_type) :
    (s.clear_callback type).callback type1 = if type1 = type then none else s.callback type1 := by
  cases type <;> cases type1 <;> rfl

theorem event_source.callback_link (s : event_source) (b : Bool) (type : event_type) :
    ({ s with linked := b } : event_source).callback type = s.callback type := by
  cases type <;> rfl

theorem event_source.has_callback_of_callback {s : event_source} {type : event_type}
    (h : (s.callback type).isSome = true) : s.has_callback = true := by
  cases type <;>
    simp [event_source.callback, event_source.read_callback, event_source.write_callback,
      event_source.except_callback] at h <;>
    simp [event_source.has_callback, h]

namespace select_reactor

theorem interest_set_with (r : select_reactor) (registry : event_source_registry)
    (maxfd : Option Int) (type : event_type) :
    ({ r with registry_ := registry, maxfd_ := maxfd } : select_reactor).interest_set type =
      r.interest_set type := by
  cases type <;> rfl

theorem reactor_inv_init {fds : List Int} (h : fds.Nodup) : (init fds).inv := by
  refine ⟨event_source_registry.registry_inv_init h, ?_, ?_, ?_⟩
  · intro type j s hs
    simp only [init, event_source_registry.init, List.getElem?_map] at hs
    cases hf : fds[j]? with
    | none => simp [hf] at hs
    | some a =>
      simp [hf] at hs
      subst hs
      cases type <;> simp [init, interest_set, event_source.mk_fd, event_source.callback,
        event_source.read_callback, event_source.write_callback, event_source.except_callback]
  · intro type d hd
    cases type <;> simp [init, interest_set] at hd
  · intro type d hd
    cases type <;> simp [init, interest_set] at hd

theorem reactor_inv_register {type : event_type} {r r1 : select_reactor} {source : Nat}
    {callback : event_callback} (hi : r.inv)
    (h : r.register_callback type source callback = .ok r1) : r1.inv := by
  obtain ⟨c, registry, s1, rfl, hreg, hs1, h0, h1, rfl⟩ := reactor_register_callback_ok h
  have hreginv := event_source_registry.registry_inv_register hi.registry hreg
  obtain ⟨s, hs, hregeq⟩ := event_source_registry.register_callback_inv_ok hi.registry hreg
  have hlt : source < r.registry_.objects.length := by
    rcases List.getElem?_eq_some.mp hs with ⟨hlt, _⟩; exact hlt
  have hs1eq : s1 = ({ s with linked := true } : event_source).set_callback type (some c) := by
    rw [hregeq] at hs1
    simpa [hlt] using hs1.symm
  have hfd1 : s1.fd = s.fd := by
    rw [hs1eq, event_source_registry.set_callback_fd]; rfl
  have hobj : ∀ j, registry.objects[j]? =
      if source = j then some s1 else r.registry_.objects[j]? := by
    intro j
    rw [hregeq, hs1eq]
    simp only [List.getElem?_set, hlt, if_true]
  have hother : ∀ j sj, source ≠ j → r.registry_.objects[j]? = some sj → sj.fd ≠ s.fd := by
    intro j sj hj hsj hfd
    exact hj (hi.registry.distinct source j s.fd
      (event_source_registry.fd_at_eq_some.mpr ⟨s, hs, rfl⟩)
      (event_source_registry.fd_at_eq_some.mpr ⟨sj, hsj, hfd⟩))
  refine ⟨by simpa using hreginv, ?_, ?_, ?_⟩
  · intro k j sj hsj
    simp only [set_interest_set_registry] at hsj
    rw [hobj] at hsj
    simp only [interest_set_set_interest_set, interest_set_with]
    by_cases hj : source = j
    · subst hj
      simp only [if_true, Option.some.injEq] at hsj
      subst hsj
      by_cases hk : k = type
      · subst hk
        simp [hfd1, hs1eq, event_source.callback_set_callback]
      · simp only [hk, if_false]
        rw [hfd1, hi.bitmap k source s hs, hs1eq, event_source.callback_set_callback]
        simp only [hk, if_false]
        rw [event_source.callback_link s true k]
    · simp only [hj, if_false] at hsj
      by_cases hk : k = type
      · subst hk
        simp only [if_true, Finset.mem_insert]
        rw [← hi.bitmap k j sj hsj]
        constructor
        · rintro (h | h)
          · exact absurd (h.trans hfd1) (hother j sj hj hsj)
          · exact h
        · exact Or.inr
      · simp only [hk, if_false]
        exact hi.bitmap k j sj hsj
  · intro k d hd
    simp only [set_interest_set_registry]
    simp only [interest_set_set_interest_set, interest_set_with] at hd
    have hold : d ∈ r.interest_set k →
        ∃ (j : Nat) (sj : event_source), registry.objects[j]? = some sj ∧ sj.fd = d := by
      intro hd
      obtain ⟨j, sj, hsj, hfd⟩ := hi.covered k d hd
      by_cases hj : source = j
      · subst hj
        refine ⟨source, s1, by rw [hobj]; simp, ?_⟩
        rw [hs] at hsj
        cases hsj
        rw [hfd1, hfd]
      · exact ⟨j, sj, by rw [hobj]; simp [hj, hsj], hfd⟩
    by_cases hk : k = type
    · subst hk
      simp only [if_true, Finset.mem_insert] at hd
      rcases hd with rfl | hd
      · exact ⟨source, s1, by rw [hobj]; simp, rfl⟩
      · exact hold hd
    · simp only [hk, if_false] at hd
      exact hold hd
  · intro k d hd
    simp only [interest_set_set_interest_set, interest_set_with] at hd
    by_cases hk : k = type
    · subst hk
      simp only [if_true, Finset.mem_insert] at hd
      rcases hd with rfl | hd
      · exact ⟨h0, h1⟩
      · exact hi.in_range k d hd
    · simp only [hk, if_false] at hd
      exact hi.in_range k d hd

theorem reactor_inv_remove {type : event_type} {r r1 : select_reactor} {source : Nat} (hi : r.inv)
    (h : r.remove_callback type source = .ok r1) : r1.inv := by
  obtain ⟨registry, s1, hreg, hs1, _, _, rfl⟩ := reactor_remove_callback_ok h
  have hreginv := event_source_registry.registry_inv_remove hi.registry hreg
  obtain ⟨s, hs, _, hregobj, _⟩ := event_source_registry.remove_callback_inv_ok hi.registry hreg
  have hlt : source < r.registry_.objects.length := by
    rcases List.getElem?_eq_some.mp hs with ⟨hlt, _⟩; exact hlt
  have hs1eq : s1 = ({ s.clear_callback type with
      linked := (s.clear_callback type).has_callback } : event_source) := by
    rw [hregobj] at hs1
    simpa [hlt] using hs1.symm
  have hfd1 : s1.fd = s.fd := by
    rw [hs1eq]; exact event_source_registry.clear_callback_fd s type
  have hcb1 : ∀ k, s1.callback k = (s.clear_callback type).callback k := by
    intro k; rw [hs1eq]; exact event_source.callback_link _ _ k
  have hobj : ∀ j, registry.objects[j]? =
      if source = j then some s1 else r.registry_.objects[j]? := by
    intro j
    rw [hregobj, hs1eq]
    simp only [List.getElem?_set, hlt, if_true]
  have hother : ∀ j sj, source ≠ j → r.registry_.objects[j]? = some sj → sj.fd ≠ s.fd := by
    intro j sj hj hsj hfd
    exact hj (hi.registry.distinct source j s.fd
      (event_source_registry.fd_at_eq_some.mpr ⟨s, hs, rfl⟩)
      (event_source_registry.fd_at_eq_some.mpr ⟨sj, hsj, hfd⟩))
  refine ⟨by simpa using hreginv, ?_, ?_, ?_⟩
  · intro k j sj hsj
    simp only [set_interest_set_registry] at hsj
    rw [hobj] at hsj
    simp only [interest_set_set_interest_set, interest_set_with]
    by_cases hj : source = j
    · subst hj
      simp only [if_true, Option.some.injEq] at hsj
      subst hsj
      by_cases hk : k = type
      · subst hk
        simp [hcb1, event_source.callback_clear_callback]
      · simp only [hk, if_false]
        rw [hfd1, hi.bitmap k source s hs, hcb1, event_source.callback_clear_callback]
        simp only [hk, if_false]
    · simp only [hj, if_false] at hsj
      by_cases hk : k = type
      · subst hk
        simp only [if_true, Finset.mem_erase]
        rw [← hi.bitmap k j sj hsj]
        constructor
        · exact fun h => h.2
        · exact fun h => ⟨fun he => hother j sj hj hsj (he.trans hfd1), h⟩
      · simp only [hk, if_false]
        exact hi.bitmap k j sj hsj
  · intro k d hd
    simp only [set_interest_set_registry]
    simp only [interest_set_set_interest_set, interest_set_with] at hd
    have hold : d ∈ r.interest_set k →
        ∃ (j : Nat) (sj : event_source), registry.objects[j]? = some sj ∧ sj.fd = d := by
      intro hd
      obtain ⟨j, sj, hsj, hfd⟩ := hi.covered k d hd
      by_cases hj : source = j
      · subst hj
        refine ⟨source, s1, by rw [hobj]; simp, ?_⟩
        rw [hs] at hsj
        cases hsj
        rw [hfd1, hfd]
      · exact ⟨j, sj, by rw [hobj]; simp [hj, hsj], hfd⟩
    by_cases hk : k = type
    · subst hk
      simp only [if_true, Finset.mem_erase] at hd
      exact hold hd.2
    · simp only [hk, if_false] at hd
      exact hold hd
  · intro k d hd
    simp only [interest_set_set_interest_set, interest_set_with] at hd
    by_cases hk : k = type
    · subst hk
      simp only [if_true, Finset.mem_erase] at hd
      exact hi.in_range k d hd.2
    · simp only [hk, if_false] at hd
      exact hi.in_range k d hd

theorem reactor_inv_apply {r r1 : select_reactor} {op : registration_op} (hi : r.inv)
    (h : r.apply op = .ok r1) : r1.inv := by
  rcases reactor_apply_generic r op with ⟨type, source, callback, _, he⟩ | ⟨type, source, _, he⟩
  · rw [he] at h
    exact reactor_inv_register hi h
  · rw [he] at h
    exact reactor_inv_remove hi h

theorem reactor_inv_run {ops : List registration_op} {r r1 : select_reactor} (hi : r.inv)
    (h : r.run ops = .ok r1) : r1.inv := by
  induction ops generalizing r with
  | nil => simp [run] at h; subst h; exact hi
  | cons op ops ih =>
    unfold run at h
    cases ha : r.apply op with
    | error f => simp [ha] at h
    | ok r2 =>
      simp only [ha] at h
      exact ih (reactor_inv_apply hi ha) h

/-- Under the invariant: a descriptor is in the bitmap of a kind exactly when the
registry holds a source with that descriptor and a callback of that kind. -/
theorem inv_bitmap_iff {r : select_reactor} (hi : r.inv) (type : event_type) (d : Int) :
    d ∈ r.interest_set type ↔
      ∃ j ∈ r.registry_.event_sources_, ∃ s : event_source,
        r.registry_.objects[j]? = some s ∧ s.fd = d ∧ (s.callback type).isSome = true := by
  constructor
  · intro hd
    obtain ⟨j, s, hs, rfl⟩ := hi.covered type d hd
    have hcb := (hi.bitmap type j s hs).mp hd
    have hl := (hi.registry.callback_iff j s hs).mpr (event_source.has_callback_of_callback hcb)
    exact ⟨j, (hi.registry.linked_iff j s hs).mp hl, s, hs, rfl, hcb⟩
  · rintro ⟨j, _, s, hs, rfl, hcb⟩
    exact (hi.bitmap type j s hs).mpr hcb

end select_reactor

/-! ## The dispatch scan when the callbacks it meets leave the reactor alone -/

namespace select_reactor

theorem callback_for_eq_some {r : select_reactor} {fd : Int} {type : event_type} {c : Nat} :
    r.callback_for fd type = some c ↔
      ∃ (j : Nat) (s : event_source), r.registry_.find fd = some j ∧
        r.registry_.objects[j]? = some s ∧ s.callback type = some c := by
  unfold callback_for
  cases hf : r.registry_.find fd with
  | none => simp
  | some j =>
    cases hs : r.registry_.objects[j]? with
    | none => simp [hs]
    | some s => simp [hs]

theorem invoke_inert {prog : Nat → List registration_op} {m : machine} {j : Nat}
    {s : event_source} {fd : Int} {type : event_type} {c : Nat}
    (hs : m.reactor.registry_.objects[j]? = some s) (hc : s.callback type = some c)
    (hp : prog c = []) :
    invoke prog m j fd type =
      .returned { m with invoked := m.invoked ++ [{ fd := fd, type := type, callback := c }] } := by
  simp [invoke, hs, hc, hp, run]

/-- A dispatch of one descriptor when the callbacks it invokes make no call on the
reactor. -/
theorem dispatch_fd_inert {prog : Nat → List registration_op} {read_set write_set except_set : fd_set}
    {fd : Int} {m : machine}
    (H : ∀ type, fd ∈ kind_set read_set write_set except_set type →
      ∃ c, m.reactor.callback_for fd type = some c ∧ prog c = []) :
    dispatch_fd prog read_set write_set except_set fd m =
      .returned ({ m with invoked :=
          m.invoked ++ ready_invocations m.reactor read_set write_set except_set fd },
        if fd ∈ read_set ∨ fd ∈ write_set ∨ fd ∈ except_set then m.reactor.registry_.find fd
        else none) := by
  have Hr := H .read
  have Hw := H .write
  have He := H .except
  simp only [kind_set] at Hr Hw He
  cases hf : m.reactor.registry_.find fd with
  | none =>
    have hr : fd ∉ read_set := fun h => by
      obtain ⟨c, hc, _⟩ := Hr h
      simp [callback_for, hf] at hc
    have hw : fd ∉ write_set := fun h => by
      obtain ⟨c, hc, _⟩ := Hw h
      simp [callback_for, hf] at hc
    have he : fd ∉ except_set := fun h => by
      obtain ⟨c, hc, _⟩ := He h
      simp [callback_for, hf] at hc
    simp [dispatch_fd, FD_ISSET, hr, hw, he, ready_invocations, kind_set]
  | some j =>
    cases hs : m.reactor.registry_.objects[j]? with
    | none =>
      have hr : fd ∉ read_set := fun h => by
        obtain ⟨c, hc, _⟩ := Hr h
        simp [callback_for, hf, hs] at hc
      have hw : fd ∉ write_set := fun h => by
        obtain ⟨c, hc, _⟩ := Hw h
        simp [callback_for, hf, hs] at hc
      have he : fd ∉ except_set := fun h => by
        obtain ⟨c, hc, _⟩ := He h
        simp [callback_for, hf, hs] at hc
      simp [dispatch_fd, FD_ISSET, hr, hw, he, ready_invocations, kind_set]
    | some s =>
      have hcf : ∀ type, m.reactor.callback_for fd type = s.callback type := by
        intro type; simp [callback_for, hf, hs]
      simp only [hcf] at Hr Hw He
      by_cases hr : fd ∈ read_set <;> by_cases hw : fd ∈ write_set <;>
        by_cases he : fd ∈ except_set
      · obtain ⟨cr, hcr, hpr⟩ := Hr hr
        obtain ⟨cw, hcw, hpw⟩ := Hw hw
        obtain ⟨ce, hce, hpe⟩ := He he
        simp [dispatch_fd, FD_ISSET, hr, hw, he, ready_invocations, kind_set, hf, hcf,
          invoke, hs, hcr, hcw, hce, hpr, hpw, hpe, run]
      · obtain ⟨cr, hcr, hpr⟩ := Hr hr
        obtain ⟨cw, hcw, hpw⟩ := Hw hw
        simp [dispatch_fd, FD_ISSET, hr, hw, he, ready_invocations, kind_set, hf, hcf,
          invoke, hs, hcr, hcw, hpr, hpw, run]
      · obtain ⟨cr, hcr, hpr⟩ := Hr hr
        obtain ⟨ce, hce, hpe⟩ := He he
        simp [dispatch_fd, FD_ISSET, hr, hw, he, ready_invocations, kind_set, hf, hcf,
          invoke, hs, hcr, hce, hpr, hpe, run]
      · obtain ⟨cr, hcr, hpr⟩ := Hr hr
        simp [dispatch_fd, FD_ISSET, hr, hw, he, ready_invocations, kind_set, hf, hcf,
          invoke, hs, hcr, hpr, run]
      · obtain ⟨cw, hcw, hpw⟩ := Hw hw
        obtain ⟨ce, hce, hpe⟩ := He he
        simp [dispatch_fd, FD_ISSET, hr, hw, he, ready_invocations, kind_set, hf, hcf,
          invoke, hs, hcw, hce, hpw, hpe, run]
      · obtain ⟨cw, hcw, hpw⟩ := Hw hw
        simp [dispatch_fd, FD_ISSET, hr, hw, he, ready_invocations, kind_set, hf, hcf,
          invoke, hs, hcw, hpw, run]
      · obtain ⟨ce, hce, hpe⟩ := He he
        simp [dispatch_fd, FD_ISSET, hr, hw, he, ready_invocations, kind_set, hf, hcf,
          invoke, hs, hce, hpe, run]
      · simp [dispatch_fd, FD_ISSET, hr, hw, he, ready_invocations, kind_set]

theorem ready_invocations_nil {r : select_reactor} {read_set write_set except_set : fd_set}
    {fd : Int} (h : ¬(fd ∈ read_set ∨ fd ∈ write_set ∨ fd ∈ except_set)) :
    ready_invocations r read_set write_set except_set fd = [] := by
  simp only [not_or] at h
  simp [ready_invocations, kind_set, h.1, h.2.1, h.2.2]

theorem ready_count_succ (read_set write_set except_set : fd_set) (lo n : Nat) :
    ready_count read_set write_set except_set lo (n + 1) =
      (if (lo : Int) ∈ read_set ∨ (lo : Int) ∈ write_set ∨ (lo : Int) ∈ except_set then 1
        else 0) + ready_count read_set write_set except_set (lo + 1) n := by
  unfold ready_count
  rw [List.range'_succ, List.filter_cons]
  split <;> rename_i h
  · simp only [decide_eq_true_eq] at h
    simp [h]; omega
  · simp only [decide_eq_true_eq] at h
    simp [h]

theorem expected_succ (r : select_reactor) (read_set write_set except_set : fd_set)
    (lo n : Nat) :
    expected r read_set write_set except_set lo (n + 1) =
      ready_invocations r read_set write_set except_set (lo : Int) ++
        expected r read_set write_set except_set (lo + 1) n := by
  unfold expected
  rw [List.range'_succ, List.flatMap_cons]

theorem expected_nil_of_ready_count {r : select_reactor} {read_set write_set except_set : fd_set}
    {lo n : Nat} (h : ready_count read_set write_set except_set lo n = 0) :
    expected r read_set write_set except_set lo n = [] := by
  induction n generalizing lo with
  | zero => simp [expected]
  | succ n ih =>
    rw [ready_count_succ] at h
    rw [expected_succ]
    by_cases hr : (lo : Int) ∈ read_set ∨ (lo : Int) ∈ write_set ∨ (lo : Int) ∈ except_set
    · simp [hr] at h
    · simp only [hr, if_false, Nat.zero_add] at h
      rw [ready_invocations_nil hr, ih h]
      rfl

/-- The scan from `fd` to the bound when every callback it meets makes no call on the
reactor: it returns, the reactor is as before, and the callbacks of the ready pairs have
been invoked in order. -/
theorem scan_inert {prog : Nat → List registration_op} {read_set write_set except_set : fd_set}
    {M : Int} (fuel : Nat) :
    ∀ (fd : Nat) (result : Int) (m : machine),
      m.reactor.maxfd_ = some M →
      (∀ d : Nat, fd ≤ d → (d : Int) ≤ M →
        ∀ type, (d : Int) ∈ kind_set read_set write_set except_set type →
          ∃ c, m.reactor.callback_for d type = some c ∧ prog c = []) →
      1 ≤ fuel → M + 2 ≤ (fd : Int) + fuel →
      (ready_count read_set write_set except_set fd ((M + 1).toNat - fd) : Int) ≤ result →
      scan prog read_set write_set except_set fuel fd result m =
        .returned { m with invoked := (m.invoked ++
          expected m.reactor read_set write_set except_set fd ((M + 1).toNat - fd)) } := by
  induction fuel with
  | zero => intro fd result m _ _ h1 _ _; omega
  | succ fuel ih =>
    intro fd result m hM H hfd hfuel hcount
    unfold scan
    simp only [hM]
    by_cases hcond : (fd : Int) ≤ M ∧ result ≠ 0
    · rw [if_pos hcond]
      have hn : (M + 1).toNat - fd = ((M + 1).toNat - (fd + 1)) + 1 := by omega
      rw [dispatch_fd_inert (H fd (Nat.le_refl _) hcond.1)]
      simp only
      rw [hn, ready_count_succ] at hcount
      refine (ih (fd + 1) _ _
        (show ({ m with invoked := m.invoked ++
            ready_invocations m.reactor read_set write_set except_set (fd : Int) }
            : machine).reactor.maxfd_ = some M from hM)
        (fun d hd hdM => H d (by omega) hdM) (by omega) (by push_cast; omega)
        ?_).trans ?_
      rotate_left
      · rw [hn, expected_succ]
        simp [List.append_assoc]
      · by_cases hr : (fd : Int) ∈ read_set ∨ (fd : Int) ∈ write_set ∨ (fd : Int) ∈ except_set
        · have hsome : (m.reactor.registry_.find (fd : Int)).isSome = true := by
            rcases hr with h | h | h
            · obtain ⟨c, hc, _⟩ := H fd (Nat.le_refl _) hcond.1 .read h
              obtain ⟨j, s, hj, _⟩ := callback_for_eq_some.mp hc
              simp [hj]
            · obtain ⟨c, hc, _⟩ := H fd (Nat.le_refl _) hcond.1 .write h
              obtain ⟨j, s, hj, _⟩ := callback_for_eq_some.mp hc
              simp [hj]
            · obtain ⟨c, hc, _⟩ := H fd (Nat.le_refl _) hcond.1 .except h
              obtain ⟨j, s, hj, _⟩ := callback_for_eq_some.mp hc
              simp [hj]
          simp only [hr, if_true, hsome] at hcount ⊢
          push_cast at hcount
          omega
        · simp only [hr, if_false] at hcount ⊢
          simp only [Option.isSome_none, Bool.false_eq_true, if_false]
          push_cast at hcount
          omega
    · rw [if_neg hcond]
      have hnil : expected m.reactor read_set write_set except_set fd ((M + 1).toNat - fd) = [] := by
        by_cases hle : (fd : Int) ≤ M
        · have hres : result = 0 := by
            by_contra hne
            exact hcond ⟨hle, hne⟩
          apply expected_nil_of_ready_count
          rw [hres] at hcount
          omega
        · have : (M + 1).toNat - fd = 0 := by omega
          rw [this]
          simp [expected]
      rw [hnil, List.append_nil]

end select_reactor

theorem select_all_ready_succeeds : select_succeeds select_all_ready := by
  intro call
  refine ⟨Finset.filter_subset _ _, Finset.filter_subset _ _, Finset.filter_subset _ _, ?_, rfl⟩
  intro d hd
  simp only [select_all_ready, Finset.mem_union, Finset.mem_filter] at hd
  rcases hd with (h | h) | h <;> exact h.2

namespace select_reactor

theorem mem_ready_invocations {r : select_reactor} {read_set write_set except_set : fd_set}
    {fd : Int} {x : invocation} :
    x ∈ ready_invocations r read_set write_set except_set fd ↔
      x.fd = fd ∧ fd ∈ kind_set read_set write_set except_set x.type ∧
        r.callback_for fd x.type = some x.callback := by
  unfold ready_invocations
  simp only [List.mem_filterMap]
  constructor
  · rintro ⟨type, _, h⟩
    by_cases hmem : fd ∈ kind_set read_set write_set except_set type
    · simp only [hmem, if_true, Option.map_eq_some'] at h
      obtain ⟨c, hc, rfl⟩ := h
      exact ⟨rfl, hmem, hc⟩
    · simp [hmem] at h
  · rintro ⟨hfd, hmem, hc⟩
    refine ⟨x.type, by cases x.type <;> simp, ?_⟩
    simp only [hmem, if_true, hc, Option.map_some']
    cases x
    simp at hfd
    simp [hfd]

theorem mem_expected {r : select_reactor} {read_set write_set except_set : fd_set}
    {lo n : Nat} {x : invocation} :
    x ∈ expected r read_set write_set except_set lo n ↔
      (∃ d : Nat, lo ≤ d ∧ d < lo + n ∧ x.fd = (d : Int)) ∧
        x.fd ∈ kind_set read_set write_set except_set x.type ∧
        r.callback_for x.fd x.type = some x.callback := by
  unfold expected
  simp only [List.mem_flatMap, List.mem_range'_1, mem_ready_invocations]
  constructor
  · rintro ⟨d, ⟨h1, h2⟩, hfd, hmem, hc⟩
    rw [← hfd] at hmem hc
    exact ⟨⟨d, h1, h2, hfd⟩, hmem, hc⟩
  · rintro ⟨⟨d, h1, h2, hfd⟩, hmem, hc⟩
    rw [hfd] at hmem hc
    exact ⟨d, ⟨h1, h2⟩, hfd, hmem, hc⟩

theorem ready_invocations_sorted (r : select_reactor) (read_set write_set except_set : fd_set)
    (fd : Int) :
    (ready_invocations r read_set write_set except_set fd).Pairwise invocation.before := by
  unfold ready_invocations
  rw [List.pairwise_filterMap]
  have key : ∀ (a b : event_type), a.rank < b.rank →
      ∀ x ∈ (if fd ∈ kind_set read_set write_set except_set a then
          (r.callback_for fd a).map fun c => ({ fd := fd, type := a, callback := c } : invocation)
        else none),
      ∀ y ∈ (if fd ∈ kind_set read_set write_set except_set b then
          (r.callback_for fd b).map fun c => ({ fd := fd, type := b, callback := c } : invocation)
        else none), invocation.before x y := by
    intro a b hab x hx y hy
    split at hx
    · split at hy
      · simp only [Option.mem_def, Option.map_eq_some'] at hx hy
        obtain ⟨_, _, rfl⟩ := hx
        obtain ⟨_, _, rfl⟩ := hy
        exact Or.inr ⟨rfl, hab⟩
      · simp at hy
    · simp at hx
  simp only [List.pairwise_cons, List.mem_cons, List.mem_singleton, List.not_mem_nil,
    false_imp_iff, implies_true, List.Pairwise.nil, and_true, forall_eq_or_imp, forall_eq]
  exact ⟨⟨key _ _ (by decide), key _ _ (by decide)⟩, key _ _ (by decide)⟩

theorem expected_sorted (r : select_reactor) (read_set write_set except_set : fd_set)
    (lo n : Nat) :
    (expected r read_set write_set except_set lo n).Pairwise invocation.before := by
  unfold expected
  rw [List.pairwise_flatMap]
  refine ⟨fun d _ => ready_invocations_sorted r read_set write_set except_set d, ?_⟩
  refine (List.pairwise_lt_range' lo n).imp ?_
  intro a b hab x hx y hy
  rw [mem_ready_invocations] at hx hy
  left
  rw [hx.1, hy.1]
  exact_mod_cast hab

theorem invocation_before_irrefl (x : invocation) : ¬ invocation.before x x := by
  rintro (h | ⟨_, h⟩) <;> omega

theorem expected_nodup (r : select_reactor) (read_set write_set except_set : fd_set)
    (lo n : Nat) : (expected r read_set write_set except_set lo n).Nodup := by
  refine (expected_sorted r read_set write_set except_set lo n).imp ?_
  intro a b hab heq
  subst heq
  exact invocation_before_irrefl a hab

theorem ready_count_le_card (read_set write_set except_set : fd_set) (lo n : Nat) :
    ready_count read_set write_set except_set lo n ≤
      read_set.card + write_set.card + except_set.card := by
  unfold ready_count
  have hnd : ((List.range' lo n).filter fun d : Nat =>
      decide ((d : Int) ∈ read_set ∨ (d : Int) ∈ write_set ∨ (d : Int) ∈ except_set)).Nodup :=
    (List.nodup_range' lo n).filter _
  have hnd2 := hnd.map (f := fun d : Nat => (d : Int)) (fun a b h => by simpa using h)
  rw [← List.length_map (f := fun d : Nat => (d : Int)), ← List.toFinset_card_of_nodup hnd2]
  calc _ ≤ (read_set ∪ write_set ∪ except_set).card := by
        apply Finset.card_le_card
        intro x hx
        simp only [List.mem_toFinset, List.mem_map, List.mem_filter, decide_eq_true_eq] at hx
        obtain ⟨d, ⟨_, hd⟩, rfl⟩ := hx
        simp only [Finset.mem_union]
        tauto
    _ ≤ (read_set ∪ write_set).card + except_set.card := Finset.card_union_le _ _
    _ ≤ read_set.card + write_set.card + except_set.card :=
        Nat.add_le_add_right (Finset.card_union_le _ _) _

theorem prepared_maxfd (r : select_reactor) : ∃ M, r.prepared.maxfd_ = some M := by
  unfold prepared
  cases h : r.maxfd_ with
  | none => exact ⟨_, by simp [recache_max_fd]; rfl⟩
  | some m => exact ⟨m, by simp [h]⟩

theorem prepared_registry (r : select_reactor) : r.prepared.registry_ = r.registry_ := by
  unfold prepared; split <;> rfl

theorem prepared_interest_set (r : select_reactor) (type : event_type) :
    r.prepared.interest_set type = r.interest_set type := by
  unfold prepared; split <;> cases type <;> rfl

theorem prepared_select_arguments (r : select_reactor) (M : Int) :
    r.prepared.select_arguments M = r.select_arguments M := by
  unfold prepared; split <;> rfl

theorem prepared_callback_for (r : select_reactor) (fd : Int) (type : event_type) :
    r.prepared.callback_for fd type = r.callback_for fd type := by
  unfold callback_for; rw [prepared_registry]

theorem prepared_inv {r : select_reactor} (hi : r.inv) : r.prepared.inv := by
  refine ⟨by rw [prepared_registry]; exact hi.registry, ?_, ?_, ?_⟩
  · intro type j s hs
    rw [prepared_registry] at hs
    rw [prepared_interest_set]
    exact hi.bitmap type j s hs
  · intro type d hd
    rw [prepared_interest_set] at hd
    rw [prepared_registry]
    exact hi.covered type d hd
  · intro type d hd
    rw [prepared_interest_set] at hd
    exact hi.in_range type d hd

theorem wait_for_events_prepared (select : select_call → select_return)
    (prog : Nat → List registration_op) (r : select_reactor) :
    wait_for_events select prog r = wait_for_events select prog r.prepared := by
  obtain ⟨M, hM⟩ := prepared_maxfd r
  have h1 : (if r.maxfd_.isNone then r.recache_max_fd else r) = r.prepared := rfl
  have h2 : (if r.prepared.maxfd_.isNone then r.prepared.recache_max_fd else r.prepared) =
      r.prepared := by simp [hM]
  unfold wait_for_events
  simp only [h1, h2]

/-- Under the invariant every descriptor in an interest bitmap has a callback of that
kind to dispatch. -/
theorem inv_callback_for {r : select_reactor} (hi : r.inv) {type : event_type} {d : Int}
    (hd : d ∈ r.interest_set type) : ∃ c, r.callback_for d type = some c := by
  obtain ⟨j, hj, s, hs, hfd, hcb⟩ := (inv_bitmap_iff hi type d).mp hd
  obtain ⟨c, hc⟩ := Option.isSome_iff_exists.mp hcb
  refine ⟨c, callback_for_eq_some.mpr ⟨j, s, ?_, hs, hc⟩⟩
  exact (event_source_registry.find_eq_some_iff hi.registry.distinct).mpr
    ⟨hj, event_source_registry.fd_at_eq_some.mpr ⟨s, hs, hfd⟩⟩

theorem scan_fuel_le (M : Int) : 1 ≤ scan_fuel M ∧ M + 2 ≤ ((0 : Nat) : Int) + scan_fuel M := by
  unfold scan_fuel FD_SETSIZE
  constructor
  · have : (1 : Nat) ≤ ((1024 : Int) + 1).toNat := by decide
    exact le_trans this (le_max_right _ _)
  · have h1 : (M + 2).toNat ≤ max (M + 2).toNat ((1024 : Int) + 1).toNat := le_max_left _ _
    have h2 : M + 2 ≤ ((M + 2).toNat : Int) := Int.self_le_toNat _
    have h3 : (((M + 2).toNat : Nat) : Int) ≤
        ((max (M + 2).toNat ((1024 : Int) + 1).toNat : Nat) : Int) := by exact_mod_cast h1
    simp only [Nat.cast_zero, zero_add]
    exact le_trans h2 h3

/-- One `wait_for_events` call whose `::select` succeeds and whose callbacks make no call
on the reactor: it returns, the reactor is as it was (with the cached maximum filled in),
`::select` was called once, and the callbacks of the ready pairs were invoked in order. -/
theorem wait_for_events_inert {select : select_call → select_return}
    {prog : Nat → List registration_op} {r : select_reactor} (hi : r.inv)
    (hsel : select_succeeds select) (hprog : ∀ c, prog c = []) :
    ∃ M, r.prepared.maxfd_ = some M ∧
      wait_for_events select prog r =
        .returned
          { reactor := r.prepared,
            invoked := expected r (select (r.select_arguments M)).read_set
              (select (r.select_arguments M)).write_set
              (select (r.select_arguments M)).except_set 0 (M + 1).toNat,
            select_calls := [r.select_arguments M] } := by
  obtain ⟨M, hM⟩ := prepared_maxfd r
  refine ⟨M, hM, ?_⟩
  rw [wait_for_events_prepared]
  have hp : (if r.prepared.maxfd_.isNone then r.prepared.recache_max_fd else r.prepared) =
      r.prepared := by simp [hM]
  unfold wait_for_events
  simp only [hp]
  simp only [hM]
  have hargs : select_call.mk (M + 1) r.prepared.read_set_ r.prepared.write_set_
      r.prepared.except_set_ 5 0 = r.select_arguments M := by
    rw [← prepared_select_arguments]; rfl
  rw [hargs]
  obtain ⟨hrs, hws, hes, hlt, hres⟩ := hsel (r.select_arguments M)
  have hnonneg : ¬ (select (r.select_arguments M)).result < 0 := by
    rw [hres]; omega
  rw [if_neg hnonneg]
  have hH : ∀ d : Nat, 0 ≤ d → (d : Int) ≤ M →
      ∀ type, (d : Int) ∈ kind_set (select (r.select_arguments M)).read_set
          (select (r.select_arguments M)).write_set
          (select (r.select_arguments M)).except_set type →
        ∃ c, r.prepared.callback_for d type = some c ∧ prog c = [] := by
    intro d _ _ type hmem
    have hin : (d : Int) ∈ r.interest_set type := by
      cases type
      · exact hrs hmem
      · exact hws hmem
      · exact hes hmem
    obtain ⟨c, hc⟩ := inv_callback_for hi hin
    exact ⟨c, by rw [prepared_callback_for]; exact hc, hprog c⟩
  have hfuel := scan_fuel_le M
  have hcount : (ready_count (select (r.select_arguments M)).read_set
      (select (r.select_arguments M)).write_set
      (select (r.select_arguments M)).except_set 0 ((M + 1).toNat - 0) : Int) ≤
      (select (r.select_arguments M)).result := by
    rw [hres]
    exact_mod_cast ready_count_le_card _ _ _ _ _
  rw [scan_inert (scan_fuel M) 0 _ _ hM hH hfuel.1 hfuel.2 hcount]
  simp only [List.nil_append, Nat.sub_zero]
  congr 2
  unfold expected ready_invocations
  simp only [prepared_callback_for]

end select_reactor

/-- C1, the code at the failing input: descriptors 7 and 3 are registered for read, 3 is
removed (the cached maximum becomes unknown) and registered again.
`cache_fd_read_register` then caches 3 although 7 is still registered, so the next
`wait_for_events` does not recompute: it passes `nfds = 4` to `::select`, scans up to 3, and
the ready descriptor 7 is neither watched nor dispatched. -/
theorem cached_maximum_too_small_after_removal_then_registration :
    (select_reactor.init [3, 7]).run cache_example_ops = .ok cache_example ∧
    cache_example.maxfd_ = some 3 ∧
    cache_example.registry_.iterate_fds = [7, 3] ∧
    (7 : Int) ∈ cache_example.read_set_ ∧
    (select_reactor.wait_for_events select_all_ready (fun _ => []) cache_example).is_returned
      = true ∧
    (select_reactor.wait_for_events select_all_ready (fun _ => [])
      cache_example).final.select_calls.map (·.nfds) = [4] ∧
    (select_reactor.wait_for_events select_all_ready (fun _ => [])
      cache_example).final.invoked = [⟨3, .read, 10⟩] := by
  refine ⟨rfl, by decide, by decide, by decide, by decide, by decide, by decide⟩

/-- C2, the code at the failing input: descriptor 5 is ready and its read callback calls
`remove_read_callback` on its own source.  The registration is gone, but the removal has
disengaged `maxfd_`, and the loop condition `fd <= *maxfd_` that follows reads it: the call
does not complete normally. -/
theorem self_removal_reads_unknown_cached_maximum :
    (select_reactor.init [5]).run [.register_read_callback 0 (some 1)]
      = .ok self_removal_example ∧
    (select_reactor.wait_for_events select_all_ready self_removal_prog
      self_removal_example).fault = some .optional_uninitialized ∧
    (select_reactor.wait_for_events select_all_ready self_removal_prog
      self_removal_example).final.invoked = [⟨5, .read, 1⟩] ∧
    (select_reactor.wait_for_events select_all_ready self_removal_prog
      self_removal_example).final.reactor.maxfd_ = none ∧
    (select_reactor.wait_for_events select_all_ready self_removal_prog
      self_removal_example).final.reactor.registry_ =
        { objects := [⟨5, none, none, none, false⟩], event_sources_ := [] } := by
  refine ⟨rfl, by decide, by decide, by decide, by decide⟩

/-- C3, the code at the failing input: descriptors 4 and 6 are ready for read and the
callback of 4 removes the read registration of 6.  The call is left at the next loop
condition (the removal disengaged `maxfd_`) with only the callback of 4 invoked; and a
dispatch of 6 in the state the callback left would find no source and fail `assert(source)`.
The callback of 6 is not invoked. -/
theorem removal_of_later_ready_descriptor_aborts :
    (select_reactor.init [4, 6]).run
      [.register_read_callback 0 (some 1), .register_read_callback 1 (some 2)]
      = .ok cross_example ∧
    (select_reactor.wait_for_events select_all_ready cross_removal_prog
      cross_example).fault = some .optional_uninitialized ∧
    (select_reactor.wait_for_events select_all_ready cross_removal_prog
      cross_example).final.invoked = [⟨4, .read, 1⟩] ∧
    (select_reactor.dispatch_fd cross_removal_prog {6, 4} ∅ ∅ 6
      (select_reactor.wait_for_events select_all_ready cross_removal_prog
        cross_example).final).fault = some .assertion_failed := by
  refine ⟨rfl, by decide, by decide, by decide⟩

/-- C9: after any sequence of registry register and remove calls, over sources with any
descriptors (equal ones included) and with any callback values, two sources in the
hashtable that have the same descriptor are the same source. -/
theorem registry_holds_one_source_per_descriptor (fds : List Int)
    (ops : List registration_op) (r : event_source_registry)
    (hrun : (event_source_registry.init fds).run ops = .ok r)
    (i j : Nat) (si sj : event_source)
    (hi : i ∈ r.event_sources_) (hj : j ∈ r.event_sources_)
    (hsi : r.objects[i]? = some si) (hsj : r.objects[j]? = some sj)
    (hfd : si.fd = sj.fd) : i = j :=
  event_source_registry.unique_keys_run (event_source_registry.unique_keys_init fds) hrun
    i hi j hj sj.fd (event_source_registry.fd_at_eq_some.mpr ⟨si, hsi, hfd⟩)
    (event_source_registry.fd_at_eq_some.mpr ⟨sj, hsj, rfl⟩)

/-- C9 at a concrete input: with two sources of descriptor 5, the second register call
leaves the table with the first source only. -/
theorem registry_holds_one_source_per_descriptor_witness :
    (event_source_registry.init [5, 5]).run duplicate_ops = .ok duplicate_registry ∧
    duplicate_registry.event_sources_ = [0] ∧ (0 : Nat) = 0 :=
  ⟨rfl, rfl,
    registry_holds_one_source_per_descriptor [5, 5] duplicate_ops duplicate_registry rfl 0 0
      ⟨5, some 1, none, none, true⟩ ⟨5, some 1, none, none, true⟩
      (by decide) (by decide) rfl rfl rfl⟩

/-- C8 as stated fails: the registry's register functions take an empty callback.  After
`register_read_callback(source, {})` on a fresh source with descriptor 5, `find(5)` returns
the source although `has_callback()` is false. -/
theorem registry_find_without_callback :
    (event_source_registry.init [5]).run [.register_read_callback 0 none] =
      .ok { objects := [⟨5, none, none, none, true⟩], event_sources_ := [0] } ∧
    ¬ (event_source_registry.find
          { objects := [⟨5, none, none, none, true⟩], event_sources_ := [0] }
          (event_source.fd ⟨5, none, none, none, true⟩) = some 0 ↔
        event_source.has_callback ⟨5, none, none, none, true⟩ = true) := by
  refine ⟨rfl, ?_⟩
  decide

/-- C8, amended: after every sequence of registry register and remove calls that the
registry accepts, where distinct sources have distinct descriptors and every registered
callback is non-empty, `find(s.fd())` returns the source `s` exactly when
`s.has_callback()`. -/
theorem registry_find_iff_has_callback (fds : List Int) (ops : List registration_op)
    (r : event_source_registry) (hfds : fds.Nodup)
    (hne : ∀ op ∈ ops, op.callback_nonempty = true)
    (hrun : (event_source_registry.init fds).run ops = .ok r)
    (j : Nat) (s : event_source) (hs : r.objects[j]? = some s) :
    r.find s.fd = some j ↔ s.has_callback = true :=
  event_source_registry.inv_find_iff
    (event_source_registry.registry_inv_run (event_source_registry.registry_inv_init hfds) hne hrun) hs

/-- C8 (amended) at a concrete input: the source that kept its write callback is found,
the source that lost its last callback is not. -/
theorem registry_find_iff_has_callback_witness :
    [(3 : Int), 7].Nodup ∧
    (∀ op ∈ find_example_ops, op.callback_nonempty = true) ∧
    (event_source_registry.init [3, 7]).run find_example_ops = .ok find_example ∧
    (find_example.find 3 = some 0 ↔
      event_source.has_callback ⟨3, none, some 2, none, true⟩ = true) ∧
    (find_example.find 7 = some 1 ↔
      event_source.has_callback ⟨7, none, none, none, false⟩ = true) :=
  ⟨by decide, by decide, rfl,
    registry_find_iff_has_callback [3, 7] find_example_ops find_example (by decide)
      (by decide) rfl 0 ⟨3, none, some 2, none, true⟩ rfl,
    registry_find_iff_has_callback [3, 7] find_example_ops find_example (by decide)
      (by decide) rfl 1 ⟨7, none, none, none, false⟩ rfl⟩

/-- C7: after every sequence of reactor register and remove calls that return (so: with
non-empty callbacks, removals of registered sources only, descriptors within the bitmap
range), over sources with distinct descriptors, a descriptor is in the interest bitmap of a
kind exactly when the registry holds a source with that descriptor and a callback of that
kind. -/
theorem interest_bitmaps_agree_with_registry (fds : List Int) (ops : List registration_op)
    (r : select_reactor) (hfds : fds.Nodup)
    (hrun : (select_reactor.init fds).run ops = .ok r) (type : event_type) (d : Int) :
    d ∈ r.interest_set type ↔
      ∃ j ∈ r.registry_.event_sources_, ∃ s : event_source,
        r.registry_.objects[j]? = some s ∧ s.fd = d ∧ (s.callback type).isSome = true :=
  select_reactor.inv_bitmap_iff
    (select_reactor.reactor_inv_run (select_reactor.reactor_inv_init hfds) hrun) type d

/-- C7 at a concrete input: after the calls of `find_example_ops`, descriptor 3 is in the
write bitmap and the registry holds its source with a write callback. -/
theorem interest_bitmaps_agree_with_registry_witness :
    [(3 : Int), 7].Nodup ∧
    (select_reactor.init [3, 7]).run find_example_ops = .ok bitmap_example ∧
    (3 : Int) ∈ bitmap_example.interest_set .write ∧
    ((3 : Int) ∈ bitmap_example.interest_set .write ↔
      ∃ j ∈ bitmap_example.registry_.event_sources_, ∃ s : event_source,
        bitmap_example.registry_.objects[j]? = some s ∧ s.fd = 3 ∧
          (s.callback .write).isSome = true) :=
  ⟨by decide, rfl, by decide,
    interest_bitmaps_agree_with_registry [3, 7] find_example_ops bitmap_example (by decide)
      rfl .write 3⟩

/-- C5: in a reactor state reached by register and remove calls that returned, over sources
with distinct descriptors, one `wait_for_events` call whose `::select` succeeds and whose
callbacks make no call on the reactor returns, has called `::select` once, and has invoked
the callback of every ready (descriptor, kind) pair exactly once and nothing else: an
invocation `(d, type, c)` occurs once if `d` is in the set select left for `type` and `c` is
the callback registered for that pair, and does not occur otherwise. -/
theorem wait_for_events_invokes_each_ready_pair_once (fds : List Int)
    (ops : List registration_op) (r : select_reactor) (select : select_call → select_return)
    (prog : Nat → List registration_op) (hfds : fds.Nodup)
    (hrun : (select_reactor.init fds).run ops = .ok r) (hsel : select_succeeds select)
    (hprog : ∀ c, prog c = []) :
    ∃ m call, select_reactor.wait_for_events select prog r = .returned m ∧
      m.select_calls = [call] ∧
      ∀ (d : Int) (type : event_type) (c : Nat),
        m.invoked.count { fd := d, type := type, callback := c } =
          if d ∈ select_reactor.kind_set (select call).read_set (select call).write_set
                (select call).except_set type ∧ r.callback_for d type = some c
          then 1 else 0 := by
  have hi := select_reactor.reactor_inv_run (select_reactor.reactor_inv_init hfds) hrun
  obtain ⟨M, hM, hw⟩ := select_reactor.wait_for_events_inert hi hsel hprog
  refine ⟨_, r.select_arguments M, hw, rfl, ?_⟩
  intro d type c
  obtain ⟨hrs, hws, hes, hlt, _⟩ := hsel (r.select_arguments M)
  split
  · rename_i hcond
    apply List.count_eq_one_of_mem (select_reactor.expected_nodup _ _ _ _ _ _)
    rw [select_reactor.mem_expected]
    refine ⟨?_, hcond.1, hcond.2⟩
    have hin : d ∈ r.interest_set type := by
      cases type
      · exact hrs hcond.1
      · exact hws hcond.1
      · exact hes hcond.1
    have h0 := (hi.in_range type d hin).1
    have hlt' : d < M + 1 := by
      apply hlt
      simp only [Finset.mem_union]
      cases type
      · exact Or.inl (Or.inl hcond.1)
      · exact Or.inl (Or.inr hcond.1)
      · exact Or.inr hcond.1
    refine ⟨d.toNat, Nat.zero_le _, ?_, ?_⟩
    · omega
    · exact (Int.toNat_of_nonneg h0).symm
  · rename_i hcond
    apply List.count_eq_zero_of_not_mem
    intro hmem
    rw [select_reactor.mem_expected] at hmem
    exact hcond ⟨hmem.2.1, hmem.2.2⟩

/-- C5 at the scenario of the spec: read callbacks on descriptors 3 and 7, both ready.
Each is invoked once, and the trace holds nothing else. -/
theorem wait_for_events_invokes_each_ready_pair_once_witness :
    [(3 : Int), 7].Nodup ∧
    (select_reactor.init [3, 7]).run counters_ops = .ok counters_example ∧
    (select_reactor.wait_for_events select_all_ready (fun _ => []) counters_example).final.invoked
      = [⟨3, .read, 10⟩, ⟨7, .read, 11⟩] ∧
    ∃ m call, select_reactor.wait_for_events select_all_ready (fun _ => []) counters_example
        = .returned m ∧
      m.select_calls = [call] ∧
      ∀ (d : Int) (type : event_type) (c : Nat),
        m.invoked.count { fd := d, type := type, callback := c } =
          if d ∈ select_reactor.kind_set (select_all_ready call).read_set
                (select_all_ready call).write_set (select_all_ready call).except_set type ∧
              counters_example.callback_for d type = some c
          then 1 else 0 :=
  ⟨by decide, rfl, by decide,
    wait_for_events_invokes_each_ready_pair_once [3, 7] counters_ops counters_example
      select_all_ready (fun _ => []) (by decide) rfl select_all_ready_succeeds (fun _ => rfl)⟩

/-- C6: under the conditions of C5 the sequence of invocations of one `wait_for_events`
call is strictly sorted by (descriptor, kind) with read before write before except: of any
two invocations the earlier one has the lower descriptor, or the same descriptor and the
earlier kind. -/
theorem wait_for_events_dispatch_order (fds : List Int) (ops : List registration_op)
    (r : select_reactor) (select : select_call → select_return)
    (prog : Nat → List registration_op) (hfds : fds.Nodup)
    (hrun : (select_reactor.init fds).run ops = .ok r) (hsel : select_succeeds select)
    (hprog : ∀ c, prog c = []) :
    ∃ m, select_reactor.wait_for_events select prog r = .returned m ∧
      m.invoked.Pairwise invocation.before := by
  have hi := select_reactor.reactor_inv_run (select_reactor.reactor_inv_init hfds) hrun
  obtain ⟨M, hM, hw⟩ := select_reactor.wait_for_events_inert hi hsel hprog
  exact ⟨_, hw, select_reactor.expected_sorted _ _ _ _ _ _⟩

/-- C6 at the witnesses of the spec: 3 and 7 ready for read, 5 ready for read and write.
The callback of 3 runs before those of 5 and 7, and on 5 read runs before write. -/
theorem wait_for_events_dispatch_order_witness :
    [(3 : Int), 5, 7].Nodup ∧
    (select_reactor.init [3, 5, 7]).run ordering_ops = .ok ordering_example ∧
    (select_reactor.wait_for_events select_all_ready (fun _ => []) ordering_example).final.invoked
      = [⟨3, .read, 30⟩, ⟨5, .read, 51⟩, ⟨5, .write, 52⟩, ⟨7, .read, 70⟩] ∧
    ∃ m, select_reactor.wait_for_events select_all_ready (fun _ => []) ordering_example
        = .returned m ∧
      m.invoked.Pairwise invocation.before :=
  ⟨by decide, rfl, by decide,
    wait_for_events_dispatch_order [3, 5, 7] ordering_ops ordering_example select_all_ready
      (fun _ => []) (by decide) rfl select_all_ready_succeeds (fun _ => rfl)⟩

namespace event_source_registry

/-- Replacing an object by one with the same descriptor changes no `find`. -/
theorem find_set {objs : List event_source} {tbl : List Nat} {source : Nat}
    {s s1 : event_source} (hs : objs[source]? = some s) (hfd : s1.fd = s.fd) (fd : Int) :
    find { objects := objs.set source s1, event_sources_ := tbl } fd =
      find { objects := objs, event_sources_ := tbl } fd := by
  unfold find unordered_set_find
  have : (fun j => fd_at { objects := objs.set source s1, event_sources_ := tbl } j == some fd)
      = (fun j => fd_at { objects := objs, event_sources_ := tbl } j == some fd) := by
    funext j
    rw [fd_at_set tbl tbl hs hfd]
  simp only [this]

/-- A register call of the registry on a source that is linked, or whose descriptor is
taken in the table, inserts nothing and sets the callback. -/
theorem registry_register_callback_no_insert {type : event_type} {r : event_source_registry}
    {source : Nat} {s : event_source} {callback : event_callback}
    (hs : r.objects[source]? = some s) (h : s.linked = true ∨ r.find s.fd ≠ none) :
    r.register_callback type source callback =
      .ok { objects := r.objects.set source (s.set_callback type callback),
            event_sources_ := r.event_sources_ } := by
  unfold register_callback
  simp only [hs]
  cases hl : s.linked with
  | true => simp [event_source.is_linked, hl, hs]
  | false =>
    rcases h with h | h
    · rw [hl] at h; exact absurd h (by decide)
    · cases hf : r.find s.fd with
      | none => exact absurd hf h
      | some j =>
        have hf1 : r.unordered_set_find s.fd = some j := hf
        simp [event_source.is_linked, hl, unordered_set_insert, hf1, hs]

end event_source_registry

namespace select_reactor

/-- A register call of the reactor on a source that is linked, or whose descriptor is taken
in the table: the table stays, the callback is set, the cached maximum and the bitmap are
updated as for any registration. -/
theorem reactor_register_callback_no_insert {type : event_type} {r : select_reactor} {source : Nat}
    {s : event_source} {c : Nat} (hs : r.registry_.objects[source]? = some s)
    (h : s.linked = true ∨ r.registry_.find s.fd ≠ none) (h0 : 0 ≤ s.fd)
    (h1 : s.fd < FD_SETSIZE) :
    r.register_callback type source (some c) =
      .ok (({ r with
          registry_ := { objects := r.registry_.objects.set source (s.set_callback type (some c)),
                         event_sources_ := r.registry_.event_sources_ },
          maxfd_ := some (cached_after_register r.maxfd_ s.fd) }
        : select_reactor).set_interest_set type (insert s.fd (r.interest_set type))) := by
  have hlt : source < r.registry_.objects.length := by
    rcases List.getElem?_eq_some.mp hs with ⟨hlt, _⟩; exact hlt
  have hfd : (s.set_callback type (some c)).fd = s.fd :=
    event_source_registry.set_callback_fd s type (some c)
  unfold register_callback
  rw [event_source_registry.registry_register_callback_no_insert hs h]
  cases hm : r.maxfd_ with
  | none =>
    simp [bind, Except.bind, pure, Except.pure, cache_fd_read_register, hlt, hfd, FD_SET, h0,
      h1, hm, cached_after_register]
    cases type <;> rfl
  | some m =>
    by_cases hgt : s.fd > m
    · simp [bind, Except.bind, pure, Except.pure, cache_fd_read_register, hlt, hfd, FD_SET, h0,
        h1, hm, cached_after_register, hgt]
      cases type <;> simp [set_interest_set, interest_set]
    · simp [bind, Except.bind, pure, Except.pure, cache_fd_read_register, hlt, hfd, FD_SET, h0,
        h1, hm, cached_after_register, hgt]
      cases type <;> simp [set_interest_set, interest_set, hm]

end select_reactor

/-- C10 as stated fails: with source A (descriptor 5) registered for read, a register call
on a second source B with descriptor 5 returns normally.  `register_read_callback` sets the
read callback of B; `register_write_callback` sets the write callback of B and puts 5 into
the write bitmap.  B is not in the table. -/
theorem register_on_descriptor_in_use_returns :
    (select_reactor.init [5, 5]).run [.register_read_callback 0 (some 1)]
      = .ok duplicate_example ∧
    duplicate_example.register_read_callback 1 (some 2) =
      .ok { duplicate_example with
        registry_ :=
          { objects := [⟨5, some 1, none, none, true⟩, ⟨5, some 2, none, none, false⟩],
            event_sources_ := [0] } } ∧
    duplicate_example.register_write_callback 1 (some 2) =
      .ok { duplicate_example with
        registry_ :=
          { objects := [⟨5, some 1, none, none, true⟩, ⟨5, none, some 2, none, false⟩],
            event_sources_ := [0] },
        write_set_ := {5} } :=
  ⟨rfl, rfl, rfl⟩

/-- C10, amended: a register call of the reactor on a source B that is not linked while
`find` returns another source A for B's descriptor (within the bitmap range) is not
rejected.  It returns normally; the table is as before and `find` still returns A; B holds
the new callback; the descriptor is in the bitmap of the kind; the cached maximum is updated
as for any registration. -/
theorem register_on_descriptor_in_use (r : select_reactor) (A B : Nat) (sB : event_source)
    (type : event_type) (c : Nat) (hB : r.registry_.objects[B]? = some sB)
    (hunlinked : sB.linked = false) (hfind : r.registry_.find sB.fd = some A)
    (h0 : 0 ≤ sB.fd) (h1 : sB.fd < FD_SETSIZE) :
    ∃ r1, r.register_callback type B (some c) = .ok r1 ∧
      r1.registry_.event_sources_ = r.registry_.event_sources_ ∧
      r1.registry_.find sB.fd = some A ∧
      r1.registry_.objects = r.registry_.objects.set B (sB.set_callback type (some c)) ∧
      (sB.set_callback type (some c)).linked = false ∧
      (sB.set_callback type (some c)).callback type = some c ∧
      r1.interest_set type = insert sB.fd (r.interest_set type) ∧
      r1.maxfd_ = some (select_reactor.cached_after_register r.maxfd_ sB.fd) := by
  refine ⟨_, select_reactor.reactor_register_callback_no_insert hB (.inr (by simp [hfind])) h0 h1,
    by simp, ?_, by simp, ?_, ?_, ?_, by simp⟩
  · simp only [select_reactor.set_interest_set_registry]
    rw [event_source_registry.find_set hB (event_source_registry.set_callback_fd _ _ _)]
    exact hfind
  · rw [event_source_registry.set_callback_linked, hunlinked]
  · rw [event_source.callback_set_callback]; simp
  · rw [select_reactor.interest_set_set_interest_set]; simp

/-- C10 (amended) at a concrete input: source 1 shares descriptor 5 with the registered
source 0 and registers for write. -/
theorem register_on_descriptor_in_use_witness :
    duplicate_example.registry_.objects[1]? = some ⟨5, none, none, none, false⟩ ∧
    duplicate_example.registry_.find 5 = some 0 ∧
    ∃ r1, duplicate_example.register_callback .write 1 (some 2) = .ok r1 ∧
      r1.registry_.event_sources_ = duplicate_example.registry_.event_sources_ ∧
      r1.registry_.find (event_source.fd ⟨5, none, none, none, false⟩) = some 0 ∧
      r1.registry_.objects = duplicate_example.registry_.objects.set 1
        (event_source.set_callback ⟨5, none, none, none, false⟩ .write (some 2)) ∧
      (event_source.set_callback ⟨5, none, none, none, false⟩ .write (some 2)).linked = false ∧
      (event_source.set_callback ⟨5, none, none, none, false⟩ .write (some 2)).callback .write
        = some 2 ∧
      r1.interest_set .write = insert (event_source.fd ⟨5, none, none, none, false⟩)
        (duplicate_example.interest_set .write) ∧
      r1.maxfd_ = some (select_reactor.cached_after_register duplicate_example.maxfd_
        (event_source.fd ⟨5, none, none, none, false⟩)) :=
  ⟨rfl, by decide,
    register_on_descriptor_in_use duplicate_example 0 1 ⟨5, none, none, none, false⟩ .write 2
      rfl rfl (by decide) (by decide) (by decide)⟩

namespace select_reactor

/-- The scan over `n` descriptors from `fd` whose callbacks make no call on the reactor,
when more ready descriptors are reported than it meets: the loop goes on at `fd + n`. -/
theorem scan_prefix_inert {prog : Nat → List registration_op}
    {read_set write_set except_set : fd_set} {M : Int} (fuel : Nat) (n : Nat) :
    ∀ (fd : Nat) (result : Int) (m : machine),
      m.reactor.maxfd_ = some M →
      (∀ d : Nat, fd ≤ d → d < fd + n →
        ∀ type, (d : Int) ∈ kind_set read_set write_set except_set type →
          ∃ c, m.reactor.callback_for d type = some c ∧ prog c = []) →
      ((fd + n : Nat) : Int) ≤ M + 1 →
      (ready_count read_set write_set except_set fd n : Int) < result →
      scan prog read_set write_set except_set (fuel + n) fd result m =
        scan prog read_set write_set except_set fuel (fd + n)
          (result - ready_count read_set write_set except_set fd n)
          { m with invoked := (m.invoked ++
                     expected m.reactor read_set write_set except_set fd n) } := by
  induction n with
  | zero =>
    intro fd result m _ _ _ _
    simp [ready_count, expected]
  | succ n ih =>
    intro fd result m hM H hbound hcount
    rw [ready_count_succ] at hcount
    have hge : (0 : Int) ≤ (ready_count read_set write_set except_set (fd + 1) n : Int) :=
      Int.ofNat_nonneg _
    have hcond : (fd : Int) ≤ M ∧ result ≠ 0 := by
      push_cast at hbound hcount
      constructor
      · omega
      · split at hcount <;> omega
    rw [show fuel + (n + 1) = (fuel + n) + 1 from by omega]
    conv_lhs => unfold scan
    simp only [hM]
    rw [if_pos hcond, dispatch_fd_inert (H fd (Nat.le_refl _) (by omega))]
    simp only
    refine (ih (fd + 1) _ _
      (show ({ m with invoked := m.invoked ++
          ready_invocations m.reactor read_set write_set except_set (fd : Int) }
          : machine).reactor.maxfd_ = some M from hM)
      (fun d hd hdn => H d (by omega) (by omega)) (by push_cast at hbound ⊢; omega) ?_).trans ?_
    · by_cases hr : (fd : Int) ∈ read_set ∨ (fd : Int) ∈ write_set ∨ (fd : Int) ∈ except_set
      · have hsome : (m.reactor.registry_.find (fd : Int)).isSome = true := by
          rcases hr with h | h | h
          · obtain ⟨c, hc, _⟩ := H fd (Nat.le_refl _) (by omega) .read h
            obtain ⟨j, s, hj, _⟩ := callback_for_eq_some.mp hc
            simp [hj]
          · obtain ⟨c, hc, _⟩ := H fd (Nat.le_refl _) (by omega) .write h
            obtain ⟨j, s, hj, _⟩ := callback_for_eq_some.mp hc
            simp [hj]
          · obtain ⟨c, hc, _⟩ := H fd (Nat.le_refl _) (by omega) .except h
            obtain ⟨j, s, hj, _⟩ := callback_for_eq_some.mp hc
            simp [hj]
        simp only [hr, if_true, hsome] at hcount ⊢
        push_cast at hcount
        omega
      · simp only [hr, if_false] at hcount ⊢
        simp only [Option.isSome_none, Bool.false_eq_true, if_false]
        push_cast at hcount
        omega
    · rw [ready_count_succ, expected_succ]
      have harg : fd + 1 + n = fd + (n + 1) := by omega
      rw [harg]
      refine congrArg₂ (scan prog read_set write_set except_set fuel (fd + (n + 1))) ?_ ?_
      · by_cases hr : (fd : Int) ∈ read_set ∨ (fd : Int) ∈ write_set ∨ (fd : Int) ∈ except_set
        · have hsome : (m.reactor.registry_.find (fd : Int)).isSome = true := by
            rcases hr with h | h | h
            · obtain ⟨c, hc, _⟩ := H fd (Nat.le_refl _) (by omega) .read h
              obtain ⟨j, s, hj, _⟩ := callback_for_eq_some.mp hc
              simp [hj]
            · obtain ⟨c, hc, _⟩ := H fd (Nat.le_refl _) (by omega) .write h
              obtain ⟨j, s, hj, _⟩ := callback_for_eq_some.mp hc
              simp [hj]
            · obtain ⟨c, hc, _⟩ := H fd (Nat.le_refl _) (by omega) .except h
              obtain ⟨j, s, hj, _⟩ := callback_for_eq_some.mp hc
              simp [hj]
          simp only [hr, if_true, hsome]
          push_cast
          omega
        · simp only [hr, if_false]
          simp only [Option.isSome_none, Bool.false_eq_true, if_false]
          push_cast
          omega
      · simp [List.append_assoc]

/-- A dispatch of a descriptor that is ready for read, when its read callback makes calls
on the reactor and the write and except callbacks found afterwards make none. -/
theorem dispatch_fd_read_effect {prog : Nat → List registration_op}
    {read_set write_set except_set : fd_set} {fd : Int} {m : machine} {j : Nat}
    {s s1 : event_source} {c : Nat} {r1 : select_reactor}
    (hr : fd ∈ read_set) (hf : m.reactor.registry_.find fd = some j)
    (hs : m.reactor.registry_.objects[j]? = some s) (hc : s.callback .read = some c)
    (hrun : m.reactor.run (prog c) = .ok r1) (hs1 : r1.registry_.objects[j]? = some s1)
    (Hw : fd ∈ write_set → ∃ cw, s1.callback .write = some cw ∧ prog cw = [])
    (He : fd ∈ except_set → ∃ ce, s1.callback .except = some ce ∧ prog ce = []) :
    dispatch_fd prog read_set write_set except_set fd m =
      .returned ({ reactor := r1,
                   invoked := m.invoked ++ [{ fd := fd, type := .read, callback := c }] ++
                     (if fd ∈ write_set then
                       ((s1.callback .write).map fun cw =>
                         ({ fd := fd, type := .write, callback := cw } : invocation)).toList
                      else []) ++
                     (if fd ∈ except_set then
                       ((s1.callback .except).map fun ce =>
                         ({ fd := fd, type := .except, callback := ce } : invocation)).toList
                      else []),
                   select_calls := m.select_calls }, some j) := by
  by_cases hw : fd ∈ write_set <;> by_cases he : fd ∈ except_set
  · obtain ⟨cw, hcw, hpw⟩ := Hw hw
    obtain ⟨ce, hce, hpe⟩ := He he
    simp [dispatch_fd, FD_ISSET, hr, hw, he, hf, invoke, hs, hc, hrun, hs1, hcw, hce, hpw,
      hpe, run]
  · obtain ⟨cw, hcw, hpw⟩ := Hw hw
    simp [dispatch_fd, FD_ISSET, hr, hw, he, hf, invoke, hs, hc, hrun, hs1, hcw, hpw, run]
  · obtain ⟨ce, hce, hpe⟩ := He he
    simp [dispatch_fd, FD_ISSET, hr, hw, he, hf, invoke, hs, hc, hrun, hs1, hce, hpe, run]
  · simp [dispatch_fd, FD_ISSET, hr, hw, he, hf, invoke, hs, hc, hrun, run]

theorem ready_count_add (read_set write_set except_set : fd_set) (lo n1 n2 : Nat) :
    ready_count read_set write_set except_set lo (n1 + n2) =
      ready_count read_set write_set except_set lo n1 +
        ready_count read_set write_set except_set (lo + n1) n2 := by
  unfold ready_count
  rw [show n1 + n2 = n2 + n1 from Nat.add_comm _ _, ← List.range'_append_1, List.filter_append,
    List.length_append]

/-- With a cached maximum and a `::select` that does not fail, `wait_for_events` is the
dispatch scan from descriptor 0 over the sets `::select` left. -/
theorem wait_for_events_eq_scan {select : select_call → select_return}
    {prog : Nat → List registration_op} {r : select_reactor} {M : Int}
    (hM : r.prepared.maxfd_ = some M) (hres : ¬ (select (r.select_arguments M)).result < 0) :
    wait_for_events select prog r =
      scan prog (select (r.select_arguments M)).read_set
        (select (r.select_arguments M)).write_set (select (r.select_arguments M)).except_set
        (scan_fuel M) 0 (select (r.select_arguments M)).result
        { reactor := r.prepared, invoked := [], select_calls := [r.select_arguments M] } := by
  rw [wait_for_events_prepared]
  have hp : (if r.prepared.maxfd_.isNone then r.prepared.recache_max_fd else r.prepared) =
      r.prepared := by simp [hM]
  unfold wait_for_events
  simp only [hp]
  simp only [hM]
  have hargs : select_call.mk (M + 1) r.prepared.read_set_ r.prepared.write_set_
      r.prepared.except_set_ 5 0 = r.select_arguments M := by
    rw [← prepared_select_arguments]; rfl
  rw [hargs, if_neg hres]

/-- The callbacks a dispatch looks up after a register call on a linked source: the new
callback for the descriptor and kind of the call, the old ones elsewhere. -/
theorem callback_for_register_linked {r r1 : select_reactor} (hi : r.inv) {source : Nat}
    {s : event_source} {type : event_type} {c : Nat}
    (hs : r.registry_.objects[source]? = some s) (hl : s.linked = true)
    (hreg : r1.registry_ =
      { objects := r.registry_.objects.set source (s.set_callback type (some c)),
        event_sources_ := r.registry_.event_sources_ })
    (d : Int) (k : event_type) :
    r1.callback_for d k = if d = s.fd ∧ k = type then some c else r.callback_for d k := by
  have hlt : source < r.registry_.objects.length := by
    rcases List.getElem?_eq_some.mp hs with ⟨hlt, _⟩; exact hlt
  have hfind : ∀ fd, r1.registry_.find fd = r.registry_.find fd := by
    intro fd
    rw [hreg, event_source_registry.find_set hs (event_source_registry.set_callback_fd _ _ _)]
  have hsrc : r.registry_.find s.fd = some source :=
    (event_source_registry.find_eq_some_iff hi.registry.distinct).mpr
      ⟨(hi.registry.linked_iff source s hs).mp hl,
        event_source_registry.fd_at_eq_some.mpr ⟨s, hs, rfl⟩⟩
  unfold callback_for
  rw [hfind]
  cases hf : r.registry_.find d with
  | none =>
    have hne : d ≠ s.fd := by
      rintro rfl
      rw [hsrc] at hf
      cases hf
    simp [hne]
  | some j =>
    have hfd := (event_source_registry.find_some hf).2
    by_cases hj : j = source
    · subst hj
      obtain ⟨s', hs', hfd'⟩ := event_source_registry.fd_at_eq_some.mp hfd
      rw [hs] at hs'
      cases hs'
      simp only [hreg, List.getElem?_set_self hlt, hs, event_source.callback_set_callback, hfd']
      by_cases hk : k = type <;> simp [hk]
    · have hne : d ≠ s.fd := by
        rintro rfl
        rw [hsrc] at hf
        cases hf
        exact hj rfl
      simp only [hreg, List.getElem?_set_ne (Ne.symm hj), hne, false_and, if_false]

/-- The dispatch scan in which the read callback of descriptor `a` re-registers the read
callback of the source of a later ready descriptor `b`, and no other callback met makes a
call on the reactor.  The scan returns; the reactor it leaves looks up the new callback for
`(b, read)`; and what is invoked after `a` is what is looked up in that reactor. -/
theorem scan_replacing_callback {prog : Nat → List registration_op}
    {rs ws es : fd_set} {r : select_reactor} {M : Int} {result : Int}
    {calls : List select_call} (hi : r.inv) (hM : r.maxfd_ = some M)
    (hsub : ∀ type d, d ∈ kind_set rs ws es type → d ∈ r.interest_set type)
    (hlt : ∀ type d, d ∈ kind_set rs ws es type → d < M + 1)
    (hresult : result = ((rs.card + ws.card + es.card : Nat) : Int))
    {a b : Nat} {jb ca cb2 : Nat} (hab : a < b)
    (ha : (a : Int) ∈ rs) (hb : (b : Int) ∈ rs)
    (hca : r.callback_for (a : Int) .read = some ca)
    (hjb : r.registry_.find (b : Int) = some jb)
    (hprog_a : prog ca = [.register_read_callback jb (some cb2)])
    (hprog : ∀ c, c ≠ ca → prog c = [])
    (honly : ∀ (d : Int) type, d ∈ kind_set rs ws es type →
      r.callback_for d type = some ca → d = (a : Int) ∧ type = .read)
    (hcb2 : cb2 ≠ ca) :
    ∃ (r1 : select_reactor) (early : List invocation),
      (∀ d k, r1.callback_for d k =
        if d = (b : Int) ∧ k = .read then some cb2 else r.callback_for d k) ∧
      (∀ x ∈ early, x.fd ≤ (a : Int)) ∧
      scan prog rs ws es (scan_fuel M) 0 result
          { reactor := r, invoked := [], select_calls := calls } =
        .returned { reactor := r1,
                    invoked := early ++ expected r1 rs ws es (a + 1) ((M + 1).toNat - (a + 1)),
                    select_calls := calls } := by
  have hbM : (b : Int) < M + 1 := hlt .read b hb
  obtain ⟨ja, sa, hfa, hsa, hcsa⟩ := callback_for_eq_some.mp hca
  have hfb := event_source_registry.find_some hjb
  obtain ⟨sb, hsb, hsbfd⟩ := event_source_registry.fd_at_eq_some.mp hfb.2
  have hlb : sb.linked = true := (hi.registry.linked_iff jb sb hsb).mpr hfb.1
  have hrange := hi.in_range .read b (hsub .read b hb)
  have hreg1 := @reactor_register_callback_no_insert .read r jb sb cb2 hsb (.inl hlb)
    (by rw [hsbfd]; exact hrange.1) (by rw [hsbfd]; exact hrange.2)
  obtain ⟨r1, hr1⟩ : ∃ r1 : select_reactor, r.register_callback .read jb (some cb2) = .ok r1 ∧
      r1.registry_ = { objects := r.registry_.objects.set jb (sb.set_callback .read (some cb2)),
                       event_sources_ := r.registry_.event_sources_ } ∧
      r1.maxfd_ = some M := by
    refine ⟨_, hreg1, by simp, ?_⟩
    simp only [set_interest_set_maxfd, hM, cached_after_register, hsbfd]
    rw [if_neg (by omega)]
  obtain ⟨hr1run, hr1reg, hr1max⟩ := hr1
  have hrun : r.run (prog ca) = .ok r1 := by
    rw [hprog_a]
    simp only [run, apply, reactor_register_read_callback_eq, hr1run]
  have hcf1 : ∀ d k, r1.callback_for d k =
      if d = (b : Int) ∧ k = .read then some cb2 else r.callback_for d k := by
    intro d k
    rw [callback_for_register_linked hi hsb hlb hr1reg d k, hsbfd]
  have hjab : jb ≠ ja := by
    rintro rfl
    have h1 := (event_source_registry.find_some hfa).2
    rw [hfb.2] at h1
    have : (b : Int) = (a : Int) := Option.some.inj h1
    omega
  have hs1a : r1.registry_.objects[ja]? = some sa := by
    rw [hr1reg]
    simp only [List.getElem?_set_ne hjab, hsa]
  have hinert : ∀ (d : Int) type, d ∈ kind_set rs ws es type → d ≠ (a : Int) →
      ∃ c, r.callback_for d type = some c ∧ prog c = [] := by
    intro d type hd hne
    obtain ⟨c, hc⟩ := inv_callback_for hi (hsub type d hd)
    refine ⟨c, hc, hprog c ?_⟩
    rintro rfl
    exact hne (honly d type hd hc).1
  have hside : ∀ type, type ≠ .read → (a : Int) ∈ kind_set rs ws es type →
      ∃ c, sa.callback type = some c ∧ prog c = [] := by
    intro type hne hd
    obtain ⟨c, hc⟩ := inv_callback_for hi (hsub type a hd)
    have hc' : sa.callback type = some c := by
      simpa [callback_for, hfa, hsa] using hc
    refine ⟨c, hc', hprog c ?_⟩
    rintro rfl
    exact hne (honly a type hd hc).2
  have hn : (M + 1).toNat = a + (((M + 1).toNat - (a + 1)) + 1) := by omega
  have hsplit : ready_count rs ws es 0 (M + 1).toNat =
      ready_count rs ws es 0 a + (1 + ready_count rs ws es (a + 1) ((M + 1).toNat - (a + 1))) := by
    conv_lhs => rw [hn]
    rw [ready_count_add, Nat.zero_add, ready_count_succ]
    simp [ha]
  have htotal := ready_count_le_card rs ws es 0 (M + 1).toNat
  have hfuel := scan_fuel_le M
  obtain ⟨f2, hf2, hf2pos, hf2le⟩ : ∃ f2, scan_fuel M = (f2 + 1) + a ∧ 1 ≤ f2 ∧
      M + 2 ≤ ((a + 1 : Nat) : Int) + f2 := by
    refine ⟨scan_fuel M - a - 1, ?_, ?_, ?_⟩ <;> push_cast <;> omega
  have hphase1 := @scan_prefix_inert prog rs ws es M (f2 + 1) a 0 result
    { reactor := r, invoked := [], select_calls := calls } hM
    (fun d _ hd type hmem => hinert d type hmem (by omega)) (by push_cast; omega)
    (by rw [hresult]; omega)
  have hcond : ((a : Nat) : Int) ≤ M ∧ result - (ready_count rs ws es 0 a : Int) ≠ 0 := by
    constructor
    · omega
    · rw [hresult]; omega
  have hphase2 : scan prog rs ws es (f2 + 1) a (result - (ready_count rs ws es 0 a : Int))
      (machine.mk r (expected r rs ws es 0 a) calls) =
      scan prog rs ws es f2 (a + 1) (result - (ready_count rs ws es 0 a : Int) - 1)
        (machine.mk r1
          (expected r rs ws es 0 a ++ [{ fd := (a : Int), type := .read, callback := ca }] ++
            (if (a : Int) ∈ ws then
              ((sa.callback .write).map fun cw =>
                ({ fd := (a : Int), type := .write, callback := cw } : invocation)).toList
             else []) ++
            (if (a : Int) ∈ es then
              ((sa.callback .except).map fun ce =>
                ({ fd := (a : Int), type := .except, callback := ce } : invocation)).toList
             else []))
          calls) := by
    conv_lhs => unfold scan
    simp only [hM]
    rw [if_pos hcond]
    rw [@dispatch_fd_read_effect prog rs ws es (a : Int)
      (machine.mk r (expected r rs ws es 0 a) calls) ja sa sa ca r1
      ha hfa hsa hcsa hrun hs1a
      (fun h => hside .write (by decide) h) (fun h => hside .except (by decide) h)]
    simp only [Option.isSome_some, if_true]
  have hphase3 := @scan_inert prog rs ws es M f2 (a + 1)
    (result - (ready_count rs ws es 0 a : Int) - 1)
    (machine.mk r1
      (expected r rs ws es 0 a ++ [{ fd := (a : Int), type := .read, callback := ca }] ++
        (if (a : Int) ∈ ws then
          ((sa.callback .write).map fun cw =>
            ({ fd := (a : Int), type := .write, callback := cw } : invocation)).toList
         else []) ++
        (if (a : Int) ∈ es then
          ((sa.callback .except).map fun ce =>
            ({ fd := (a : Int), type := .except, callback := ce } : invocation)).toList
         else []))
      calls) hr1max
    (by
      intro d hd _ type hmem
      rw [hcf1]
      by_cases hbk : (d : Int) = (b : Int) ∧ type = .read
      · exact ⟨cb2, by rw [if_pos hbk], hprog cb2 hcb2⟩
      · rw [if_neg hbk]
        exact hinert d type hmem (by omega))
    hf2pos hf2le (by rw [hresult]; omega)
  simp only [Nat.zero_add, List.nil_append] at hphase1
  rw [hf2, hphase1, hphase2, hphase3]
  refine ⟨r1, _, hcf1, ?_, rfl⟩
  intro x hx
  simp only [List.mem_append, List.mem_singleton] at hx
  rcases hx with ((hx | hx) | hx) | hx
  · obtain ⟨⟨d, _, hd, hfd⟩, _⟩ := mem_expected.mp hx
    rw [hfd]; omega
  · rw [hx]
  · split at hx
    · simp only [Option.mem_toList, Option.mem_def, Option.map_eq_some'] at hx
      obtain ⟨_, _, rfl⟩ := hx
      exact le_refl _
    · simp at hx
  · split at hx
    · simp only [Option.mem_toList, Option.mem_def, Option.map_eq_some'] at hx
      obtain ⟨_, _, rfl⟩ := hx
      exact le_refl _
    · simp at hx

end select_reactor

/-- C4 as stated fails: descriptors 4 and 6 are ready for read with callbacks `1` and `2`,
and `1` re-registers the source of 6 with callback `3`.  The same `wait_for_events` call
invokes `3` for descriptor 6 and does not invoke `2`: the sets are snapshotted, the
callbacks are looked up when they are dispatched. -/
theorem replaced_callback_runs_in_current_call :
    cross_example.callback_for 6 .read = some 2 ∧
    (select_reactor.wait_for_events select_all_ready replace_prog cross_example).is_returned
      = true ∧
    (select_reactor.wait_for_events select_all_ready replace_prog cross_example).final.invoked
      = [⟨4, .read, 1⟩, ⟨6, .read, 3⟩] := by
  refine ⟨by decide, by decide, by decide⟩

/-- C4, amended: in a reactor state reached by register and remove calls that returned
(distinct descriptors), let `a < b` both be reported ready for read by a `::select` that
succeeds, let the read callback `ca` of `a` re-register the source of `b` with a read
callback `cb2` in place of `cb`, and let no other callback that is dispatched make a call on
the reactor (`ca` is the callback of no other ready pair).  Then the current
`wait_for_events` call returns, invokes `cb2` for `b` exactly once, and does not invoke `cb`
for `b`. -/
theorem replaced_callback_dispatched_in_same_call (fds : List Int)
    (ops : List registration_op) (r : select_reactor) (select : select_call → select_return)
    (prog : Nat → List registration_op) (a b : Int) (jb ca cb cb2 : Nat)
    (hfds : fds.Nodup) (hrun : (select_reactor.init fds).run ops = .ok r)
    (hsel : select_succeeds select) (hab : a < b)
    (ha : a ∈ (select r.next_select_call).read_set)
    (hb : b ∈ (select r.next_select_call).read_set)
    (hca : r.callback_for a .read = some ca)
    (hcb : r.callback_for b .read = some cb)
    (hjb : r.registry_.find b = some jb)
    (hprog_a : prog ca = [.register_read_callback jb (some cb2)])
    (hprog : ∀ c, c ≠ ca → prog c = [])
    (honly : ∀ (d : Int) (type : event_type),
      d ∈ select_reactor.kind_set (select r.next_select_call).read_set
        (select r.next_select_call).write_set (select r.next_select_call).except_set type →
      r.callback_for d type = some ca → d = a ∧ type = .read)
    (hcb2 : cb2 ≠ ca) (hne : cb2 ≠ cb) :
    ∃ m, select_reactor.wait_for_events select prog r = .returned m ∧
      m.invoked.count { fd := b, type := .read, callback := cb2 } = 1 ∧
      ({ fd := b, type := .read, callback := cb } : invocation) ∉ m.invoked ∧
      m.reactor.callback_for b .read = some cb2 := by
  have _hcb := hcb
  have hi := select_reactor.reactor_inv_run (select_reactor.reactor_inv_init hfds) hrun
  obtain ⟨M, hM⟩ := select_reactor.prepared_maxfd r
  have hnext : r.next_select_call = r.select_arguments M := by
    simp [select_reactor.next_select_call, hM]
  rw [hnext] at ha hb honly
  obtain ⟨hrs, hws, hes, hlt, hres⟩ := hsel (r.select_arguments M)
  have hsub : ∀ type d, d ∈ select_reactor.kind_set (select (r.select_arguments M)).read_set
      (select (r.select_arguments M)).write_set (select (r.select_arguments M)).except_set type →
      d ∈ r.prepared.interest_set type := by
    intro type d hd
    rw [select_reactor.prepared_interest_set]
    cases type
    · exact hrs hd
    · exact hws hd
    · exact hes hd
  have hlt' : ∀ type d, d ∈ select_reactor.kind_set (select (r.select_arguments M)).read_set
      (select (r.select_arguments M)).write_set (select (r.select_arguments M)).except_set type →
      d < M + 1 := by
    intro type d hd
    apply hlt
    simp only [Finset.mem_union]
    cases type
    · exact Or.inl (Or.inl hd)
    · exact Or.inl (Or.inr hd)
    · exact Or.inr hd
  have ha0 := ((select_reactor.prepared_inv hi).in_range .read a (hsub .read a ha)).1
  have hb0 : 0 ≤ b := by omega
  obtain ⟨an, rfl⟩ : ∃ an : Nat, a = (an : Int) := ⟨a.toNat, (Int.toNat_of_nonneg ha0).symm⟩
  obtain ⟨bn, rfl⟩ : ∃ bn : Nat, b = (bn : Int) := ⟨b.toNat, (Int.toNat_of_nonneg hb0).symm⟩
  have hbM : (bn : Int) < M + 1 := hlt' .read _ hb
  obtain ⟨r1, early, hcf1, hearly, hscan⟩ :=
    @select_reactor.scan_replacing_callback prog _ _ _ r.prepared M
      (select (r.select_arguments M)).result [r.select_arguments M]
      (select_reactor.prepared_inv hi) hM hsub hlt' hres an bn jb ca cb2
      (by omega) ha hb
      (by rw [select_reactor.prepared_callback_for]; exact hca)
      (by rw [select_reactor.prepared_registry]; exact hjb)
      hprog_a hprog
      (fun d type hd hc => honly d type hd
        (by rw [select_reactor.prepared_callback_for] at hc; exact hc))
      hcb2
  have hnonneg : ¬ (select (r.select_arguments M)).result < 0 := by
    rw [hres]; omega
  rw [select_reactor.wait_for_events_eq_scan hM hnonneg, hscan]
  have hnotearly : ∀ c, ({ fd := (bn : Int), type := .read, callback := c } : invocation)
      ∉ early := by
    intro c hmem
    have := hearly _ hmem
    simp only at this
    omega
  refine ⟨_, rfl, ?_, ?_, ?_⟩
  · simp only [List.count_append]
    rw [List.count_eq_zero_of_not_mem (hnotearly cb2), Nat.zero_add]
    apply List.count_eq_one_of_mem (select_reactor.expected_nodup _ _ _ _ _ _)
    rw [select_reactor.mem_expected]
    refine ⟨⟨bn, by omega, by omega, rfl⟩, hb, ?_⟩
    rw [hcf1]
    simp
  · simp only [List.mem_append, not_or]
    refine ⟨hnotearly cb, ?_⟩
    intro hmem
    rw [select_reactor.mem_expected] at hmem
    have h := hmem.2.2
    rw [hcf1] at h
    simp only [and_self, if_true, Option.some.injEq] at h
    exact hne h
  · simp only
    rw [hcf1]
    simp

/-- C4 (amended) at a concrete input: descriptors 4 and 6, callbacks `1` and `2`, and `1`
re-registers the source of 6 with `3`. -/
theorem replaced_callback_dispatched_in_same_call_witness :
    [(4 : Int), 6].Nodup ∧
    (select_reactor.init [4, 6]).run
      [.register_read_callback 0 (some 1), .register_read_callback 1 (some 2)]
      = .ok cross_example ∧
    (4 : Int) ∈ (select_all_ready cross_example.next_select_call).read_set ∧
    (6 : Int) ∈ (select_all_ready cross_example.next_select_call).read_set ∧
    ∃ m, select_reactor.wait_for_events select_all_ready replace_prog cross_example
        = .returned m ∧
      m.invoked.count { fd := 6, type := .read, callback := 3 } = 1 ∧
      ({ fd := 6, type := .read, callback := 2 } : invocation) ∉ m.invoked ∧
      m.reactor.callback_for 6 .read = some 3 :=
  ⟨by decide, rfl, by decide, by decide,
    replaced_callback_dispatched_in_same_call [4, 6]
      [.register_read_callback 0 (some 1), .register_read_callback 1 (some 2)]
      cross_example select_all_ready replace_prog 4 6 1 1 2 3 (by decide) rfl
      select_all_ready_succeeds (by decide) (by decide) (by decide) (by decide) (by decide)
      (by decide) rfl
      (fun c hc => by simp [replace_prog, hc])
      (by
        intro d type hd hc
        have hd' : d = 4 ∨ d = 6 := by
          cases type <;>
            simp [select_reactor.kind_set, select_all_ready, select_reactor.next_select_call,
              select_reactor.select_arguments, select_reactor.prepared, cross_example] at hd
          · omega
        rcases hd' with rfl | rfl
        · cases type
          · exact ⟨rfl, rfl⟩
          · exact absurd hc (by decide)
          · exact absurd hc (by decide)
        · cases type <;> exact absurd hc (by decide))
      (by decide) (by decide)⟩

end meridian

namespace meridian

/-! ## Calls by kind, and calls that are sure to return -/

namespace event_source_registry

theorem registry_register_eq (type : event_type) (r : event_source_registry) (source : Nat)
    (callback : event_callback) :
    r.register type source callback = r.register_callback type source callback := by
  cases type <;> rfl

theorem registry_remove_eq (type : event_type) (r : event_source_registry) (source : Nat) :
    r.remove type source = r.remove_callback type source := by
  cases type <;> rfl

/-- A register call of the registry on an unlinked source whose descriptor is not in the
table inserts the source and sets the callback. -/
theorem registry_register_callback_insert {type : event_type} {r : event_source_registry}
    {source : Nat} {s : event_source} {callback : event_callback}
    (hs : r.objects[source]? = some s) (hl : s.linked = false) (hf : r.find s.fd = none) :
    r.register_callback type source callback =
      .ok { objects := r.objects.set source
              (({ s with linked := true } : event_source).set_callback type callback),
            event_sources_ := r.event_sources_ ++ [source] } := by
  have hlt : source < r.objects.length := by
    rcases List.getElem?_eq_some.mp hs with ⟨hlt, _⟩; exact hlt
  have hf1 : r.unordered_set_find s.fd = none := hf
  unfold register_callback
  simp [hs, event_source.is_linked, hl, unordered_set_insert, hf1, hlt, List.set_set]

/-- A register call of the registry returns whenever the source is an object. -/
theorem registry_register_callback_total {type : event_type} {r : event_source_registry}
    {source : Nat} {s : event_source} (callback : event_callback)
    (hs : r.objects[source]? = some s) :
    ∃ r1, r.register_callback type source callback = .ok r1 := by
  cases hl : s.linked with
  | true => exact ⟨_, registry_register_callback_no_insert hs (.inl hl)⟩
  | false =>
    cases hf : r.find s.fd with
    | none => exact ⟨_, registry_register_callback_insert hs hl hf⟩
    | some j => exact ⟨_, registry_register_callback_no_insert hs (.inr (by simp [hf]))⟩

/-- A remove call of the registry on a linked source returns. -/
theorem registry_remove_callback_linked {type : event_type} {r : event_source_registry}
    {source : Nat} {s : event_source} (hs : r.objects[source]? = some s)
    (hl : s.linked = true) :
    r.remove_callback type source =
      .ok (erase_source_without_callback
        { r with objects := r.objects.set source (s.clear_callback type) } source) := by
  unfold remove_callback
  simp [hs, event_source.is_linked, hl]

/-- A remove call of the registry on an unlinked source fails its assertion. -/
theorem registry_remove_callback_unlinked {type : event_type} {r : event_source_registry}
    {source : Nat} {s : event_source} (hs : r.objects[source]? = some s)
    (hl : s.linked = false) :
    r.remove_callback type source = .error .assertion_failed := by
  unfold remove_callback
  simp [hs, event_source.is_linked, hl]

end event_source_registry

namespace select_reactor

theorem reactor_register_eq (type : event_type) (r : select_reactor) (source : Nat)
    (callback : event_callback) :
    r.register type source callback = r.register_callback type source callback := by
  cases type <;> rfl

theorem reactor_remove_eq (type : event_type) (r : select_reactor) (source : Nat) :
    r.remove type source = r.remove_callback type source := by
  cases type <;> rfl

/-- A register call of the reactor, given what the registry returns. -/
theorem reactor_register_callback_of_registry {type : event_type} {r : select_reactor}
    {source : Nat} {c : Nat} {registry : event_source_registry} {s1 : event_source}
    (hreg : r.registry_.register_callback type source (some c) = .ok registry)
    (hs1 : registry.objects[source]? = some s1) (h0 : 0 ≤ s1.fd) (h1 : s1.fd < FD_SETSIZE) :
    r.register_callback type source (some c) =
      .ok (({ r with registry_ := registry,
                     maxfd_ := some (cached_after_register r.maxfd_ s1.fd) }
        : select_reactor).set_interest_set type (insert s1.fd (r.interest_set type))) := by
  unfold register_callback
  rw [hreg]
  cases hm : r.maxfd_ with
  | none =>
    simp [bind, Except.bind, pure, Except.pure, cache_fd_read_register, hs1, FD_SET, h0,
      h1, hm, cached_after_register]
    cases type <;> rfl
  | some m =>
    by_cases hgt : s1.fd > m
    · simp [bind, Except.bind, pure, Except.pure, cache_fd_read_register, hs1, FD_SET, h0,
        h1, hm, cached_after_register, hgt]
      cases type <;> simp [set_interest_set, interest_set]
    · simp [bind, Except.bind, pure, Except.pure, cache_fd_read_register, hs1, FD_SET, h0,
        h1, hm, cached_after_register, hgt]
      cases type <;> simp [set_interest_set, interest_set, hm]

/-- A remove call of the reactor, given what the registry returns. -/
theorem reactor_remove_callback_of_registry {type : event_type} {r : select_reactor}
    {source : Nat} {registry : event_source_registry} {s1 : event_source}
    (hreg : r.registry_.remove_callback type source = .ok registry)
    (hs1 : registry.objects[source]? = some s1) (h0 : 0 ≤ s1.fd) (h1 : s1.fd < FD_SETSIZE) :
    r.remove_callback type source =
      .ok (({ r with registry_ := registry, maxfd_ := none }
        : select_reactor).set_interest_set type ((r.interest_set type).erase s1.fd)) := by
  unfold remove_callback
  rw [hreg]
  simp [bind, Except.bind, pure, Except.pure, hs1, FD_CLR, h0, h1]

end select_reactor

end meridian

namespace meridian

namespace event_source_registry

theorem wf_init (fds : List Int) : (init fds).wf := by
  refine ⟨by simp [init], ?_, unique_keys_init fds⟩
  intro j s hs
  simp only [init, List.getElem?_map] at hs
  cases hf : fds[j]? with
  | none => simp [hf] at hs
  | some a =>
    simp [hf] at hs
    subst hs
    simp [init, event_source.mk_fd]

/-- Replacing an object by one with the same hook state keeps "linked exactly when in the
table". -/
theorem linked_iff_set {objs : List event_source} (tbl : List Nat) {source : Nat}
    {s s1 : event_source} (hs : objs[source]? = some s) (hl : s1.linked = s.linked)
    (hold : ∀ (j : Nat) (sj : event_source), objs[j]? = some sj →
      (sj.linked = true ↔ j ∈ tbl))
    (j : Nat) (sj : event_source) (hsj : (objs.set source s1)[j]? = some sj) :
    sj.linked = true ↔ j ∈ tbl := by
  have hlt : source < objs.length := by
    rcases List.getElem?_eq_some.mp hs with ⟨hlt, _⟩; exact hlt
  simp only [List.getElem?_set] at hsj
  by_cases hj : source = j
  · subst hj
    simp only [hlt, if_true, Option.some.injEq] at hsj
    subst hsj
    rw [hl]
    exact hold source s hs
  · simp only [hj, if_false] at hsj
    exact hold j sj hsj

/-- With at most one element per descriptor, `find` returns the table element that has the
descriptor. -/
theorem find_eq_some_of_unique {r : event_source_registry} (hu : r.unique_keys) {fd : Int}
    {j : Nat} (hj : j ∈ r.event_sources_) (hfd : r.fd_at j = some fd) :
    r.find fd = some j := by
  cases hf : r.find fd with
  | none => exact absurd hfd (find_eq_none.mp hf j hj)
  | some i =>
    have := find_some hf
    rw [hu i this.1 j hj fd this.2 hfd]

/-- With no source twice in the table and at most one element per descriptor, a descriptor
that is in the table is there exactly once. -/
theorem countP_fd_eq_one {r : event_source_registry} (hw : r.wf) {fd : Int} {i : Nat}
    (hi : i ∈ r.event_sources_) (hfd : r.fd_at i = some fd) :
    r.event_sources_.countP (fun j => r.fd_at j == some fd) = 1 := by
  have hcongr : r.event_sources_.countP (fun j => r.fd_at j == some fd) =
      r.event_sources_.countP (fun j => j == i) := by
    apply List.countP_congr
    intro j hj
    simp only [beq_iff_eq]
    constructor
    · intro h; exact hw.unique j hj i hi fd h hfd
    · intro h; rw [h]; exact hfd
  rw [hcongr]
  exact List.count_eq_one_of_mem hw.nodup hi

/-- What a register call of the registry does to a well-formed registry. -/
theorem registry_register_callback_facts {type : event_type} {r r1 : event_source_registry}
    {source : Nat} {s : event_source} {callback : event_callback} (hw : r.wf)
    (hs : r.objects[source]? = some s)
    (h : r.register_callback type source callback = .ok r1) :
    r1.wf ∧ (∀ j, r1.fd_at j = r.fd_at j) ∧
      (∀ j ∈ r.event_sources_, j ∈ r1.event_sources_) ∧
      (s.linked = true ∨ r.find s.fd = none → source ∈ r1.event_sources_) ∧
      (∃ i ∈ r1.event_sources_, r1.fd_at i = some s.fd) ∧
      ∃ s1, r1.objects[source]? = some s1 ∧ s1.fd = s.fd ∧
        ∀ k, s1.callback k = if k = type then callback else s.callback k := by
  have hlt : source < r.objects.length := by
    rcases List.getElem?_eq_some.mp hs with ⟨hlt, _⟩; exact hlt
  have hsrc : r.fd_at source = some s.fd := fd_at_eq_some.mpr ⟨s, hs, rfl⟩
  obtain ⟨s', hs', hcase⟩ := registry_register_callback_ok h
  rw [hs] at hs'
  cases hs'
  rcases hcase with ⟨hl, hnone, rfl⟩ | ⟨hl, rfl⟩
  · have hfd : ∀ j, fd_at (event_source_registry.mk (r.objects.set source
          (({ s with linked := true } : event_source).set_callback type callback))
          (r.event_sources_ ++ [source])) j = r.fd_at j :=
      fun j => fd_at_set r.event_sources_ _ hs (by rw [set_callback_fd]; rfl) j
    have hnotmem : source ∉ r.event_sources_ := by
      intro hmem
      have := (hw.linked_iff source s hs).mpr hmem
      rw [hl] at this
      exact absurd this (by decide)
    refine ⟨⟨?_, ?_, ?_⟩, hfd, ?_, ?_, ?_, ?_⟩
    · simp only [List.nodup_append, List.nodup_singleton, List.disjoint_singleton, true_and]
      exact ⟨hw.nodup, hnotmem⟩
    · intro j sj hsj
      simp only [List.getElem?_set] at hsj
      by_cases hj : source = j
      · subst hj
        simp only [hlt, if_true, Option.some.injEq] at hsj
        subst hsj
        simp [set_callback_linked]
      · simp only [hj, if_false] at hsj
        rw [hw.linked_iff j sj hsj]
        simp [Ne.symm hj]
    · intro i hi j hj fd hfi hfj
      rw [hfd] at hfi hfj
      rw [find_eq_none] at hnone
      simp only [List.mem_append, List.mem_singleton] at hi hj
      rcases hi with hi | rfl <;> rcases hj with hj | rfl
      · exact hw.unique i hi j hj fd hfi hfj
      · rw [hsrc] at hfj
        cases hfj
        exact absurd hfi (hnone i hi)
      · rw [hsrc] at hfi
        cases hfi
        exact absurd hfj (hnone j hj)
      · rfl
    · intro j hj
      simp [hj]
    · intro _
      simp
    · exact ⟨source, by simp, by rw [hfd]; exact hsrc⟩
    · refine ⟨({ s with linked := true } : event_source).set_callback type callback,
        by simp [hlt], by rw [set_callback_fd]; rfl, ?_⟩
      intro k
      rw [event_source.callback_set_callback, event_source.callback_link]
  · have hfd : ∀ j, fd_at (event_source_registry.mk
          (r.objects.set source (s.set_callback type callback)) r.event_sources_) j =
          r.fd_at j :=
      fun j => fd_at_set r.event_sources_ _ hs (set_callback_fd _ _ _) j
    have hex : ∃ i ∈ r.event_sources_, r.fd_at i = some s.fd := by
      rcases hl with hl | hl
      · exact ⟨source, (hw.linked_iff source s hs).mp hl, hsrc⟩
      · cases hf : r.find s.fd with
        | none => exact absurd hf hl
        | some i => exact ⟨i, (find_some hf).1, (find_some hf).2⟩
    refine ⟨⟨hw.nodup, ?_, ?_⟩, hfd, fun j hj => hj, ?_, ?_, ?_⟩
    · exact linked_iff_set _ hs (set_callback_linked _ _ _) hw.linked_iff
    · intro i hi j hj fd hfi hfj
      rw [hfd] at hfi hfj
      exact hw.unique i hi j hj fd hfi hfj
    · rintro (h1 | h1)
      · exact (hw.linked_iff source s hs).mp h1
      · rcases hl with hl | hl
        · exact (hw.linked_iff source s hs).mp hl
        · exact absurd h1 hl
    · obtain ⟨i, hi, hfi⟩ := hex
      exact ⟨i, hi, by rw [hfd]; exact hfi⟩
    · refine ⟨s.set_callback type callback, by simp [hlt], set_callback_fd _ _ _, ?_⟩
      intro k
      rw [event_source.callback_set_callback]

/-- A remove call of the registry keeps a well-formed registry well-formed. -/
theorem registry_remove_callback_wf {type : event_type} {r r1 : event_source_registry}
    {source : Nat} (hw : r.wf) (h : r.remove_callback type source = .ok r1) : r1.wf := by
  obtain ⟨s, hs, hl, hcase⟩ := registry_remove_callback_ok h
  have hfd0 : ∀ j, fd_at (event_source_registry.mk
        (r.objects.set source (s.clear_callback type)) r.event_sources_) j = r.fd_at j :=
    fun j => fd_at_set r.event_sources_ _ hs (clear_callback_fd _ _) j
  have hlink0 := linked_iff_set r.event_sources_ hs (clear_callback_linked s type)
    hw.linked_iff
  rcases hcase with ⟨_, rfl⟩ | ⟨_, rfl⟩
  · refine ⟨hw.nodup, hlink0, ?_⟩
    intro i hi j hj fd hfi hfj
    rw [hfd0] at hfi hfj
    exact hw.unique i hi j hj fd hfi hfj
  · refine ⟨?_, ?_, ?_⟩
    · exact hw.nodup.filter _
    · intro j sj hsj
      rw [erase_objects] at hsj
      rw [erase_mem, hfd0]
      cases hsj0 : (r.objects.set source (s.clear_callback type))[j]? with
      | none => simp [hsj0] at hsj
      | some sj0 =>
        simp only [hsj0, Option.map_some', Option.some.injEq] at hsj
        have hl0 := hlink0 j sj0 hsj0
        have hfdj : r.fd_at j = some sj0.fd := by
          rw [← hfd0]
          exact fd_at_eq_some.mpr ⟨sj0, hsj0, rfl⟩
        by_cases hc : j ∈ r.event_sources_ ∧ sj0.fd = s.fd
        · rw [if_pos hc] at hsj
          subst hsj
          simp [hfdj, hc.2]
        · rw [if_neg hc] at hsj
          subst hsj
          rw [hl0, hfdj]
          constructor
          · intro hj
            refine ⟨hj, ?_⟩
            intro heq
            exact hc ⟨hj, Option.some.inj heq⟩
          · exact fun h => h.1
    · intro i hi j hj fd hfi hfj
      rw [erase_fd_at, hfd0] at hfi hfj
      rw [erase_mem] at hi hj
      exact hw.unique i hi.1 j hj.1 fd hfi hfj

theorem wf_apply {r r1 : event_source_registry} {op : registration_op} (hw : r.wf)
    (h : r.apply op = .ok r1) : r1.wf := by
  rcases registry_apply_generic r op with ⟨type, source, callback, _, he⟩ | ⟨type, source, he⟩
  · rw [he] at h
    obtain ⟨s, hs, _⟩ := registry_register_callback_ok h
    exact (registry_register_callback_facts hw hs h).1
  · rw [he] at h
    exact registry_remove_callback_wf hw h

theorem wf_run {ops : List registration_op} {r r1 : event_source_registry} (hw : r.wf)
    (h : r.run ops = .ok r1) : r1.wf := by
  induction ops generalizing r with
  | nil => simp [run] at h; subst h; exact hw
  | cons op ops ih =>
    unfold run at h
    cases ha : r.apply op with
    | error f => simp [ha] at h
    | ok r2 =>
      simp only [ha] at h
      exact ih (wf_apply hw ha) h

end event_source_registry

end meridian

namespace meridian

/-- C11: in every registry state reached by register and remove calls (any descriptors,
any callback values), for every source, kind and callbacks `cb`, `cb2`: registering `cb` and
then `cb2` of that kind on the source returns both times; afterwards the table holds the
descriptor of the source exactly once, the source's callback of that kind is `cb2`, and its
callbacks of the other kinds are what they were.  Unless another source held the descriptor
before, `find` returns the source, so that `cb2` is what a dispatch looks up. -/
theorem register_twice_overwrites (fds : List Int) (ops : List registration_op)
    (r : event_source_registry) (hrun : (event_source_registry.init fds).run ops = .ok r)
    (type : event_type) (source : Nat) (s : event_source)
    (hs : r.objects[source]? = some s) (cb cb2 : event_callback) :
    ∃ r1 r2 s2, r.register type source cb = .ok r1 ∧ r1.register type source cb2 = .ok r2 ∧
      r2.event_sources_.countP (fun j => r2.fd_at j == some s.fd) = 1 ∧
      r2.objects[source]? = some s2 ∧ s2.fd = s.fd ∧ s2.callback type = cb2 ∧
      (∀ k, k ≠ type → s2.callback k = s.callback k) ∧
      (s.linked = true ∨ r.find s.fd = none → r2.find s.fd = some source) := by
  have hw := event_source_registry.wf_run (event_source_registry.wf_init fds) hrun
  obtain ⟨r1, h1⟩ :=
    @event_source_registry.registry_register_callback_total type r source s cb hs
  obtain ⟨hw1, hfd1, hsub1, hin1, _, s1, hs1, hs1fd, hs1cb⟩ :=
    event_source_registry.registry_register_callback_facts hw hs h1
  obtain ⟨r2, h2⟩ :=
    @event_source_registry.registry_register_callback_total type r1 source s1 cb2 hs1
  obtain ⟨hw2, hfd2, hsub2, _, hex2, s2, hs2, hs2fd, hs2cb⟩ :=
    event_source_registry.registry_register_callback_facts hw1 hs1 h2
  refine ⟨r1, r2, s2, ?_, ?_, ?_, hs2, hs2fd.trans hs1fd, ?_, ?_, ?_⟩
  · rw [event_source_registry.registry_register_eq]; exact h1
  · rw [event_source_registry.registry_register_eq]; exact h2
  · obtain ⟨i, hi, hfi⟩ := hex2
    rw [hs1fd] at hfi
    exact event_source_registry.countP_fd_eq_one hw2 hi hfi
  · rw [hs2cb]; simp
  · intro k hk
    rw [hs2cb, if_neg hk, hs1cb, if_neg hk]
  · intro hcase
    apply event_source_registry.find_eq_some_of_unique hw2.unique (hsub2 source (hin1 hcase))
    rw [hfd2, hfd1]
    exact event_source_registry.fd_at_eq_some.mpr ⟨s, hs, rfl⟩

/-- C11 at a concrete input: a fresh source with descriptor 5, read callbacks `1` then
`2`. -/
theorem register_twice_overwrites_witness :
    (event_source_registry.init [5]).run [] = .ok (event_source_registry.init [5]) ∧
    (event_source_registry.init [5]).objects[0]? = some (event_source.mk_fd 5) ∧
    ((event_source_registry.init [5]).register .read 0 (some 1)).bind
        (fun r1 => r1.register .read 0 (some 2)) =
      .ok { objects := [⟨5, some 2, none, none, true⟩], event_sources_ := [0] } ∧
    ∃ r1 r2 s2, (event_source_registry.init [5]).register .read 0 (some 1) = .ok r1 ∧
      r1.register .read 0 (some 2) = .ok r2 ∧
      r2.event_sources_.countP (fun j => r2.fd_at j == some (event_source.mk_fd 5).fd) = 1 ∧
      r2.objects[0]? = some s2 ∧ s2.fd = (event_source.mk_fd 5).fd ∧
      s2.callback .read = some 2 ∧
      (∀ k, k ≠ event_type.read → s2.callback k = (event_source.mk_fd 5).callback k) ∧
      ((event_source.mk_fd 5).linked = true ∨
          (event_source_registry.init [5]).find (event_source.mk_fd 5).fd = none →
        r2.find (event_source.mk_fd 5).fd = some 0) :=
  ⟨rfl, rfl, rfl,
    register_twice_overwrites [5] [] (event_source_registry.init [5]) rfl .read 0
      (event_source.mk_fd 5) rfl (some 1) (some 2)⟩

end meridian

namespace meridian

namespace event_source_registry

theorem clear_callback_of_none {s : event_source} {type : event_type}
    (h : s.callback type = none) : s.clear_callback type = s := by
  cases s
  cases type <;>
    simp_all [event_source.callback, event_source.clear_callback,
      event_source.read_callback, event_source.write_callback, event_source.except_callback,
      event_source.remove_read_callback, event_source.remove_write_callback,
      event_source.remove_except_callback]

theorem set_self {objs : List event_source} {source : Nat} {s : event_source}
    (hs : objs[source]? = some s) : objs.set source s = objs := by
  apply List.ext_getElem?
  intro j
  have hlt : source < objs.length := by
    rcases List.getElem?_eq_some.mp hs with ⟨hlt, _⟩; exact hlt
  simp only [List.getElem?_set]
  by_cases hj : source = j
  · subst hj; simp [hlt, hs]
  · simp [hj]

end event_source_registry

/-- C18: for every kind, `event_source_registry::remove_*_callback` on a source that is not
linked does not return: the assertion `assert(source.is_linked())` fails, before the
callback is cleared or the table is touched. -/
theorem remove_on_unlinked_source_fails (r : event_source_registry) (type : event_type)
    (source : Nat) (s : event_source) (hs : r.objects[source]? = some s)
    (hl : s.is_linked = false) : r.remove type source = .error .assertion_failed := by
  rw [event_source_registry.registry_remove_eq]
  exact event_source_registry.registry_remove_callback_unlinked hs hl

/-- C18 at a concrete input: a fresh source with descriptor 5, for the write kind. -/
theorem remove_on_unlinked_source_fails_witness :
    (event_source_registry.init [5]).objects[0]? = some (event_source.mk_fd 5) ∧
    (event_source.mk_fd 5).is_linked = false ∧
    (event_source_registry.init [5]).remove_write_callback 0 = .error .assertion_failed :=
  ⟨rfl, rfl,
    remove_on_unlinked_source_fails (event_source_registry.init [5]) .write 0
      (event_source.mk_fd 5) rfl rfl⟩

/-- C19 as stated fails: a source with descriptor 5 that holds no read callback and is not
registered at all.  `remove_read_callback` does not return normally, it fails
`assert(source.is_linked())`. -/
theorem remove_without_callback_on_unregistered_source_asserts :
    (event_source.mk_fd 5).read_callback = none ∧
    (event_source_registry.init [5]).objects[0]? = some (event_source.mk_fd 5) ∧
    (event_source_registry.init [5]).remove_read_callback 0 = .error .assertion_failed :=
  ⟨rfl, rfl, rfl⟩

/-- C19, amended: for every kind, on a source that is linked and holds a callback, but
none of that kind, `remove_*_callback` returns normally and leaves the table and every
object, the callbacks of the source included, as they were. -/
theorem remove_without_callback_on_registered_source (r : event_source_registry)
    (type : event_type) (source : Nat) (s : event_source)
    (hs : r.objects[source]? = some s) (hl : s.is_linked = true)
    (hnone : s.callback type = none) (hhas : s.has_callback = true) :
    r.remove type source = .ok r := by
  rw [event_source_registry.registry_remove_eq,
    event_source_registry.registry_remove_callback_linked hs hl,
    event_source_registry.clear_callback_of_none hnone, event_source_registry.set_self hs]
  simp [event_source_registry.erase_source_without_callback, hs, hhas]

/-- C19 (amended) at a concrete input: a source registered for write only; removing its
read callback changes nothing. -/
theorem remove_without_callback_on_registered_source_witness :
    (event_source_registry.init [9]).run [.register_write_callback 0 (some 1)]
      = .ok write_only_registry ∧
    write_only_registry.objects[0]? = some ⟨9, none, some 1, none, true⟩ ∧
    write_only_registry.remove_read_callback 0 = .ok write_only_registry :=
  ⟨rfl, rfl,
    remove_without_callback_on_registered_source write_only_registry .read 0
      ⟨9, none, some 1, none, true⟩ rfl rfl rfl rfl⟩

/-- C20: for every reactor state and every linked source with a descriptor in the bitmap
range, `select_reactor::remove_read_callback` returns with the cached maximum unknown, the
descriptor cleared from the read bitmap, and the write and except bitmaps as they were:
whatever the cached maximum was, and also when the source keeps another callback. -/
theorem remove_read_callback_invalidates_cached_maximum (r : select_reactor) (source : Nat)
    (s : event_source) (hs : r.registry_.objects[source]? = some s)
    (hl : s.is_linked = true) (h0 : 0 ≤ s.fd) (h1 : s.fd < FD_SETSIZE) :
    ∃ r1, r.remove_read_callback source = .ok r1 ∧ r1.maxfd_ = none ∧
      r1.read_set_ = r.read_set_.erase s.fd ∧ r1.write_set_ = r.write_set_ ∧
      r1.except_set_ = r.except_set_ := by
  have hreg := @event_source_registry.registry_remove_callback_linked .read r.registry_
    source s hs hl
  have happly : r.registry_.apply (.remove_read_callback source) = .ok _ := hreg
  have hfd := event_source_registry.apply_fd_at happly source
  rw [event_source_registry.fd_at_eq_some.mpr ⟨s, hs, rfl⟩] at hfd
  obtain ⟨s1, hs1, hs1fd⟩ := event_source_registry.fd_at_eq_some.mp hfd
  have hrem := select_reactor.reactor_remove_callback_of_registry (r := r) hreg hs1
    (by rw [hs1fd]; exact h0) (by rw [hs1fd]; exact h1)
  refine ⟨_, (select_reactor.reactor_remove_read_callback_eq r source).trans hrem, rfl, ?_,
    rfl, rfl⟩
  rw [hs1fd]
  rfl

/-- C20 at a concrete input: descriptors 3, 5, 7 with cached maximum 7; the source of 5
holds a read and a write callback and its read callback is removed. -/
theorem remove_read_callback_invalidates_cached_maximum_witness :
    ordering_example.registry_.objects[1]? = some ⟨5, some 51, some 52, none, true⟩ ∧
    ordering_example.maxfd_ = some 7 ∧
    (ordering_example.remove_read_callback 1).toOption.map
        (fun r1 => (r1.maxfd_, r1.registry_.event_sources_, r1.write_set_)) =
      some (none, [1, 2, 0], {5}) ∧
    ∃ r1, ordering_example.remove_read_callback 1 = .ok r1 ∧ r1.maxfd_ = none ∧
      r1.read_set_ = ordering_example.read_set_.erase
        (event_source.fd ⟨5, some 51, some 52, none, true⟩) ∧
      r1.write_set_ = ordering_example.write_set_ ∧
      r1.except_set_ = ordering_example.except_set_ :=
  ⟨rfl, rfl, by decide,
    remove_read_callback_invalidates_cached_maximum ordering_example 1
      ⟨5, some 51, some 52, none, true⟩ rfl rfl (by decide) (by decide)⟩

namespace select_reactor

/-- With a cached maximum and a `::select` that fails, `wait_for_events` throws right
after the call. -/
theorem wait_for_events_select_negative {select : select_call → select_return}
    {prog : Nat → List registration_op} {r : select_reactor} {M : Int}
    (hM : r.prepared.maxfd_ = some M) (hres : (select (r.select_arguments M)).result < 0) :
    wait_for_events select prog r =
      .failed (.exception (select (r.select_arguments M)).errno "select")
        (machine.mk r.prepared [] [r.select_arguments M]) := by
  rw [wait_for_events_prepared]
  have hp : (if r.prepared.maxfd_.isNone then r.prepared.recache_max_fd else r.prepared) =
      r.prepared := by simp [hM]
  unfold wait_for_events
  simp only [hp]
  simp only [hM]
  have hargs : select_call.mk (M + 1) r.prepared.read_set_ r.prepared.write_set_
      r.prepared.except_set_ 5 0 = r.select_arguments M := by
    rw [← prepared_select_arguments]; rfl
  rw [hargs, if_pos hres]

end select_reactor

/-- C13: if the `::select` call of `wait_for_events` returns a negative result, the call
throws the reactor exception with `errno` and the function name "select"; `::select` has
been called once, no callback has been invoked, and the registry and the three interest
bitmaps are as before the call. -/
theorem wait_for_events_select_failure (select : select_call → select_return)
    (prog : Nat → List registration_op) (r : select_reactor)
    (hneg : (select r.next_select_call).result < 0) :
    ∃ m, select_reactor.wait_for_events select prog r =
        .failed (.exception (select r.next_select_call).errno "select") m ∧
      m.select_calls = [r.next_select_call] ∧ m.invoked = [] ∧
      m.reactor.registry_ = r.registry_ ∧ m.reactor.read_set_ = r.read_set_ ∧
      m.reactor.write_set_ = r.write_set_ ∧ m.reactor.except_set_ = r.except_set_ := by
  obtain ⟨M, hM⟩ := select_reactor.prepared_maxfd r
  have hnext : r.next_select_call = r.select_arguments M := by
    simp [select_reactor.next_select_call, hM]
  rw [hnext] at hneg ⊢
  refine ⟨_, select_reactor.wait_for_events_select_negative hM hneg, rfl, rfl,
    select_reactor.prepared_registry r, ?_, ?_, ?_⟩
  · exact select_reactor.prepared_interest_set r .read
  · exact select_reactor.prepared_interest_set r .write
  · exact select_reactor.prepared_interest_set r .except

/-- C13 at a concrete input: descriptors 3 and 7 registered for read, `::select`
interrupted. -/
theorem wait_for_events_select_failure_witness :
    (select_interrupted counters_example.next_select_call).result < 0 ∧
    select_reactor.wait_for_events select_interrupted (fun _ => []) counters_example =
      .failed (.exception 4 "select")
        (machine.mk counters_example [] [⟨8, {7, 3}, ∅, ∅, 5, 0⟩]) ∧
    ∃ m, select_reactor.wait_for_events select_interrupted (fun _ => []) counters_example =
        .failed (.exception (select_interrupted counters_example.next_select_call).errno
          "select") m ∧
      m.select_calls = [counters_example.next_select_call] ∧ m.invoked = [] ∧
      m.reactor.registry_ = counters_example.registry_ ∧
      m.reactor.read_set_ = counters_example.read_set_ ∧
      m.reactor.write_set_ = counters_example.write_set_ ∧
      m.reactor.except_set_ = counters_example.except_set_ :=
  ⟨by decide, rfl,
    wait_for_events_select_failure select_interrupted (fun _ => []) counters_example
      (by decide)⟩

end meridian

namespace meridian

namespace select_reactor

theorem cache_inv_init (fds : List Int) : (init fds).cache_inv := by
  intro h
  simp [init] at h

theorem cache_inv_apply {r r1 : select_reactor} {op : registration_op} (hi : r.inv)
    (h : r.apply op = .ok r1) : r1.cache_inv := by
  rcases reactor_apply_generic r op with ⟨type, source, callback, _, he⟩ | ⟨type, source, _, he⟩
  · rw [he] at h
    obtain ⟨c, registry, s1, rfl, hreg, _, _, _, rfl⟩ := reactor_register_callback_ok h
    obtain ⟨s, hs, rfl⟩ := event_source_registry.register_callback_inv_ok hi.registry hreg
    intro _
    simp only [set_interest_set_registry]
    cases hl : s.linked with
    | true =>
      have hmem := (hi.registry.linked_iff source s hs).mp hl
      simp only [if_true]
      exact List.ne_nil_of_mem hmem
    | false => simp
  · rw [he] at h
    obtain ⟨registry, s1, _, _, _, _, rfl⟩ := reactor_remove_callback_ok h
    intro hsome
    simp at hsome

theorem inv_and_cache_inv_run {ops : List registration_op} {r r1 : select_reactor}
    (hi : r.inv) (hc : r.cache_inv) (h : r.run ops = .ok r1) : r1.inv ∧ r1.cache_inv := by
  induction ops generalizing r with
  | nil => simp [run] at h; subst h; exact ⟨hi, hc⟩
  | cons op ops ih =>
    unfold run at h
    cases ha : r.apply op with
    | error f => simp [ha] at h
    | ok r2 =>
      simp only [ha] at h
      exact ih (reactor_inv_apply hi ha) (cache_inv_apply hi ha) h

/-- Under the invariant, with an empty table every interest bitmap is empty. -/
theorem inv_interest_set_empty {r : select_reactor} (hi : r.inv)
    (hempty : r.registry_.event_sources_ = []) (type : event_type) :
    r.interest_set type = ∅ := by
  apply Finset.eq_empty_of_forall_not_mem
  intro d hd
  obtain ⟨j, hj, _⟩ := (inv_bitmap_iff hi type d).mp hd
  rw [hempty] at hj
  simp at hj

/-- The scan with cached maximum -1 returns at its first condition. -/
theorem scan_nothing_cached {prog : Nat → List registration_op}
    {read_set write_set except_set : fd_set} {m : machine} (result : Int)
    (hM : m.reactor.maxfd_ = some (-1)) :
    scan prog read_set write_set except_set (scan_fuel (-1)) 0 result m = .returned m := by
  obtain ⟨f, hf⟩ : ∃ f, scan_fuel (-1) = f + 1 :=
    ⟨scan_fuel (-1) - 1, by have := (scan_fuel_le (-1)).1; omega⟩
  rw [hf]
  unfold scan
  simp [hM]

end select_reactor

/-- C14: in a reactor state reached by register and remove calls that returned (distinct
descriptors) in which the table of the registry is empty, `wait_for_events` calls `::select`
once with `nfds = 0` and three empty sets, and invokes no callback, whatever `::select`
returns and whatever the callbacks would do. -/
theorem wait_for_events_with_nothing_registered (fds : List Int)
    (ops : List registration_op) (r : select_reactor) (select : select_call → select_return)
    (prog : Nat → List registration_op) (hfds : fds.Nodup)
    (hrun : (select_reactor.init fds).run ops = .ok r)
    (hempty : r.registry_.event_sources_ = []) :
    (select_reactor.wait_for_events select prog r).final.select_calls =
        [{ nfds := 0, read_set := ∅, write_set := ∅, except_set := ∅, tv_sec := 5,
           tv_usec := 0 }] ∧
      (select_reactor.wait_for_events select prog r).final.invoked = [] := by
  obtain ⟨hi, hc⟩ := select_reactor.inv_and_cache_inv_run (select_reactor.reactor_inv_init hfds)
    (select_reactor.cache_inv_init fds) hrun
  have hnone : r.maxfd_ = none := by
    cases hm : r.maxfd_ with
    | none => rfl
    | some m => exact absurd hempty (hc (by simp [hm]))
  have hM : r.prepared.maxfd_ = some (-1) := by
    simp [select_reactor.prepared, hnone, select_reactor.recache_max_fd,
      event_source_registry.iterate_fds, hempty]
  have hargs : r.select_arguments (-1) =
      { nfds := 0, read_set := ∅, write_set := ∅, except_set := ∅, tv_sec := 5,
        tv_usec := 0 } := by
    have h1 := select_reactor.inv_interest_set_empty hi hempty .read
    have h2 := select_reactor.inv_interest_set_empty hi hempty .write
    have h3 := select_reactor.inv_interest_set_empty hi hempty .except
    simp only [select_reactor.interest_set] at h1 h2 h3
    simp [select_reactor.select_arguments, h1, h2, h3]
  by_cases hres : (select (r.select_arguments (-1))).result < 0
  · rw [select_reactor.wait_for_events_select_negative hM hres]
    simp [outcome.final, hargs]
  · rw [select_reactor.wait_for_events_eq_scan hM hres,
      select_reactor.scan_nothing_cached _ hM]
    simp [outcome.final, hargs]

/-- C14 at concrete inputs: a freshly constructed reactor, and a reactor whose only
registration has been removed, with the `::select` that reports everything ready. -/
theorem wait_for_events_with_nothing_registered_witness :
    (select_reactor.init [9]).run emptied_ops = .ok emptied_example ∧
    emptied_example.registry_.event_sources_ = [] ∧
    ((select_reactor.wait_for_events select_all_ready (fun _ => []) emptied_example).final.select_calls
        = [{ nfds := 0, read_set := ∅, write_set := ∅, except_set := ∅, tv_sec := 5,
             tv_usec := 0 }] ∧
      (select_reactor.wait_for_events select_all_ready (fun _ => [])
        emptied_example).final.invoked = []) ∧
    ((select_reactor.wait_for_events select_interrupted (fun _ => [])
        (select_reactor.init [9])).final.select_calls
        = [{ nfds := 0, read_set := ∅, write_set := ∅, except_set := ∅, tv_sec := 5,
             tv_usec := 0 }] ∧
      (select_reactor.wait_for_events select_interrupted (fun _ => [])
        (select_reactor.init [9])).final.invoked = []) :=
  ⟨rfl, rfl,
    wait_for_events_with_nothing_registered [9] emptied_ops emptied_example select_all_ready
      (fun _ => []) (by decide) rfl rfl,
    wait_for_events_with_nothing_registered [9] [] (select_reactor.init [9])
      select_interrupted (fun _ => []) (by decide) rfl rfl⟩

end meridian

namespace meridian

namespace event_source_registry

theorem callback_none_of_not_has_callback {s : event_source} (h : s.has_callback = false)
    (type : event_type) : s.callback type = none := by
  cases s
  cases type <;>
    simp_all [event_source.has_callback, event_source.callback, event_source.read_callback,
      event_source.write_callback, event_source.except_callback]

theorem clear_set_callback (s : event_source) (type : event_type) (callback : event_callback) :
    (s.set_callback type callback).clear_callback type = s.clear_callback type := by
  cases type <;> rfl

/-- Under the invariant, a register call on an unlinked source followed by a remove call
of the same kind gives the registry back as it was. -/
theorem registry_register_then_remove {type : event_type} {r : event_source_registry}
    {source : Nat} {s : event_source} {c : Nat} (hi : r.inv)
    (hs : r.objects[source]? = some s) (hl : s.linked = false) :
    r.find s.fd = none ∧
    r.register_callback type source (some c) =
      .ok (event_source_registry.mk
        (r.objects.set source (({ s with linked := true } : event_source).set_callback type
          (some c)))
        (r.event_sources_ ++ [source])) ∧
    remove_callback type (event_source_registry.mk
        (r.objects.set source (({ s with linked := true } : event_source).set_callback type
          (some c)))
        (r.event_sources_ ++ [source])) source = .ok r := by
  have hlt : source < r.objects.length := by
    rcases List.getElem?_eq_some.mp hs with ⟨hlt, _⟩; exact hlt
  have hsrc : r.fd_at source = some s.fd := fd_at_eq_some.mpr ⟨s, hs, rfl⟩
  have hfind : r.find s.fd = none := by
    cases hf : r.find s.fd with
    | none => rfl
    | some i =>
      have hfi := find_some hf
      have : i = source := hi.distinct i source s.fd hfi.2 hsrc
      subst this
      have := (hi.linked_iff i s hs).mpr hfi.1
      rw [hl] at this
      exact absurd this (by decide)
  have hhas : s.has_callback = false := by
    cases hh : s.has_callback with
    | false => rfl
    | true =>
      have := (hi.callback_iff source s hs).mpr hh
      rw [hl] at this
      exact absurd this (by decide)
  have hnone := callback_none_of_not_has_callback hhas
  refine ⟨hfind, registry_register_callback_insert hs hl hfind, ?_⟩
  have hs1 : (event_source_registry.mk
      (r.objects.set source (({ s with linked := true } : event_source).set_callback type
        (some c)))
      (r.event_sources_ ++ [source])).objects[source]? =
      some (({ s with linked := true } : event_source).set_callback type (some c)) := by
    simp [hlt]
  rw [registry_remove_callback_linked hs1 (by rw [set_callback_linked])]
  have hclear : (({ s with linked := true } : event_source).set_callback type
      (some c)).clear_callback type = ({ s with linked := true } : event_source) := by
    rw [clear_set_callback]
    apply clear_callback_of_none
    rw [event_source.callback_link]
    exact hnone type
  simp only [hclear, List.set_set]
  unfold erase_source_without_callback
  simp only [List.getElem?_set_self hlt]
  have hhas1 : ({ s with linked := true } : event_source).has_callback = false := hhas
  simp only [hhas1, Bool.not_false, if_true]
  have hkey : ({ s with linked := true } : event_source).fd = s.fd := rfl
  rw [hkey]
  have hfdat : ∀ j, fd_at (event_source_registry.mk
      (r.objects.set source ({ s with linked := true } : event_source))
      (r.event_sources_ ++ [source])) j = r.fd_at j :=
    fun j => fd_at_set r.event_sources_ _ hs hkey j
  have hobj : (unordered_set_erase (event_source_registry.mk
      (r.objects.set source ({ s with linked := true } : event_source))
      (r.event_sources_ ++ [source])) s.fd).objects = r.objects := by
    apply List.ext_getElem?
    intro j
    rw [erase_objects]
    simp only [List.getElem?_set]
    by_cases hj : source = j
    · subst hj
      simp only [hlt, if_true, Option.map_some', hs, Option.some.injEq]
      rw [if_pos ⟨by simp, rfl⟩]
      cases s
      simp at hl
      simp [hl]
    · simp only [hj, if_false]
      cases hsj : r.objects[j]? with
      | none => rfl
      | some sj =>
        simp only [Option.map_some', Option.some.injEq]
        rw [if_neg]
        rintro ⟨_, hfd⟩
        exact hj (hi.distinct source j s.fd hsrc (fd_at_eq_some.mpr ⟨sj, hsj, hfd⟩))
  have htbl : (unordered_set_erase (event_source_registry.mk
      (r.objects.set source ({ s with linked := true } : event_source))
      (r.event_sources_ ++ [source])) s.fd).event_sources_ = r.event_sources_ := by
    simp only [unordered_set_erase, List.filter_append]
    have h1 : r.event_sources_.filter (fun j => !(fd_at (event_source_registry.mk
        (r.objects.set source ({ s with linked := true } : event_source))
        (r.event_sources_ ++ [source])) j == some s.fd)) = r.event_sources_ := by
      rw [List.filter_eq_self]
      intro j hj
      rw [hfdat]
      have := find_eq_none.mp hfind j hj
      simpa using this
    have h2 : [source].filter (fun j => !(fd_at (event_source_registry.mk
        (r.objects.set source ({ s with linked := true } : event_source))
        (r.event_sources_ ++ [source])) j == some s.fd)) = [] := by
      simp [hfdat, hsrc]
    rw [h1, h2, List.append_nil]
  congr 1
  have hext : ∀ a b : event_source_registry, a.objects = b.objects →
      a.event_sources_ = b.event_sources_ → a = b := by
    intro a b h1 h2
    cases a
    cases b
    simp_all
  exact hext _ _ hobj htbl

end event_source_registry

namespace select_reactor

/-- Under the invariant, a register call of the reactor on an unlinked source followed by
a remove call of the same kind gives the registry and the bitmaps back as they were; the
cached maximum is unknown. -/
theorem reactor_register_then_remove {type : event_type} {r : select_reactor}
    {source : Nat} {s : event_source} {c : Nat} (hi : r.inv)
    (hs : r.registry_.objects[source]? = some s) (hl : s.linked = false) (h0 : 0 ≤ s.fd)
    (h1 : s.fd < FD_SETSIZE) :
    ∃ r1, r.register_callback type source (some c) = .ok r1 ∧
      r1.remove_callback type source = .ok { r with maxfd_ := none } ∧
      r.registry_.find s.fd = none ∧ ∀ k, s.fd ∉ r.interest_set k := by
  have hlt : source < r.registry_.objects.length := by
    rcases List.getElem?_eq_some.mp hs with ⟨hlt, _⟩; exact hlt
  obtain ⟨hfind, hreg, hrem⟩ :=
    @event_source_registry.registry_register_then_remove type r.registry_ source s c
      hi.registry hs hl
  have hnotin : ∀ k, s.fd ∉ r.interest_set k := by
    intro k hmem
    have hcb := (hi.bitmap k source s hs).mp hmem
    have hhas := event_source.has_callback_of_callback hcb
    have := (hi.registry.callback_iff source s hs).mpr hhas
    rw [hl] at this
    exact absurd this (by decide)
  have hfd1 : (({ s with linked := true } : event_source).set_callback type (some c)).fd
      = s.fd := by
    rw [event_source_registry.set_callback_fd]; rfl
  have hs1 : (event_source_registry.mk
      (r.registry_.objects.set source
        (({ s with linked := true } : event_source).set_callback type (some c)))
      (r.registry_.event_sources_ ++ [source])).objects[source]? =
      some (({ s with linked := true } : event_source).set_callback type (some c)) := by
    simp [hlt]
  have hr1 := reactor_register_callback_of_registry (r := r) hreg
    hs1 (by rw [hfd1]; exact h0) (by rw [hfd1]; exact h1)
  refine ⟨_, hr1, ?_, hfind, hnotin⟩
  rw [reactor_remove_callback_of_registry (by simpa using hrem) hs h0 h1]
  congr 1
  rw [hfd1]
  have herase : (insert s.fd (r.interest_set type)).erase s.fd = r.interest_set type :=
    Finset.erase_insert (hnotin type)
  cases type <;>
    simp only [set_interest_set, interest_set] at herase ⊢ <;>
    simp [herase]

end select_reactor

end meridian

namespace meridian

/-- C12: in a reactor state reached by register and remove calls that returned (distinct
descriptors), for every kind and every source that is not registered and whose descriptor
is within the bitmap range: registering a callback of the kind through the reactor and
removing it again returns both times; afterwards `find` on the descriptor returns nothing,
the descriptor is in none of the three interest bitmaps, and the registry and the bitmaps
are as they were before the registration. -/
theorem register_then_remove_restores (fds : List Int) (ops : List registration_op)
    (r : select_reactor) (hfds : fds.Nodup)
    (hrun : (select_reactor.init fds).run ops = .ok r) (type : event_type) (source : Nat)
    (s : event_source) (hs : r.registry_.objects[source]? = some s)
    (hl : s.is_linked = false) (h0 : 0 ≤ s.fd) (h1 : s.fd < FD_SETSIZE) (c : Nat) :
    ∃ r1 r2, r.register type source (some c) = .ok r1 ∧ r1.remove type source = .ok r2 ∧
      r2.registry_.find s.fd = none ∧ (∀ k, s.fd ∉ r2.interest_set k) ∧
      r2.registry_ = r.registry_ ∧ r2.read_set_ = r.read_set_ ∧
      r2.write_set_ = r.write_set_ ∧ r2.except_set_ = r.except_set_ := by
  have hi := select_reactor.reactor_inv_run (select_reactor.reactor_inv_init hfds) hrun
  obtain ⟨r1, hr1, hr2, hfind, hnotin⟩ :=
    @select_reactor.reactor_register_then_remove type r source s c hi hs hl h0 h1
  refine ⟨r1, ({ r with maxfd_ := none } : select_reactor), ?_, ?_, hfind, ?_, rfl, rfl, rfl,
    rfl⟩
  · rw [select_reactor.reactor_register_eq]; exact hr1
  · rw [select_reactor.reactor_remove_eq]; exact hr2
  · intro k
    have := hnotin k
    cases k <;> exact this

/-- C12 at a concrete input: in the reactor after `find_example_ops` the source with
descriptor 7 is not registered; a read callback is registered on it and removed. -/
theorem register_then_remove_restores_witness :
    [(3 : Int), 7].Nodup ∧
    (select_reactor.init [3, 7]).run find_example_ops = .ok bitmap_example ∧
    bitmap_example.registry_.objects[1]? = some ⟨7, none, none, none, false⟩ ∧
    ∃ r1 r2, bitmap_example.register .read 1 (some 5) = .ok r1 ∧
      r1.remove .read 1 = .ok r2 ∧
      r2.registry_.find (event_source.fd ⟨7, none, none, none, false⟩) = none ∧
      (∀ k, event_source.fd ⟨7, none, none, none, false⟩ ∉ r2.interest_set k) ∧
      r2.registry_ = bitmap_example.registry_ ∧ r2.read_set_ = bitmap_example.read_set_ ∧
      r2.write_set_ = bitmap_example.write_set_ ∧
      r2.except_set_ = bitmap_example.except_set_ :=
  ⟨by decide, rfl, rfl,
    register_then_remove_restores [3, 7] find_example_ops bitmap_example (by decide) rfl
      .read 1 ⟨7, none, none, none, false⟩ rfl rfl (by decide) (by decide) 5⟩

/-- C15: in a reactor state reached by register and remove calls that returned (distinct
descriptors), for every kind `K` and every source that is not registered and whose
descriptor is within the bitmap range: constructing a `scoped_registration<K>` on the source
and destroying it without a call of `remove()` leaves the source without a callback of kind
`K`, `find` on its descriptor returning nothing, and the descriptor out of the bitmap of
kind `K`. -/
theorem scoped_registration_destroyed_unregisters (fds : List Int)
    (ops : List registration_op) (r : select_reactor) (hfds : fds.Nodup)
    (hrun : (select_reactor.init fds).run ops = .ok r) (K : event_type) (source : Nat)
    (s : event_source) (hs : r.registry_.objects[source]? = some s)
    (hl : s.is_linked = false) (h0 : 0 ≤ s.fd) (h1 : s.fd < FD_SETSIZE) (c : Nat) :
    ∃ w r1 r2 s2, scoped_registration.construct K r source (some c) = .ok (w, r1) ∧
      w.source_ = some source ∧ w.destroy r1 = .ok r2 ∧
      r2.registry_.objects[source]? = some s2 ∧ s2.callback K = none ∧
      r2.registry_.find s.fd = none ∧ s.fd ∉ r2.interest_set K := by
  have hi := select_reactor.reactor_inv_run (select_reactor.reactor_inv_init hfds) hrun
  obtain ⟨r1, hr1, hr2, hfind, hnotin⟩ :=
    @select_reactor.reactor_register_then_remove K r source s c hi hs hl h0 h1
  have hcb : s.callback K = none := by
    have h := (hi.bitmap K source s hs).not.mp (hnotin K)
    cases hc : s.callback K with
    | none => rfl
    | some c' => simp [hc] at h
  have hnotin' : s.fd ∉ ({ r with maxfd_ := none } : select_reactor).interest_set K := by
    have := hnotin K
    cases K <;> exact this
  cases K
  · rw [← select_reactor.reactor_register_read_callback_eq] at hr1
    rw [← select_reactor.reactor_remove_read_callback_eq] at hr2
    refine ⟨⟨.read, some source⟩, r1, ({ r with maxfd_ := none } : select_reactor), s, ?_, rfl,
      ?_, hs, hcb, hfind, hnotin'⟩
    · simp [scoped_registration.construct, hr1]
    · simp [scoped_registration.destroy, scoped_registration.destructor_calls,
        select_reactor.run, select_reactor.apply, hr2]
  · rw [← select_reactor.reactor_register_write_callback_eq] at hr1
    rw [← select_reactor.reactor_remove_write_callback_eq] at hr2
    refine ⟨⟨.write, some source⟩, r1, ({ r with maxfd_ := none } : select_reactor), s, ?_, rfl,
      ?_, hs, hcb, hfind, hnotin'⟩
    · simp [scoped_registration.construct, hr1]
    · simp [scoped_registration.destroy, scoped_registration.destructor_calls,
        select_reactor.run, select_reactor.apply, hr2]
  · rw [← select_reactor.reactor_register_except_callback_eq] at hr1
    rw [← select_reactor.reactor_remove_except_callback_eq] at hr2
    refine ⟨⟨.except, some source⟩, r1, ({ r with maxfd_ := none } : select_reactor), s, ?_, rfl,
      ?_, hs, hcb, hfind, hnotin'⟩
    · simp [scoped_registration.construct, hr1]
    · simp [scoped_registration.destroy, scoped_registration.destructor_calls,
        select_reactor.run, select_reactor.apply, hr2]

/-- C15 at the spec's witness: a `scoped_registration<read>` on a fresh source with
descriptor 9 goes out of scope. -/
theorem scoped_registration_destroyed_unregisters_witness :
    (select_reactor.init [9]).run [] = .ok (select_reactor.init [9]) ∧
    scoped_registration.construct .read (select_reactor.init [9]) 0 (some 1) =
      .ok (⟨.read, some 0⟩, scoped_read_example) ∧
    scoped_registration.destroy ⟨.read, some 0⟩ scoped_read_example =
      .ok (select_reactor.init [9]) ∧
    ∃ w r1 r2 s2, scoped_registration.construct .read (select_reactor.init [9]) 0 (some 1)
        = .ok (w, r1) ∧
      w.source_ = some 0 ∧ w.destroy r1 = .ok r2 ∧
      r2.registry_.objects[0]? = some s2 ∧ s2.callback .read = none ∧
      r2.registry_.find (event_source.mk_fd 9).fd = none ∧
      (event_source.mk_fd 9).fd ∉ r2.interest_set .read :=
  ⟨rfl, rfl, rfl,
    scoped_registration_destroyed_unregisters [9] [] (select_reactor.init [9]) (by decide)
      rfl .read 0 (event_source.mk_fd 9) rfl rfl (by decide) (by decide) 1⟩

/-- C16, the code at the failing input: a `scoped_registration<write>` is constructed on a
fresh source with descriptor 9 and `remove()` is called.  `remove()` calls
`remove_read_callback` whatever `EVENT_TYPE` is: the write callback stays, 9 stays in the
write bitmap, and the wrapper is inert, so that the destructor removes nothing either. -/
theorem scoped_remove_leaves_write_registration :
    scoped_registration.construct .write (select_reactor.init [9]) 0 (some 1) =
      .ok (⟨.write, some 0⟩, scoped_write_example) ∧
    scoped_registration.remove ⟨.write, some 0⟩ scoped_write_example =
      .ok (⟨.write, none⟩, { scoped_write_example with maxfd_ := none }) ∧
    ({ scoped_write_example with maxfd_ := none } : select_reactor).registry_.objects =
      [⟨9, none, some 1, none, true⟩] ∧
    (9 : Int) ∈ ({ scoped_write_example with maxfd_ := none } : select_reactor).write_set_ ∧
    scoped_registration.destroy ⟨.write, none⟩ { scoped_write_example with maxfd_ := none } =
      .ok { scoped_write_example with maxfd_ := none } := by
  refine ⟨rfl, rfl, rfl, by decide, rfl⟩

/-- C17: for every `scoped_registration` and reactor state, if `remove()` returns then the
wrapper it leaves has a null `source_`: its destructor makes no call on the reactor and
returns the reactor (registry, callbacks, bitmaps, cached maximum) as `remove()` left it. -/
theorem scoped_destroy_after_remove_is_noop (w w1 : scoped_registration)
    (r r1 : select_reactor) (h : w.remove r = .ok (w1, r1)) :
    w1.source_ = none ∧ w1.destructor_calls = [] ∧ w1.destroy r1 = .ok r1 := by
  unfold scoped_registration.remove at h
  cases hsrc : w.source_ with
  | none => simp [hsrc] at h
  | some source =>
    simp only [hsrc] at h
    cases hrem : r.remove_read_callback source with
    | error f => simp [hrem] at h
    | ok r2 =>
      simp only [hrem, Except.ok.injEq, Prod.mk.injEq] at h
      obtain ⟨hw, _⟩ := h
      subst hw
      refine ⟨rfl, rfl, rfl⟩

/-- C17 at a concrete input: a `scoped_registration<read>` on descriptor 9, released by
`remove()` and then destroyed. -/
theorem scoped_destroy_after_remove_is_noop_witness :
    scoped_registration.remove ⟨.read, some 0⟩ scoped_read_example =
      .ok (⟨.read, none⟩, select_reactor.init [9]) ∧
    (⟨.read, none⟩ : scoped_registration).source_ = none ∧
    (⟨.read, none⟩ : scoped_registration).destructor_calls = [] ∧
    scoped_registration.destroy ⟨.read, none⟩ (select_reactor.init [9]) =
      .ok (select_reactor.init [9]) :=
  ⟨rfl,
    scoped_destroy_after_remove_is_noop ⟨.read, some 0⟩ ⟨.read, none⟩ scoped_read_example
      (select_reactor.init [9]) rfl⟩

end meridian

namespace meridian

/-! ## The cached maximum on insertion; the interest state across `wait_for_events` -/

theorem untouched_refl (prog : Nat → List registration_op) (m : machine) :
    machine.untouched prog m m :=
  ⟨⟨[], by simp⟩, fun _ => rfl⟩

theorem untouched_trans {prog : Nat → List registration_op} {m m1 m2 : machine}
    (h1 : machine.untouched prog m m1) (h2 : machine.untouched prog m1 m2) :
    machine.untouched prog m m2 := by
  obtain ⟨⟨l1, e1⟩, r1⟩ := h1
  obtain ⟨⟨l2, e2⟩, r2⟩ := h2
  refine ⟨⟨l1 ++ l2, by rw [e2, e1, List.append_assoc]⟩, fun H => ?_⟩
  rw [r2 H]
  apply r1
  intro i hi
  apply H
  rw [e2]
  exact List.mem_append_left _ hi

/-- A call of a callback leaves the reactor alone if the callback makes no call on it,
whether the call returns or not. -/
theorem invoke_untouched (prog : Nat → List registration_op) (m : machine) (j : Nat)
    (fd : Int) (type : event_type) :
    machine.untouched prog m (select_reactor.invoke prog m j fd type).final := by
  cases hs : m.reactor.registry_.objects[j]? with
  | none =>
    simp only [select_reactor.invoke, hs]
    exact untouched_refl prog m
  | some s =>
    cases hc : s.callback type with
    | none =>
      simp only [select_reactor.invoke, hs, hc]
      exact untouched_refl prog m
    | some c =>
      cases hrun : m.reactor.run (prog c) with
      | error f =>
        simp only [select_reactor.invoke, hs, hc, hrun]
        exact ⟨⟨[⟨fd, type, c⟩], rfl⟩, fun _ => rfl⟩
      | ok r1 =>
        simp only [select_reactor.invoke, hs, hc, hrun]
        refine ⟨⟨[⟨fd, type, c⟩], rfl⟩, fun H => ?_⟩
        have hp : prog c = [] :=
          H ⟨fd, type, c⟩ (by simp [outcome.final])
        rw [hp] at hrun
        simp only [select_reactor.run, Except.ok.injEq] at hrun
        simp [outcome.final, hrun]

theorem dispatch_stage_untouched (prog : Nat → List registration_op) (set : fd_set)
    (type : event_type) (fd : Int) (m : machine) (source : Option Nat) :
    machine.untouched prog m (dispatch_stage prog set type fd m source).machine_of := by
  unfold dispatch_stage
  by_cases hset : FD_ISSET fd set = true
  · rw [if_pos hset]
    have key : ∀ j, machine.untouched prog m
        (outcome.machine_of (match select_reactor.invoke prog m j fd type with
          | .returned m3 => .returned (m3, some j)
          | .failed f m3 => .failed f m3)) := by
      intro j
      have h := invoke_untouched prog m j fd type
      cases hinv : select_reactor.invoke prog m j fd type with
      | returned m3 => rw [hinv] at h; exact h
      | failed f m3 => rw [hinv] at h; exact h
    cases source with
    | some j => exact key j
    | none =>
      cases hf : m.reactor.registry_.find fd with
      | none => exact untouched_refl prog m
      | some j => exact key j
  · rw [if_neg hset]
    exact untouched_refl prog m

/-- The body of the dispatch loop is its three blocks in a row. -/
theorem dispatch_fd_stages (prog : Nat → List registration_op)
    (read_set write_set except_set : fd_set) (fd : Int) (m : machine) :
    select_reactor.dispatch_fd prog read_set write_set except_set fd m =
      match dispatch_stage prog read_set .read fd m none with
      | .failed f m1 => .failed f m1
      | .returned (m1, source) =>
        match dispatch_stage prog write_set .write fd m1 source with
        | .failed f m2 => .failed f m2
        | .returned (m2, source2) => dispatch_stage prog except_set .except fd m2 source2 := by
  have hread : dispatch_stage prog read_set .read fd m none =
      (if FD_ISSET fd read_set then
        match m.reactor.registry_.find fd with
        | none => .failed .assertion_failed m
        | some source =>
          match select_reactor.invoke prog m source fd .read with
          | .returned m1 => .returned (m1, some source)
          | .failed f m1 => .failed f m1
      else .returned (m, none)) := by
    unfold dispatch_stage
    by_cases hset : FD_ISSET fd read_set = true
    · rw [if_pos hset, if_pos hset]
      cases m.reactor.registry_.find fd <;> rfl
    · rw [if_neg hset, if_neg hset]
  unfold select_reactor.dispatch_fd
  rw [hread]
  simp only []
  generalize (if FD_ISSET fd read_set = true then
      match m.reactor.registry_.find fd with
      | none => outcome.failed Fault.assertion_failed m
      | some source =>
        match select_reactor.invoke prog m source fd event_type.read with
        | .returned m1 => outcome.returned (m1, some source)
        | .failed f m1 => outcome.failed f m1
    else outcome.returned (m, none)) = X
  cases X with
  | failed f m1 => rfl
  | returned p =>
    obtain ⟨m1, source⟩ := p
    rfl

theorem dispatch_fd_untouched (prog : Nat → List registration_op)
    (read_set write_set except_set : fd_set) (fd : Int) (m : machine) :
    machine.untouched prog m
      (select_reactor.dispatch_fd prog read_set write_set except_set fd m).machine_of := by
  rw [dispatch_fd_stages]
  have h1 := dispatch_stage_untouched prog read_set .read fd m none
  cases hr : dispatch_stage prog read_set .read fd m none with
  | failed f m1 => rw [hr] at h1; exact h1
  | returned p1 =>
    obtain ⟨m1, source⟩ := p1
    rw [hr] at h1
    have h2 := dispatch_stage_untouched prog write_set .write fd m1 source
    simp only
    cases hw : dispatch_stage prog write_set .write fd m1 source with
    | failed f m2 => rw [hw] at h2; exact untouched_trans h1 h2
    | returned p2 =>
      obtain ⟨m2, source2⟩ := p2
      rw [hw] at h2
      exact untouched_trans (untouched_trans h1 h2)
        (dispatch_stage_untouched prog except_set .except fd m2 source2)

theorem scan_untouched (prog : Nat → List registration_op)
    (read_set write_set except_set : fd_set) (fuel : Nat) :
    ∀ (fd : Nat) (result : Int) (m : machine),
      machine.untouched prog m
        (select_reactor.scan prog read_set write_set except_set fuel fd result m).final := by
  induction fuel with
  | zero => intro fd result m; exact untouched_refl prog m
  | succ fuel ih =>
    intro fd result m
    unfold select_reactor.scan
    cases hM : m.reactor.maxfd_ with
    | none => exact untouched_refl prog m
    | some maxfd =>
      simp only
      by_cases hcond : (fd : Int) ≤ maxfd ∧ result ≠ 0
      · rw [if_pos hcond]
        have hd := dispatch_fd_untouched prog read_set write_set except_set fd m
        cases hdisp : select_reactor.dispatch_fd prog read_set write_set except_set fd m with
        | failed f m1 => rw [hdisp] at hd; exact hd
        | returned p =>
          obtain ⟨m1, source⟩ := p
          rw [hdisp] at hd
          exact untouched_trans hd (ih _ _ m1)
      · rw [if_neg hcond]
        exact untouched_refl prog m

/-- One `wait_for_events` call, whatever `::select` does: the trace starts empty, and if
no callback in it makes a call on the reactor, the reactor is left as the call prepared
it. -/
theorem wait_for_events_untouched (select : select_call → select_return)
    (prog : Nat → List registration_op) (r : select_reactor)
    (H : ∀ i ∈ (select_reactor.wait_for_events select prog r).final.invoked,
      prog i.callback = []) :
    (select_reactor.wait_for_events select prog r).final.reactor = r.prepared := by
  revert H
  unfold select_reactor.wait_for_events
  have h1 : (if r.maxfd_.isNone then r.recache_max_fd else r) = r.prepared := rfl
  simp only [h1]
  cases hM : r.prepared.maxfd_ with
  | none => intro _; rfl
  | some maxfd =>
    simp only
    split
    · intro _; rfl
    · intro H
      exact (scan_untouched prog _ _ _ _ 0 _ _).2 H

/-- C21: for every reactor state whose cached maximum is known to be `m`, every kind and
every source with a descriptor `d` in the bitmap range, registering a (non-empty) callback
returns and leaves the cached maximum at `max m d`. -/
theorem register_raises_cached_maximum (type : event_type) (r : select_reactor) (source : Nat)
    (s : event_source) (m : Int) (c : Nat) (hm : r.maxfd_ = some m)
    (hs : r.registry_.objects[source]? = some s) (h0 : 0 ≤ s.fd) (h1 : s.fd < FD_SETSIZE) :
    ∃ r1, r.register type source (some c) = .ok r1 ∧ r1.maxfd_ = some (max m s.fd) := by
  obtain ⟨registry, hreg⟩ :=
    @event_source_registry.registry_register_callback_total type r.registry_ source s
      (some c) hs
  have hlt : source < r.registry_.objects.length := by
    rcases List.getElem?_eq_some.mp hs with ⟨hlt, _⟩; exact hlt
  obtain ⟨s', hs', hcase⟩ := event_source_registry.registry_register_callback_ok hreg
  rw [hs] at hs'
  obtain rfl : s = s' := Option.some.inj hs'
  have hs1 : ∃ s1, registry.objects[source]? = some s1 ∧ s1.fd = s.fd := by
    rcases hcase with ⟨_, _, rfl⟩ | ⟨_, rfl⟩
    · exact ⟨({ s with linked := true } : event_source).set_callback type (some c),
        by simp [hlt], event_source_registry.set_callback_fd _ _ _⟩
    · exact ⟨s.set_callback type (some c), by simp [hlt],
        event_source_registry.set_callback_fd _ _ _⟩
  obtain ⟨s1, hs1, hfd⟩ := hs1
  refine ⟨_, (select_reactor.reactor_register_eq type r source (some c)).trans
    (select_reactor.reactor_register_callback_of_registry hreg hs1 (by rw [hfd]; exact h0)
      (by rw [hfd]; exact h1)), ?_⟩
  rw [select_reactor.set_interest_set_maxfd]
  simp only [hm, hfd]
  simp only [select_reactor.cached_after_register, Option.some.injEq]
  split
  · rw [max_eq_right]; omega
  · rw [max_eq_left]; omega

/-- C21 at a concrete input: descriptors 3 and 7 are registered for read, the cached
maximum is 7; a write callback on the source of 3 leaves it at 7, and on a fresh reactor
with cached maximum 3 a read callback on the source of 7 raises it to 7. -/
theorem register_raises_cached_maximum_witness :
    counters_example.maxfd_ = some 7 ∧
    counters_example.registry_.objects[0]? = some ⟨3, some 10, none, none, true⟩ ∧
    (counters_example.register_write_callback 0 (some 12)).toOption.map
        (fun r1 => r1.maxfd_) = some (some 7) ∧
    ∃ r1, counters_example.register .write 0 (some 12) = .ok r1 ∧
      r1.maxfd_ = some (max 7 (event_source.fd ⟨3, some 10, none, none, true⟩)) :=
  ⟨rfl, rfl, by decide,
    register_raises_cached_maximum .write counters_example 0 ⟨3, some 10, none, none, true⟩ 7
      12 rfl rfl (by decide) (by decide)⟩

/-- C22: for every reactor state, every behaviour of `::select` (result and the three sets
it writes) and every behaviour of the callbacks: if none of the callbacks that the call
dispatched makes a call on the reactor, then after `wait_for_events` (returned or thrown)
the registry and the read, write and except interest bitmaps are those before the call. -/
theorem wait_for_events_keeps_interest_state (select : select_call → select_return)
    (prog : Nat → List registration_op) (r : select_reactor)
    (H : ∀ i ∈ (select_reactor.wait_for_events select prog r).final.invoked,
      prog i.callback = []) :
    (select_reactor.wait_for_events select prog r).final.reactor.registry_ = r.registry_ ∧
    (select_reactor.wait_for_events select prog r).final.reactor.read_set_ = r.read_set_ ∧
    (select_reactor.wait_for_events select prog r).final.reactor.write_set_ = r.write_set_ ∧
    (select_reactor.wait_for_events select prog r).final.reactor.except_set_ =
      r.except_set_ := by
  rw [wait_for_events_untouched select prog r H]
  exact ⟨select_reactor.prepared_registry r, select_reactor.prepared_interest_set r .read,
    select_reactor.prepared_interest_set r .write,
    select_reactor.prepared_interest_set r .except⟩

/-- C22 at a concrete input: descriptors 3 and 7 registered for read, `::select` reports
everything it was given as ready, the callbacks make no call on the reactor. -/
theorem wait_for_events_keeps_interest_state_witness :
    (select_reactor.wait_for_events select_all_ready (fun _ => []) counters_example).final.invoked
      = [⟨3, .read, 10⟩, ⟨7, .read, 11⟩] ∧
    (select_reactor.wait_for_events select_all_ready (fun _ => [])
      counters_example).final.reactor.registry_ = counters_example.registry_ ∧
    (select_reactor.wait_for_events select_all_ready (fun _ => [])
      counters_example).final.reactor.read_set_ = counters_example.read_set_ ∧
    (select_reactor.wait_for_events select_all_ready (fun _ => [])
      counters_example).final.reactor.write_set_ = counters_example.write_set_ ∧
    (select_reactor.wait_for_events select_all_ready (fun _ => [])
      counters_example).final.reactor.except_set_ = counters_example.except_set_ :=
  ⟨by decide,
    wait_for_events_keeps_interest_state select_all_ready (fun _ => []) counters_example
      (fun _ _ => rfl)⟩

/-- C23: for all event sources `a` and `b`, whatever their callbacks and hook state,
`event_source::equal` holds exactly when the descriptors are equal; `event_source::hash` is
a function of the descriptor alone, and sources that compare equal have the same hash. -/
theorem equal_and_hash_depend_on_fd_only :
    (∀ a b : event_source, event_source.equal a b = true ↔ a.fd = b.fd) ∧
    (∃ f : Int → Nat, ∀ a : event_source, a.hash = f a.fd) ∧
    (∀ a b : event_source, event_source.equal a b = true → a.hash = b.hash) := by
  refine ⟨fun a b => by simp [event_source.equal, event_source.fd],
    ⟨fun fd => (fd % 2 ^ 64).toNat, fun a => rfl⟩, fun a b h => ?_⟩
  have hfd : a.fd_ = b.fd_ := by simpa [event_source.equal] using h
  simp [event_source.hash, hfd]

/-- C23 at a concrete input: two sources with descriptor 5 and different callbacks, and a
source with descriptor 6. -/
theorem equal_and_hash_depend_on_fd_only_witness :
    event_source.equal ⟨5, some 1, none, none, true⟩ ⟨5, none, some 2, none, false⟩ = true ∧
    event_source.hash ⟨5, some 1, none, none, true⟩ =
      event_source.hash ⟨5, none, some 2, none, false⟩ ∧
    event_source.equal ⟨5, some 1, none, none, true⟩ ⟨6, some 1, none, none, true⟩ = false :=
  ⟨by decide,
    equal_and_hash_depend_on_fd_only.2.2 ⟨5, some 1, none, none, true⟩
      ⟨5, none, some 2, none, false⟩ (by decide), by decide⟩

end meridian

namespace meridian

/-! ## Printing an IPv4 address and parsing it back -/

set_option maxRecDepth 1000000 in
theorem byte_digits_ok_fin : ∀ b : Fin 256, byte_digits_ok b.val := by decide

theorem byte_digits_ok_of_lt {b : Nat} (hb : b < 256) : byte_digits_ok b :=
  byte_digits_ok_fin ⟨b, hb⟩

theorem digit_value_of_isdigit {c : Char} (h : isdigit c = true) :
    digit_value c = some (c.toNat - 48) ∧ c.toNat - 48 < 10 := by
  simp only [isdigit, decide_eq_true_eq] at h
  refine ⟨by simp [digit_value, h], by omega⟩

/-- The digit loop of `strtoul` in base 10 on a string of digits followed by the end of
the input or a dot. -/
theorem strtoul_digits_append (rest : List Char)
    (hrest : rest.head? = none ∨ rest.head? = some '.') :
    ∀ (ds : List Char) (acc : Nat), (∀ c ∈ ds, isdigit c = true) →
      strtoul_digits 10 (ds ++ rest) acc =
        (ds.foldl (fun acc c => acc * 10 + (c.toNat - 48)) acc, rest) := by
  intro ds
  induction ds with
  | nil =>
    intro acc _
    cases rest with
    | nil => rfl
    | cons c cs =>
      have hc : c = '.' := by simpa using hrest
      subst hc
      have hd : digit_value '.' = none := by decide
      simp [strtoul_digits, hd]
  | cons d ds ih =>
    intro acc hds
    obtain ⟨hv, hlt⟩ := digit_value_of_isdigit (hds d (List.mem_cons_self _ _))
    simp only [List.cons_append, strtoul_digits, hv, hlt, if_true, List.foldl_cons]
    exact ih _ (fun c hc => hds c (List.mem_cons_of_mem _ hc))

/-- The call of `strtoul` on the decimal digits of a byte followed by the end of the input
or a dot. -/
theorem strtoul_byte {b : Nat} (hb : b < 256) (rest : List Char)
    (hrest : rest.head? = none ∨ rest.head? = some '.') :
    strtoul (Nat.toDigits 10 b ++ rest) = (b, rest) := by
  obtain ⟨hne, hhead, hdig, hval⟩ := byte_digits_ok_of_lt hb
  by_cases h0 : b = 0
  · subst h0
    have hz : Nat.toDigits 10 0 = ['0'] := by decide
    rw [hz]
    have hd0 : digit_value '0' = some 0 := by decide
    have hd : digit_value '.' = none := by decide
    cases rest with
    | nil => simp [strtoul, strtoul_digits, hd0]
    | cons c cs =>
      have hc : c = '.' := by simpa using hrest
      subst hc
      simp [strtoul, strtoul_digits, hd0, hd]
  · have hh : (Nat.toDigits 10 b ++ rest).head? ≠ some '0' := by
      cases hD : Nat.toDigits 10 b with
      | nil => exact absurd hD hne
      | cons c cs =>
        have := hhead h0
        rw [hD] at this
        simpa using this
    unfold strtoul
    rw [if_neg hh, strtoul_digits_append rest hrest _ _ hdig, hval]

/-- One round of the loop of `inet_aton` on the decimal digits of a byte followed by the
end of the input or a dot. -/
theorem inet_aton_loop_byte (rounds : Nat) {b : Nat} (hb : b < 256) (rest : List Char)
    (parts : List Nat) (hrest : rest.head? = none ∨ rest.head? = some '.') :
    inet_aton_loop (rounds + 1) (Nat.toDigits 10 b ++ rest) parts =
      if rest.head? = some '.' then
        if parts.length > 2 then none else inet_aton_loop rounds rest.tail (parts ++ [b])
      else some (parts, b, rest) := by
  obtain ⟨hne, _, hdig, _⟩ := byte_digits_ok_of_lt hb
  have hst := strtoul_byte hb rest hrest
  cases hD : Nat.toDigits 10 b with
  | nil => exact absurd hD hne
  | cons c cs =>
    have hc : isdigit c = true := hdig c (by rw [hD]; exact List.mem_cons_self _ _)
    rw [hD] at hst
    simp only [List.cons_append] at hst ⊢
    conv_lhs => unfold inet_aton_loop
    simp only [hc, if_true, hst]
    have h1 : ¬ b > 0xffffffff := by omega
    have h2 : ¬ b > 0xff := by omega
    simp only [h1, h2, if_false, or_false]

/-- The function `inet_aton` on four bytes printed in dotted decimal. -/
theorem inet_aton_dotted {x0 x1 x2 x3 : Nat} (h0 : x0 < 256) (h1 : x1 < 256) (h2 : x2 < 256)
    (h3 : x3 < 256) :
    inet_aton (Nat.toDigits 10 x0 ++ ['.'] ++ Nat.toDigits 10 x1 ++ ['.'] ++
      Nat.toDigits 10 x2 ++ ['.'] ++ Nat.toDigits 10 x3) = some [x0, x1, x2, x3] := by
  have hform : Nat.toDigits 10 x0 ++ ['.'] ++ Nat.toDigits 10 x1 ++ ['.'] ++
      Nat.toDigits 10 x2 ++ ['.'] ++ Nat.toDigits 10 x3 =
      Nat.toDigits 10 x0 ++ ('.' :: (Nat.toDigits 10 x1 ++ ('.' :: (Nat.toDigits 10 x2 ++
        ('.' :: (Nat.toDigits 10 x3 ++ [])))))) := by
    simp [List.append_assoc]
  rw [hform]
  unfold inet_aton
  rw [inet_aton_loop_byte 3 h0 ('.' :: (Nat.toDigits 10 x1 ++ ('.' :: (Nat.toDigits 10 x2 ++
    ('.' :: (Nat.toDigits 10 x3 ++ [])))))) [] (.inr rfl)]
  simp only [List.head?_cons, if_true, List.tail_cons, List.length_nil, List.nil_append]
  rw [if_neg (by decide), inet_aton_loop_byte 2 h1 ('.' :: (Nat.toDigits 10 x2 ++
    ('.' :: (Nat.toDigits 10 x3 ++ [])))) [x0] (.inr rfl)]
  simp only [List.head?_cons, if_true, List.tail_cons, List.length_singleton,
    List.singleton_append]
  rw [if_neg (by decide), inet_aton_loop_byte 1 h2 ('.' :: (Nat.toDigits 10 x3 ++ []))
    [x0, x1] (.inr rfl)]
  simp only [List.head?_cons, if_true, List.tail_cons, List.length_cons, List.length_nil,
    List.cons_append, List.nil_append]
  rw [if_neg (by decide), inet_aton_loop_byte 0 h3 [] [x0, x1, x2] (.inl rfl)]
  have hx3 : ¬ x3 > 0xff := by omega
  have hb : htonl_bytes x3 = [0, 0, 0, x3] := by
    simp only [htonl_bytes]
    rw [Nat.div_eq_of_lt (by omega), Nat.div_eq_of_lt (by omega), Nat.div_eq_of_lt (by omega),
      Nat.mod_eq_of_lt h3]
  simp [hx3, hb]

end meridian

namespace meridian

theorem wf_byte_lt {a : ip_address} (hw : a.wf) (i : Nat) : a.byte i < 256 := by
  unfold ip_address.byte
  by_cases hi : i < a.addr_.length
  · rw [List.getD_eq_getElem _ _ hi]
    exact hw.2.1 _ (List.getElem_mem _)
  · rw [List.getD_eq_default _ _ (by omega)]
    decide

/-- The constructor from a string on an IPv4 address printed in dotted decimal, whatever
the address and whatever `getaddrinfo` does: `inet_aton` reads the four bytes back, and
the address that comes out of `parse_IPv4_address` has the family IPv4 and sixteen zero
bytes. -/
theorem from_string_of_printed_address (getaddrinfo : List Char → Option (List Nat × Nat))
    (a : ip_address) (hw : a.wf) (h4 : a.family = .IPv4) :
    ∃ s : List Char,
      a.to_string = .ok s ∧
      s = lexical_cast_string (a.byte 0) ++ ['.'] ++ lexical_cast_string (a.byte 1) ++ ['.']
        ++ lexical_cast_string (a.byte 2) ++ ['.'] ++ lexical_cast_string (a.byte 3) ∧
      inet_aton s = some [a.byte 0, a.byte 1, a.byte 2, a.byte 3] ∧
      ip_address.from_string getaddrinfo s =
        .ok { family_ := .IPv4, addr_ := ip_address.zero_addr, scope_ := 0 } := by
  have hb0 := wf_byte_lt hw 0
  have hb1 := wf_byte_lt hw 1
  have hb2 := wf_byte_lt hw 2
  have hb3 := wf_byte_lt hw 3
  obtain ⟨fam, addr, scope⟩ := a
  obtain ⟨hlen, _, _⟩ := hw
  simp only [ip_address.family] at h4
  subst h4
  simp only at hlen
  rcases addr with _ | ⟨x0, _ | ⟨x1, _ | ⟨x2, _ | ⟨x3, rest⟩⟩⟩⟩
  · simp at hlen
  · simp at hlen
  · simp at hlen
  · simp at hlen
  simp only [ip_address.byte, List.getD_cons_zero, List.getD_cons_succ] at hb0 hb1 hb2 hb3 ⊢
  have haton := inet_aton_dotted hb0 hb1 hb2 hb3
  have hne : (Nat.toDigits 10 x0 ++ ['.'] ++ Nat.toDigits 10 x1 ++ ['.'] ++
      Nat.toDigits 10 x2 ++ ['.'] ++ Nat.toDigits 10 x3).isEmpty = false := by
    simp
  refine ⟨_, ?_, rfl, ?_, ?_⟩
  · simp [ip_address.to_string, ip_address.operator_lshift, ip_address.family,
      ip_address.byte, lexical_cast_string]
  · simpa [lexical_cast_string] using haton
  · simp only [lexical_cast_string, ip_address.from_string, ip_address.parse_address,
      ip_address.parse_IPv4_address, hne, haton]
    rfl

/-- C24, the code at the failing input: the `ip_address loop4("127.0.0.1")` of the tests.
The address `127.0.0.1` prints as "127.0.0.1", `inet_aton` reads the bytes 127, 0, 0, 1
from that string and the temporary `ip_address(&ia, sizeof(ia))` holds them.  The
`boost::optional` that `parse_IPv4_address` returns is move-constructed from the
temporary, and the move constructor does not write the bytes: the address constructed
from the string is `0.0.0.0`.  It prints as "0.0.0.0" and does not compare equal to
`127.0.0.1`. -/
theorem parsed_address_loses_its_bytes :
    loopback4_example.to_string = .ok "127.0.0.1".toList ∧
    inet_aton "127.0.0.1".toList = some [127, 0, 0, 1] ∧
    ip_address.from_bytes [127, 0, 0, 1] 4 0 = .ok loopback4_example ∧
    ip_address.from_string getaddrinfo_none "127.0.0.1".toList =
      .ok { family_ := .IPv4, addr_ := [0, 0, 0, 0, 0, 0, 0, 0, 0, 0, 0, 0, 0, 0, 0, 0],
            scope_ := 0 } ∧
    ip_address.to_string
        { family_ := .IPv4, addr_ := [0, 0, 0, 0, 0, 0, 0, 0, 0, 0, 0, 0, 0, 0, 0, 0],
          scope_ := 0 } = .ok "0.0.0.0".toList ∧
    ip_address.operator_eq
        { family_ := .IPv4, addr_ := [0, 0, 0, 0, 0, 0, 0, 0, 0, 0, 0, 0, 0, 0, 0, 0],
          scope_ := 0 } loopback4_example = false ∧
    ip_address.is_loopback
        { family_ := .IPv4, addr_ := [0, 0, 0, 0, 0, 0, 0, 0, 0, 0, 0, 0, 0, 0, 0, 0],
          scope_ := 0 } = false := by
  refine ⟨rfl, by decide, rfl, rfl, rfl, by decide, by decide⟩

end meridian

namespace meridian

/-! ## The stream operators of `ip_address_family`; the wildcard constructor -/

/-- C25: for each family `f`, reading with `operator>>` the text that `operator<<` wrote
for `f` leaves the stream without `failbit` and yields `f`, whatever the target held; and
for every stream, if the token that `operator>>` reads is neither "IPv4" nor "IPv6", the
stream has `failbit` set afterwards and the target family is unchanged. -/
theorem family_stream_operators_round_trip :
    (∀ f f0 : ip_address_family,
      ip_address_family.operator_rshift
          (istream.of_string (ip_address_family.operator_lshift [] f)) f0 =
        ({ buffer := [], failbit := false, eofbit := true, badbit := false }, f)) ∧
    (∀ (is : istream) (f0 : ip_address_family),
      is.extract_string.1 ≠ "IPv4".toList → is.extract_string.1 ≠ "IPv6".toList →
        (ip_address_family.operator_rshift is f0).1.failbit = true ∧
        (ip_address_family.operator_rshift is f0).1.fail = true ∧
        (ip_address_family.operator_rshift is f0).2 = f0) := by
  refine ⟨fun f f0 => by cases f <;> cases f0 <;> decide, fun is f0 h4 h6 => ?_⟩
  have e : ip_address_family.operator_rshift is f0 =
      ({ is.extract_string.2 with failbit := true }, f0) := by
    unfold ip_address_family.operator_rshift
    dsimp only
    rw [if_neg h4, if_neg h6]
  rw [e]
  simp [istream.fail]

/-- C25 at concrete inputs: the token "IPv5" is rejected and the target keeps its value;
and the scenario of the tests, both families written with a space between them and read
back one after the other. -/
theorem family_stream_operators_round_trip_witness :
    (istream.of_string "IPv5 IPv4".toList).extract_string.1 = "IPv5".toList ∧
    ((ip_address_family.operator_rshift (istream.of_string "IPv5 IPv4".toList)
        ip_address_family.IPv6).1.failbit = true ∧
      (ip_address_family.operator_rshift (istream.of_string "IPv5 IPv4".toList)
        ip_address_family.IPv6).1.fail = true ∧
      (ip_address_family.operator_rshift (istream.of_string "IPv5 IPv4".toList)
        ip_address_family.IPv6).2 = ip_address_family.IPv6) ∧
    ip_address_family.operator_lshift
        (ip_address_family.operator_lshift [] ip_address_family.IPv4 ++ [' '])
        ip_address_family.IPv6 = "IPv4 IPv6".toList ∧
    ip_address_family.operator_rshift (istream.of_string "IPv4 IPv6".toList)
        ip_address_family.IPv6 =
      ({ buffer := " IPv6".toList, failbit := false, eofbit := false, badbit := false },
        ip_address_family.IPv4) ∧
    ip_address_family.operator_rshift
        { buffer := " IPv6".toList, failbit := false, eofbit := false, badbit := false }
        ip_address_family.IPv4 =
      ({ buffer := [], failbit := false, eofbit := true, badbit := false },
        ip_address_family.IPv6) :=
  ⟨by decide,
    family_stream_operators_round_trip.2 (istream.of_string "IPv5 IPv4".toList)
      ip_address_family.IPv6 (by decide) (by decide),
    by decide, by decide, by decide⟩

/-- C26: for each family `f`, `ip_address(f)` has family `f`, scope 0, is a wildcard
address, has length 4 (IPv4) or 16 (IPv6), `af()` is `AF_INET` or `AF_INET6`, `addr4()` is
not null exactly for IPv4 and `addr6()` exactly for IPv6, and it prints as "0.0.0.0" or
"::". -/
theorem wildcard_constructor (f : ip_address_family) :
    (ip_address.from_family f).family = f ∧ (ip_address.from_family f).scope = 0 ∧
    (ip_address.from_family f).is_wildcard = true ∧
    (ip_address.from_family f).length =
      (match f with
        | .IPv4 => 4
        | .IPv6 => 16) ∧
    (ip_address.from_family f).af =
      (match f with
        | .IPv4 => AF_INET
        | .IPv6 => AF_INET6) ∧
    ((ip_address.from_family f).addr4.isSome = true ↔ f = .IPv4) ∧
    ((ip_address.from_family f).addr6.isSome = true ↔ f = .IPv6) ∧
    (ip_address.from_family f).to_string =
      .ok (match f with
        | .IPv4 => "0.0.0.0".toList
        | .IPv6 => "::".toList) := by
  cases f
  · exact ⟨rfl, rfl, by decide, rfl, rfl, by decide, by decide, rfl⟩
  · exact ⟨rfl, rfl, by decide, rfl, rfl, by decide, by decide, rfl⟩

/-! ## Classification of addresses -/

theorem ntohl_s6_addr32_eq_zero {a : ip_address} {i : Nat} (h : a.ntohl_s6_addr32 i = 0) :
    a.byte (4 * i) = 0 ∧ a.byte (4 * i + 1) = 0 ∧ a.byte (4 * i + 2) = 0 ∧
      a.byte (4 * i + 3) = 0 := by
  unfold ip_address.ntohl_s6_addr32 at h
  omega

/-- C27: for every IPv6 address (16 bytes, byte values below 256) that `is_IPv4_mapped()`
or `is_IPv4_compatible()` accepts: `is_unicast()` is true, exactly one of
`is_IPv4_mapped()` and `is_IPv4_compatible()` is true, and the other twelve
classification functions are false. -/
theorem IPv4_mapped_or_compatible_classification (a : ip_address) (hw : a.wf)
    (h6 : a.family = .IPv6)
    (h : a.is_IPv4_mapped = true ∨ a.is_IPv4_compatible = true) :
    a.is_unicast = true ∧ a.is_IPv4_mapped = !a.is_IPv4_compatible ∧
    a.is_wildcard = false ∧ a.is_broadcast = false ∧ a.is_loopback = false ∧
    a.is_multicast = false ∧ a.is_link_local = false ∧ a.is_site_local = false ∧
    a.is_well_known_mc = false ∧ a.is_node_local_mc = false ∧
    a.is_link_local_mc = false ∧ a.is_site_local_mc = false ∧
    a.is_org_local_mc = false ∧ a.is_global_mc = false := by
  have hpre : a.ntohl_s6_addr32 0 = 0 ∧ a.ntohl_s6_addr32 1 = 0 ∧
      ((a.ntohl_s6_addr32 2 = 0xffff) ∨ (a.ntohl_s6_addr32 2 = 0 ∧ a.ntohl_s6_addr32 3 > 1)) := by
    rcases h with h | h
    · simp only [ip_address.is_IPv4_mapped, h6, ip_address.IN6_IS_ADDR_V4MAPPED,
        decide_eq_true_eq] at h
      exact ⟨h.1, h.2.1, .inl h.2.2⟩
    · simp only [ip_address.is_IPv4_compatible, h6, ip_address.IN6_IS_ADDR_V4COMPAT,
        decide_eq_true_eq] at h
      exact ⟨h.1, h.2.1, .inr ⟨h.2.2.1, h.2.2.2⟩⟩
  obtain ⟨hn0, hn1, hcase⟩ := hpre
  obtain ⟨hb0, hb1, hb2, hb3⟩ := ntohl_s6_addr32_eq_zero hn0
  simp only [Nat.mul_zero, Nat.zero_add] at hb0 hb1 hb2 hb3
  have hmc : a.IN6_IS_ADDR_MULTICAST = false := by
    simp [ip_address.IN6_IS_ADDR_MULTICAST, hb0]
  have hsl : a.IN6_IS_ADDR_SITELOCAL = false := by
    simp [ip_address.IN6_IS_ADDR_SITELOCAL, hn0]
  have hw0 : a.ntohs_words 0 = 0 := by
    simp [ip_address.ntohs_words, hb0, hb1]
  have hwild : a.is_wildcard = false := by
    simp only [ip_address.is_wildcard, h6, decide_eq_false_iff_not]
    have l8 := wf_byte_lt hw 8
    have l9 := wf_byte_lt hw 9
    have l10 := wf_byte_lt hw 10
    have l11 := wf_byte_lt hw 11
    have l12 := wf_byte_lt hw 12
    have l13 := wf_byte_lt hw 13
    have l14 := wf_byte_lt hw 14
    have l15 := wf_byte_lt hw 15
    simp only [ip_address.ntohs_words, Nat.reduceMul, Nat.reduceAdd]
    simp only [ip_address.ntohl_s6_addr32, Nat.reduceMul, Nat.reduceAdd] at hcase
    omega
  have hloop : a.IN6_IS_ADDR_LOOPBACK = false := by
    simp only [ip_address.IN6_IS_ADDR_LOOPBACK, decide_eq_false_iff_not]
    omega
  have hexcl : a.IN6_IS_ADDR_V4MAPPED = !a.IN6_IS_ADDR_V4COMPAT := by
    rcases hcase with hm | ⟨hc2, hc3⟩
    · simp [ip_address.IN6_IS_ADDR_V4MAPPED, ip_address.IN6_IS_ADDR_V4COMPAT, hn0, hn1, hm]
    · simp [ip_address.IN6_IS_ADDR_V4MAPPED, ip_address.IN6_IS_ADDR_V4COMPAT, hn0, hn1, hc2,
        hc3]
  refine ⟨?_, ?_, hwild, ?_, ?_, ?_, ?_, ?_, ?_, ?_, ?_, ?_, ?_, ?_⟩
  · simp [ip_address.is_unicast, hwild, ip_address.is_broadcast, ip_address.is_multicast, h6,
      hmc]
  · simp only [ip_address.is_IPv4_mapped, ip_address.is_IPv4_compatible, h6]
    exact hexcl
  · simp [ip_address.is_broadcast, h6]
  · simp [ip_address.is_loopback, h6, hloop]
  · simp [ip_address.is_multicast, h6, hmc]
  · simp [ip_address.is_link_local, h6, hsl]
  · simp [ip_address.is_site_local, h6, hsl]
  · simp [ip_address.is_well_known_mc, h6, hw0]
  · simp [ip_address.is_node_local_mc, h6, ip_address.IN6_IS_ADDR_MC_NODELOCAL, hmc]
  · simp [ip_address.is_link_local_mc, h6, ip_address.IN6_IS_ADDR_MC_LINKLOCAL, hmc]
  · simp [ip_address.is_site_local_mc, h6, ip_address.IN6_IS_ADDR_MC_SITELOCAL, hmc]
  · simp [ip_address.is_org_local_mc, h6, ip_address.IN6_IS_ADDR_MC_ORGLOCAL, hmc]
  · simp [ip_address.is_global_mc, h6, ip_address.IN6_IS_ADDR_MC_GLOBAL, hmc]

/-- C27 at the witnesses of the tests: the bytes of `::ffff:192.0.2.128`; the theorem at
`::192.0.2.128` is evaluated next to it. -/
theorem IPv4_mapped_or_compatible_classification_witness :
    mapped_example.wf ∧ mapped_example.family = .IPv6 ∧
    mapped_example.is_IPv4_mapped = true ∧ mapped_example.is_IPv4_compatible = false ∧
    compatible_example.is_IPv4_mapped = false ∧
    compatible_example.is_IPv4_compatible = true ∧ compatible_example.is_unicast = true ∧
    compatible_example.is_wildcard = false ∧ compatible_example.is_loopback = false ∧
    (mapped_example.is_unicast = true ∧
      mapped_example.is_IPv4_mapped = !mapped_example.is_IPv4_compatible ∧
      mapped_example.is_wildcard = false ∧ mapped_example.is_broadcast = false ∧
      mapped_example.is_loopback = false ∧ mapped_example.is_multicast = false ∧
      mapped_example.is_link_local = false ∧ mapped_example.is_site_local = false ∧
      mapped_example.is_well_known_mc = false ∧ mapped_example.is_node_local_mc = false ∧
      mapped_example.is_link_local_mc = false ∧ mapped_example.is_site_local_mc = false ∧
      mapped_example.is_org_local_mc = false ∧ mapped_example.is_global_mc = false) :=
  ⟨by decide, rfl, by decide, by decide, by decide, by decide, by decide, by decide,
    by decide,
    IPv4_mapped_or_compatible_classification mapped_example (by decide) rfl
      (.inl (by decide))⟩

/-- C28, the code at the failing input: the IPv4 address `127.0.0.1` is not an IPv6
address, and `is_IPv4_mapped()` returns true for it, as for the IPv4 wildcard; on IPv6
addresses the function is the macro `IN6_IS_ADDR_V4MAPPED`. -/
theorem is_IPv4_mapped_accepts_IPv4_address :
    loopback4_example.family = .IPv4 ∧ loopback4_example.is_IPv4_mapped = true ∧
    (ip_address.from_family .IPv4).is_IPv4_mapped = true ∧
    mapped_example.is_IPv4_mapped = true ∧ compatible_example.is_IPv4_mapped = false := by
  decide

/-- C29, the code at the failing inputs: `169.254.1.1` lies in `169.254.0.0/16` and
`is_link_local()` returns false; `10.0.0.1` lies outside and it returns true.  On both
the function returns what `is_site_local()` returns. -/
theorem is_link_local_tests_site_local_ranges :
    link_local4_example.family = .IPv4 ∧
    (link_local4_example.byte 0 = 169 ∧ link_local4_example.byte 1 = 254) ∧
    link_local4_example.is_link_local = false ∧
    link_local4_example.is_site_local = false ∧
    private4_example.family = .IPv4 ∧
    ¬ (private4_example.byte 0 = 169 ∧ private4_example.byte 1 = 254) ∧
    private4_example.is_link_local = true ∧ private4_example.is_site_local = true := by
  decide

/-- C30, the code at the failing input: `224.1.2.3` lies outside `224.0.0.0/24` (its
second and third bytes are not 0) and `is_link_local_mc()` returns true: the mask is
`0xFF000000`, so every address with first byte 224 is accepted. -/
theorem is_link_local_mc_accepts_outside_prefix :
    multicast4_example.family = .IPv4 ∧
    ¬ (multicast4_example.byte 0 = 224 ∧ multicast4_example.byte 1 = 0 ∧
      multicast4_example.byte 2 = 0) ∧
    multicast4_example.is_link_local_mc = true ∧
    multicast4_example.ntohl_s_addr &&& 0xFFFFFF00 ≠ 0xE0000000 := by
  decide

end meridian

namespace meridian

/-! ## Classification constants, the move constructor, the counter of the scan -/

/-- C31, the code at the failing input: the IPv4 address `224.1.2.3` has first byte 224
and `is_well_known_mc()` returns false: the mask is `0xFFFFFF00`, so only `224.0.0.x` is
accepted.  The IPv6 test `(ntohs(words[0]) & 0xFFF0) == 0xFF00` accepts `ff02::` and
rejects `ff12::`. -/
theorem is_well_known_mc_rejects_inside_prefix :
    multicast4_example.family = .IPv4 ∧ multicast4_example.byte 0 = 224 ∧
    multicast4_example.is_well_known_mc = false ∧
    ip_address.is_well_known_mc
      ⟨.IPv4, [224, 0, 0, 5, 0, 0, 0, 0, 0, 0, 0, 0, 0, 0, 0, 0], 0⟩ = true ∧
    ip_address.is_well_known_mc
      ⟨.IPv6, [0xff, 0x02, 0, 0, 0, 0, 0, 0, 0, 0, 0, 0, 0, 0, 0, 1], 0⟩ = true ∧
    ip_address.is_well_known_mc
      ⟨.IPv6, [0xff, 0x12, 0, 0, 0, 0, 0, 0, 0, 0, 0, 0, 0, 0, 0, 1], 0⟩ = false := by
  decide

/-- C32, the code at the failing input: the IPv4 address `238.1.2.3` lies between
`224.0.1.0` and `238.255.255.255` and `is_global_mc()` returns false: the upper bound in
the code is `0xEE000000`, the address `238.0.0.0`. -/
theorem is_global_mc_rejects_inside_range :
    global_multicast4_example.family = .IPv4 ∧
    (0xE0000100 ≤ global_multicast4_example.ntohl_s_addr ∧
      global_multicast4_example.ntohl_s_addr ≤ 0xEEFFFFFF) ∧
    global_multicast4_example.is_global_mc = false ∧
    ip_address.is_global_mc
      ⟨.IPv4, [238, 0, 0, 0, 0, 0, 0, 0, 0, 0, 0, 0, 0, 0, 0, 0], 0⟩ = true := by
  decide

/-- C33, the code at the failing input: the IPv4 address `127.0.0.0` lies below
`127.0.0.1` and `is_loopback()` returns true: the test is the mask `0xFF000000`.  The
witnesses of the tests, `127.0.0.1` and `::1`, are loopback addresses. -/
theorem is_loopback_accepts_network_address :
    loopback_network4_example.family = .IPv4 ∧
    ¬ (0x7F000001 ≤ loopback_network4_example.ntohl_s_addr ∧
      loopback_network4_example.ntohl_s_addr ≤ 0x7FFFFFFF) ∧
    loopback_network4_example.is_loopback = true ∧
    loopback4_example.is_loopback = true ∧ loopback6_example.is_loopback = true := by
  decide

/-- C39, the code at the failing input: the address `127.0.0.1` is moved.  The new object
has the family and the scope of the source and the address bytes `0.0.0.0`; it does not
compare equal to a copy of the source taken before the move.  The source is left as the
IPv4 wildcard. -/
theorem move_constructor_drops_address_bytes :
    (ip_address.move_constructor loopback4_example).1 =
      { family_ := .IPv4, addr_ := [0, 0, 0, 0, 0, 0, 0, 0, 0, 0, 0, 0, 0, 0, 0, 0],
        scope_ := 0 } ∧
    (ip_address.move_constructor loopback4_example).1.to_string = .ok "0.0.0.0".toList ∧
    loopback4_example.copy_constructor.to_string = .ok "127.0.0.1".toList ∧
    ip_address.operator_eq (ip_address.move_constructor loopback4_example).1
      loopback4_example.copy_constructor = false ∧
    (ip_address.move_constructor loopback4_example).2 = ip_address.from_family .IPv4 ∧
    (ip_address.move_constructor mapped_example).1.addr_ =
      [0, 0, 0, 0, 0, 0, 0, 0, 0, 0, 0, 0, 0, 0, 0, 0] := by
  refine ⟨by decide, rfl, rfl, by decide, by decide, by decide⟩

/-- C40, the code at the failing input: descriptors 3, 5 and 7 are registered, `::select`
reports the three pairs (3, read), (5, read), (5, write).  The call services the three
pairs.  Once descriptor 5 has been processed three callbacks have been invoked and the
counter is 1, not 0: the loop goes on at descriptor 6 with the counter 1, and runs its
condition for 6, 7 and 8 before it ends, where a counter of 0 would end it at 6. -/
theorem counter_decremented_once_per_descriptor :
    select_reactor.wait_for_events select_three_pairs (fun _ => []) ordering_example =
      .returned scan_after_5 ∧
    select_reactor.dispatch_fd (fun _ => []) {3, 5} {5} ∅ 5 scan_after_3 =
      .returned (scan_after_5, some 1) ∧
    scan_after_5.invoked.length = 3 ∧
    select_reactor.scan (fun _ => []) {3, 5} {5} ∅ 4 5 2 scan_after_3 =
      select_reactor.scan (fun _ => []) {3, 5} {5} ∅ 3 6 1 scan_after_5 ∧
    select_reactor.scan (fun _ => []) {3, 5} {5} ∅ 1 6 1 scan_after_5 =
      .failed .out_of_fuel scan_after_5 ∧
    select_reactor.scan (fun _ => []) {3, 5} {5} ∅ 2 6 1 scan_after_5 =
      .failed .out_of_fuel scan_after_5 ∧
    select_reactor.scan (fun _ => []) {3, 5} {5} ∅ 3 6 1 scan_after_5 =
      .returned scan_after_5 ∧
    select_reactor.scan (fun _ => []) {3, 5} {5} ∅ 1 6 0 scan_after_5 =
      .returned scan_after_5 := by
  refine ⟨rfl, rfl, rfl, rfl, rfl, rfl, rfl, rfl⟩

end meridian

namespace meridian

/-! ## `socket_address`: the host of an Internet address, copy construction -/

/-- C37, the code at the failing inputs: an Internet socket address is built from
`127.0.0.1` and port 22, and from `::1` and port 22.  For the first, `host()` hands the
whole `sockaddr_in` (16 bytes) to the constructor of `ip_address`, which takes 16 bytes
for an IPv6 address: the result is not of family IPv4 and does not compare equal to
`127.0.0.1`.  For the second, `host()` hands it 28 bytes and the constructor throws. -/
theorem host_of_inet_address_is_not_the_host :
    socket_address.create_inet_address stack_example loopback4_example 22 = .ok inet_example ∧
    inet_example.host =
      .ok { family_ := .IPv6,
            addr_ := [2, 0, 0, 22, 127, 0, 0, 1, 0xcc, 0xcc, 0xcc, 0xcc, 0xcc, 0xcc, 0xcc, 0xcc],
            scope_ := 0 } ∧
    ip_address.operator_eq
      { family_ := .IPv6,
        addr_ := [2, 0, 0, 22, 127, 0, 0, 1, 0xcc, 0xcc, 0xcc, 0xcc, 0xcc, 0xcc, 0xcc, 0xcc],
        scope_ := 0 } loopback4_example = false ∧
    socket_address.create_inet_address stack_example loopback6_example 22 =
      .ok inet6_example ∧
    inet6_example.host = .error (.exception_message "invalid socklen_t value") := by
  refine ⟨rfl, rfl, by decide, rfl, rfl⟩

/-- C38, the code at the failing input: the socket address of `127.0.0.1`, port 22, is
copied.  The copy has the length of the original and a storage of zero bytes: its port is
0, not 22, and its family is 0.  Assignment and move construction do take the storage
over. -/
theorem copy_constructor_drops_address_bytes :
    inet_example.copy_constructor.length = inet_example.length ∧
    inet_example.copy_constructor.addr_ = List.replicate 128 0 ∧
    inet_example.copy_constructor.addr_ ≠ inet_example.addr_ ∧
    inet_example.port = .ok 22 ∧ inet_example.copy_constructor.port = .ok 0 ∧
    inet_example.copy_constructor.sa_family = 0 ∧
    socket_address.assign inet_example.copy_constructor inet_example = inet_example ∧
    (socket_address.move_constructor inet_example).1 = inet_example := by
  refine ⟨rfl, by decide, by decide, rfl, rfl, by decide, by decide, by decide⟩

end meridian

namespace meridian

/-! ## Comparison of addresses -/

theorem memcmp_eq_zero_iff :
    ∀ (n : Nat) (a b : List Nat), n ≤ a.length → n ≤ b.length →
      (memcmp a b n = 0 ↔ a.take n = b.take n) := by
  intro n
  induction n with
  | zero => intro a b _ _; cases a <;> cases b <;> simp [memcmp]
  | succ n ih =>
    intro a b ha hb
    cases a with
    | nil => simp at ha
    | cons x as =>
      cases b with
      | nil => simp at hb
      | cons y bs =>
        simp only [List.length_cons, Nat.add_le_add_iff_right] at ha hb
        simp only [memcmp, List.take_succ_cons, List.cons.injEq]
        by_cases hxy : x < y
        · simp only [hxy, if_true]
          constructor
          · intro h; omega
          · intro h; omega
        · by_cases hyx : y < x
          · simp only [hxy, hyx, if_true, if_false]
            constructor
            · intro h; omega
            · intro h; omega
          · have hx : x = y := by omega
            subst hx
            simp only [lt_irrefl, if_false, true_and]
            exact ih as bs ha hb

theorem memcmp_swap : ∀ (n : Nat) (a b : List Nat), memcmp b a n = - memcmp a b n := by
  intro n
  induction n with
  | zero => intro a b; cases a <;> cases b <;> simp [memcmp]
  | succ n ih =>
    intro a b
    cases a with
    | nil => cases b <;> simp [memcmp]
    | cons x as =>
      cases b with
      | nil => simp [memcmp]
      | cons y bs =>
        simp only [memcmp]
        by_cases hxy : x < y
        · have hyx : ¬ y < x := by omega
          simp [hxy, hyx]
        · by_cases hyx : y < x
          · simp [hxy, hyx]
          · simp only [hxy, hyx, if_false]
            exact ih as bs

theorem memcmp_trans : ∀ (n : Nat) (a b c : List Nat),
    memcmp a b n < 0 → memcmp b c n < 0 → memcmp a c n < 0 := by
  intro n
  induction n with
  | zero => intro a b c h; cases a <;> cases b <;> simp [memcmp] at h
  | succ n ih =>
    intro a b c hab hbc
    cases a with
    | nil => cases b <;> simp [memcmp] at hab
    | cons x as =>
      cases b with
      | nil => simp [memcmp] at hab
      | cons y bs =>
        cases c with
        | nil => simp [memcmp] at hbc
        | cons z cs =>
          simp only [memcmp] at hab hbc ⊢
          by_cases hxy : x < y
          · by_cases hyz : y < z
            · have hxz : x < z := by omega
              simp [hxz]
            · by_cases hzy : z < y
              · simp [hyz, hzy] at hbc
              · have hxz : x < z := by omega
                simp [hxz]
          · by_cases hyx : y < x
            · simp [hxy, hyx] at hab
            · simp only [hxy, hyx, if_false] at hab
              have hx : x = y := by omega
              subst hx
              by_cases hyz : x < z
              · simp [hyz]
              · by_cases hzy : z < x
                · simp [hyz, hzy] at hbc
                · simp only [hyz, hzy, if_false] at hbc ⊢
                  exact ih as bs cs hab hbc

theorem length_eq_iff_family (a b : ip_address) : a.length = b.length ↔ a.family = b.family := by
  unfold ip_address.length ip_address.family
  cases a.family_ <;> cases b.family_ <;> simp [family_length]

/-- C34: for every IPv4 address `a` and IPv6 address `b`, `a == b` and `b == a` are false
and `a != b` and `b != a` are true; for all addresses `x`, `y`, `x != y` is the negation
of `x == y`; and for two addresses of one family (16 bytes of storage each), `x == y`
holds exactly when the first `length()` bytes are the same. -/
theorem equality_of_addresses :
    (∀ a b : ip_address, a.family = .IPv4 → b.family = .IPv6 →
      a.operator_eq b = false ∧ a.operator_ne b = true ∧
      b.operator_eq a = false ∧ b.operator_ne a = true) ∧
    (∀ x y : ip_address, x.operator_ne y = !x.operator_eq y) ∧
    (∀ x y : ip_address, x.wf → y.wf → x.family = y.family →
      (x.operator_eq y = true ↔ x.addr_.take x.length = y.addr_.take y.length)) := by
  refine ⟨fun a b ha hb => ?_, fun x y => ?_, fun x y hx hy hf => ?_⟩
  · have h1 : a.length ≠ b.length := by
      rw [Ne, length_eq_iff_family, ha, hb]; decide
    have h2 : b.length ≠ a.length := fun h => h1 h.symm
    simp [ip_address.operator_eq, ip_address.operator_ne, h1, h2]
  · unfold ip_address.operator_ne ip_address.operator_eq
    split <;> simp
  · have hl : x.length = y.length := (length_eq_iff_family x y).mpr hf
    have hx16 : x.length ≤ x.addr_.length := by
      rw [hx.1]; unfold ip_address.length; cases x.family_ <;> simp [family_length]
    have hy16 : x.length ≤ y.addr_.length := by
      rw [hy.1]; unfold ip_address.length; cases x.family_ <;> simp [family_length]
    simp only [ip_address.operator_eq, hl, if_true, decide_eq_true_eq, ip_address.addr]
    rw [← hl]
    exact memcmp_eq_zero_iff _ _ _ hx16 hy16

/-- C34 at concrete inputs: `192.0.2.128` against its IPv4-mapped and its
IPv4-compatible form, and against itself. -/
theorem equality_of_addresses_witness :
    (documentation4_example.operator_eq mapped_example = false ∧
      documentation4_example.operator_ne mapped_example = true ∧
      mapped_example.operator_eq documentation4_example = false ∧
      mapped_example.operator_ne documentation4_example = true) ∧
    documentation4_example.operator_eq compatible_example = false ∧
    documentation4_example.operator_eq documentation4_example = true ∧
    mapped_example.operator_eq compatible_example = false :=
  ⟨equality_of_addresses.1 documentation4_example mapped_example rfl rfl, by decide,
    by decide, by decide⟩

/-- C35: for all addresses `a`, `b`, `c`: exactly one of `a < b`, `a == b`, `a > b` holds;
`a <= b` is the negation of `a > b`; `a >= b` is the negation of `a < b`; `a > b` is
`b < a`; and `a < b` with `b < c` gives `a < c`. -/
theorem relational_operators_consistent (a b c : ip_address) :
    ((a.operator_lt b = true ∨ a.operator_eq b = true ∨ a.operator_gt b = true) ∧
      ¬ (a.operator_lt b = true ∧ a.operator_eq b = true) ∧
      ¬ (a.operator_lt b = true ∧ a.operator_gt b = true) ∧
      ¬ (a.operator_eq b = true ∧ a.operator_gt b = true)) ∧
    a.operator_le b = !a.operator_gt b ∧
    a.operator_ge b = !a.operator_lt b ∧
    a.operator_gt b = b.operator_lt a ∧
    (a.operator_lt b = true → b.operator_lt c = true → a.operator_lt c = true) := by
  refine ⟨?_, ?_, ?_, ?_, ?_⟩
  · unfold ip_address.operator_lt ip_address.operator_eq ip_address.operator_gt
    by_cases hl : a.length = b.length
    · simp only [hl, if_true, decide_eq_true_eq]
      omega
    · simp only [hl, if_false, decide_eq_true_eq]
      have hne : ¬ (false = true) := by decide
      refine ⟨?_, fun h => hne h.2, by omega, fun h => hne h.1⟩
      rcases Nat.lt_or_gt_of_ne hl with h | h
      · exact .inl h
      · exact .inr (.inr h)
  · unfold ip_address.operator_le ip_address.operator_gt
    by_cases hl : a.length = b.length
    · simp only [hl, if_true]
      by_cases h : memcmp a.addr b.addr b.length ≤ 0
      · have h' : ¬ memcmp a.addr b.addr b.length > 0 := by omega
        simp [h, h']
      · have h' : memcmp a.addr b.addr b.length > 0 := by omega
        simp [h, h']
    · simp only [hl, if_false]
      by_cases h : a.length ≤ b.length
      · have h' : ¬ a.length > b.length := by omega
        simp [h, h']
      · have h' : a.length > b.length := by omega
        simp [h, h']
  · unfold ip_address.operator_ge ip_address.operator_lt
    by_cases hl : a.length = b.length
    · simp only [hl, if_true]
      by_cases h : memcmp a.addr b.addr b.length < 0
      · have h' : ¬ memcmp a.addr b.addr b.length ≥ 0 := by omega
        simp [h, h']
      · have h' : memcmp a.addr b.addr b.length ≥ 0 := by omega
        simp [h, h']
    · simp only [hl, if_false]
      by_cases h : a.length < b.length
      · have h' : ¬ a.length ≥ b.length := by omega
        simp [h, h']
      · have h' : a.length ≥ b.length := by omega
        simp [h, h']
  · unfold ip_address.operator_gt ip_address.operator_lt
    by_cases hl : a.length = b.length
    · have hl' : b.length = a.length := hl.symm
      simp only [hl, if_true]
      rw [memcmp_swap b.length a.addr b.addr]
      by_cases h : memcmp a.addr b.addr b.length > 0
      · have h' : - memcmp a.addr b.addr b.length < 0 := by omega
        simp [h, h']
      · have h' : ¬ - memcmp a.addr b.addr b.length < 0 := by omega
        simp [h, h']
    · have hl' : ¬ b.length = a.length := fun h => hl h.symm
      simp only [hl, hl', if_false]
  · unfold ip_address.operator_lt
    intro hab hbc
    by_cases h1 : a.length = b.length
    · by_cases h2 : b.length = c.length
      · have h3 : a.length = c.length := h1.trans h2
        simp only [h1, h2, h3, if_true, decide_eq_true_eq] at hab hbc ⊢
        exact memcmp_trans _ _ _ _ hab hbc
      · have h3 : ¬ a.length = c.length := fun h => h2 (h1.symm.trans h)
        simp only [h2, h3, if_false, decide_eq_true_eq] at hbc ⊢
        omega
    · by_cases h2 : b.length = c.length
      · have h3 : ¬ a.length = c.length := fun h => h1 (h.trans h2.symm)
        simp only [h1, h3, if_false, decide_eq_true_eq] at hab ⊢
        omega
      · simp only [h1, h2, if_false, decide_eq_true_eq] at hab hbc
        have h3 : ¬ a.length = c.length := by omega
        simp only [h3, if_false, decide_eq_true_eq]
        omega

/-- C35 at concrete inputs: `10.0.0.1 < 127.0.0.1 < 192.0.2.128`, and every IPv4 address
is below every IPv6 address. -/
theorem relational_operators_consistent_witness :
    private4_example.operator_lt loopback4_example = true ∧
    loopback4_example.operator_lt documentation4_example = true ∧
    documentation4_example.operator_lt compatible_example = true ∧
    private4_example.operator_lt documentation4_example = true :=
  ⟨by decide, by decide, by decide,
    (relational_operators_consistent private4_example loopback4_example
      documentation4_example).2.2.2.2 (by decide) (by decide)⟩

end meridian

namespace meridian

/-! ## Masking -/

theorem ntohl_s_addr_lt {a : ip_address} (hw : a.wf) : a.ntohl_s_addr < 2 ^ 32 := by
  have h0 := wf_byte_lt hw 0
  have h1 := wf_byte_lt hw 1
  have h2 := wf_byte_lt hw 2
  have h3 := wf_byte_lt hw 3
  unfold ip_address.ntohl_s_addr
  omega

theorem ntohl_s_addr_htonl_bytes {v : Nat} (hv : v < 2 ^ 32) (scope : Nat) :
    ip_address.ntohl_s_addr
      { family_ := .IPv4, addr_ := memcpy ip_address.zero_addr (htonl_bytes v) 4,
        scope_ := scope } = v := by
  simp only [ip_address.ntohl_s_addr, ip_address.byte, htonl_bytes, memcpy, List.take,
    List.cons_append, List.getD_cons_zero, List.getD_cons_succ]
  omega

theorem ntohl_s_addr_default_constructor : ip_address.default_constructor.ntohl_s_addr = 0 := by
  decide

/-- What `mask` with three arguments returns on IPv4 addresses. -/
theorem mask3_ok {a m s : ip_address} (ha : a.family = .IPv4) (hm : m.family = .IPv4)
    (hs : s.family = .IPv4) :
    ip_address.mask3 a m s =
      .ok { family_ := .IPv4,
            addr_ := memcpy ip_address.zero_addr
              (htonl_bytes ((a.ntohl_s_addr &&& m.ntohl_s_addr) |||
                (s.ntohl_s_addr &&& (0xffffffff - m.ntohl_s_addr)))) 4,
            scope_ := 0 } := by
  simp [ip_address.mask3, ha, hm, hs, ip_address.from_bytes]

theorem mask3_value_lt {a m s : ip_address} (ha : a.wf) :
    (a.ntohl_s_addr &&& m.ntohl_s_addr) |||
      (s.ntohl_s_addr &&& (0xffffffff - m.ntohl_s_addr)) < 2 ^ 32 := by
  apply Nat.or_lt_two_pow
  · exact lt_of_le_of_lt Nat.and_le_left (ntohl_s_addr_lt ha)
  · exact Nat.and_lt_two_pow _ (by omega)

/-- C36: for all addresses `a`, `m`, `s` (16 bytes of storage, byte values below 256):
`mask(a, m, s)` throws `unsupported_operation_exception` exactly when one of the three is
not an IPv4 address, and otherwise returns the IPv4 address whose 32-bit value is
`(a & m) | (s & ~m)`; `mask(a, m)` throws exactly when `a` or `m` is not an IPv4 address,
and otherwise returns the IPv4 address `a & m`, on which `mask` with the same netmask
returns the same address again. -/
theorem mask_computes_documented_expression (a m s : ip_address) (ha : a.wf) :
    (ip_address.mask3 a m s = .error .unsupported_operation_exception ↔
      ¬ (a.family = .IPv4 ∧ m.family = .IPv4 ∧ s.family = .IPv4)) ∧
    (a.family = .IPv4 ∧ m.family = .IPv4 ∧ s.family = .IPv4 →
      ∃ r, ip_address.mask3 a m s = .ok r ∧ r.family = .IPv4 ∧
        r.ntohl_s_addr = (a.ntohl_s_addr &&& m.ntohl_s_addr) |||
          (s.ntohl_s_addr &&& (0xffffffff - m.ntohl_s_addr))) ∧
    (ip_address.mask a m = .error .unsupported_operation_exception ↔
      ¬ (a.family = .IPv4 ∧ m.family = .IPv4)) ∧
    (a.family = .IPv4 ∧ m.family = .IPv4 →
      ∃ r, ip_address.mask a m = .ok r ∧ r.family = .IPv4 ∧
        r.ntohl_s_addr = a.ntohl_s_addr &&& m.ntohl_s_addr ∧
        ip_address.mask r m = .ok r ∧ r.operator_eq r = true) := by
  have hthrow : ∀ s' : ip_address,
      (ip_address.mask3 a m s' = .error .unsupported_operation_exception ↔
        ¬ (a.family = .IPv4 ∧ m.family = .IPv4 ∧ s'.family = .IPv4)) := by
    intro s'
    by_cases h : a.family = .IPv4 ∧ m.family = .IPv4 ∧ s'.family = .IPv4
    · rw [mask3_ok h.1 h.2.1 h.2.2]
      simp [h]
    · have h' : a.family ≠ .IPv4 ∨ m.family ≠ .IPv4 ∨ s'.family ≠ .IPv4 := by
        by_contra hc
        push_neg at hc
        exact h hc
      simp [ip_address.mask3, h', h]
  have hd : ip_address.default_constructor.family = .IPv4 := rfl
  refine ⟨hthrow s, fun h => ?_, ?_, fun h => ?_⟩
  · exact ⟨_, mask3_ok h.1 h.2.1 h.2.2, rfl, ntohl_s_addr_htonl_bytes (mask3_value_lt ha) 0⟩
  · unfold ip_address.mask
    rw [hthrow]
    simp [hd]
  · have hv : (a.ntohl_s_addr &&& m.ntohl_s_addr) |||
        (ip_address.default_constructor.ntohl_s_addr &&& (0xffffffff - m.ntohl_s_addr)) =
        a.ntohl_s_addr &&& m.ntohl_s_addr := by
      rw [ntohl_s_addr_default_constructor]
      simp
    have hlt : a.ntohl_s_addr &&& m.ntohl_s_addr < 2 ^ 32 :=
      lt_of_le_of_lt Nat.and_le_left (ntohl_s_addr_lt ha)
    have h1 : ip_address.mask a m =
        .ok { family_ := .IPv4,
              addr_ := memcpy ip_address.zero_addr
                (htonl_bytes (a.ntohl_s_addr &&& m.ntohl_s_addr)) 4,
              scope_ := 0 } := by
      unfold ip_address.mask
      rw [mask3_ok h.1 h.2 hd, hv]
    refine ⟨_, h1, rfl, ntohl_s_addr_htonl_bytes hlt 0, ?_, ?_⟩
    · unfold ip_address.mask
      rw [@mask3_ok
          { family_ := .IPv4,
            addr_ := memcpy ip_address.zero_addr
              (htonl_bytes (a.ntohl_s_addr &&& m.ntohl_s_addr)) 4,
            scope_ := 0 } m ip_address.default_constructor rfl h.2 hd,
        ntohl_s_addr_default_constructor, ntohl_s_addr_htonl_bytes hlt 0]
      simp [Nat.and_assoc]
    · simp [ip_address.operator_eq, ip_address.addr, ip_address.length, family_length,
        memcmp, memcpy, htonl_bytes]

/-- C36 at concrete inputs: `192.0.2.128` under the netmask `255.255.255.0`, with and
without the host part `0.0.0.7`; an IPv6 argument makes `mask` throw. -/
theorem mask_computes_documented_expression_witness :
    documentation4_example.wf ∧
    ip_address.mask3 documentation4_example netmask24_example host_part_example =
      .ok ⟨.IPv4, [192, 0, 2, 7, 0, 0, 0, 0, 0, 0, 0, 0, 0, 0, 0, 0], 0⟩ ∧
    ip_address.mask documentation4_example netmask24_example =
      .ok ⟨.IPv4, [192, 0, 2, 0, 0, 0, 0, 0, 0, 0, 0, 0, 0, 0, 0, 0], 0⟩ ∧
    ip_address.mask documentation4_example mapped_example =
      .error .unsupported_operation_exception ∧
    ∃ r, ip_address.mask3 documentation4_example netmask24_example host_part_example =
        .ok r ∧ r.family = .IPv4 ∧
      r.ntohl_s_addr =
        (documentation4_example.ntohl_s_addr &&& netmask24_example.ntohl_s_addr) |||
          (host_part_example.ntohl_s_addr &&& (0xffffffff - netmask24_example.ntohl_s_addr)) :=
  ⟨by decide, rfl, rfl, rfl,
    (mask_computes_documented_expression documentation4_example netmask24_example
      host_part_example (by decide)).2.1 ⟨rfl, rfl, rfl⟩⟩

end meridian
